import Mathlib

/-!
# Presentation subsystem of the engine: `RHI_SwapChain`

Shallow embedding of `runtime/RHI/Vulkan/Vulkan_SwapChain.cpp`, and of
`Mesh::AddLod` and `Mesh::GetGeometry` of `runtime/Rendering/Mesh.cpp`.

* The member variables of `RHI_SwapChain` become the fields of a structure, the
  fixed-size `std::array` members become lists whose length is the capacity of
  the array.
* Everything the class does to its collaborators (the Vulkan driver, the
  graphics queue, a command list, the thread's sleep) is appended to a trace of
  `Event`s, in program order.
* What the driver answers to an acquire request is an input: a stream of
  answers, one per request.  Everything else the code takes from outside the
  file (constants of the class, answers of SDL, of the driver and of the
  device layer) is a field of the structure `Platform`.
* A member function is a function from the world before the call to an
  `Outcome`: the world at the point where the call returned or stopped, and the
  fault that stopped it, if any.  Undefined behaviour of the C++ (an array
  subscript outside the array, a null pointer dereferenced, a remainder by zero)
  is a fault of its own kind, distinct from a failed assertion.
* `uint32_t` arithmetic is arithmetic on `Nat` reduced modulo `2 ^ 32`.
-/

namespace spartan

/-! ## Data model -/

/-- Modelled from the spec: the enumeration `RHI_Image_Layout` is declared in
`RHI_Definitions.h`, which is not part of the sources at hand.  The three values
the swapchain names are kept (`Max` is the "undefined" layout the images start
in); every other enumerator is `Other tag`. -/
inductive RHI_Image_Layout where
  | Max
  | Attachment
  | Present_Source
  | Other (tag : Nat)
  deriving DecidableEq, Repr

/-- Modelled from the spec: the enumeration `RHI_Present_Mode` (immediate,
mailbox, fifo), declared in `RHI_Definitions.h`. -/
inductive RHI_Present_Mode where
  | Immediate
  | Mailbox
  | Fifo
  deriving DecidableEq, Repr

/-- Modelled from the spec: the enumeration `RHI_Format`, declared in
`RHI_Definitions.h`.  The three formats the swapchain names are kept, every
other enumerator is `Other tag`. -/
inductive RHI_Format where
  | R8G8B8A8_Unorm
  | B8R8G8A8_Unorm
  | R10G10B10A2_Unorm
  | Other (tag : Nat)
  deriving DecidableEq, Repr

/-- The class `RHI_SyncPrimitive` as far as the swapchain touches it: the GPU
handle returned by `GetRhiResource()` and the public flag
`has_been_waited_for`.  A pointer to a sync primitive is modelled by the handle
of the object it points to, `none` being the null pointer. -/
structure RHI_SyncPrimitive where
  m_rhi_resource : Nat
  has_been_waited_for : Bool
  deriving DecidableEq, Repr

/-- The command list the graphics queue returns from `GetCommandList()`, as far
as `Present` reads and writes it: `GetSwapchainId()` and the object behind
`GetRenderingCompleteSemaphore()`. -/
structure RHI_CommandList where
  m_swapchain_id : Nat
  m_rendering_complete_semaphore : RHI_SyncPrimitive
  deriving DecidableEq, Repr

/-- The member variables of `RHI_SwapChain`; `m_object_name` is left out.
Pointers and handles are `Option Nat`, `none` being null. -/
structure RHI_SwapChain where
  m_object_id : Nat
  m_sdl_window : Option Nat
  m_buffer_count : Nat
  m_width : Nat
  m_height : Nat
  m_format : RHI_Format
  m_present_mode : RHI_Present_Mode
  m_image_index : Nat
  m_buffer_index : Nat
  m_layouts : List RHI_Image_Layout
  m_rhi_rt : List (Option Nat)
  m_rhi_rtv : List (Option Nat)
  m_image_acquired_semaphore : List (Option RHI_SyncPrimitive)
  m_wait_semaphores : List (Option Nat)
  m_rhi_swapchain : Option Nat
  m_rhi_surface : Option Nat
  deriving DecidableEq, Repr

/-- The Vulkan enumeration `VkPresentModeKHR`: the four modes of the core
extension, every other value being `other code`. -/
inductive VkPresentModeKHR where
  | VK_PRESENT_MODE_IMMEDIATE_KHR
  | VK_PRESENT_MODE_MAILBOX_KHR
  | VK_PRESENT_MODE_FIFO_KHR
  | VK_PRESENT_MODE_FIFO_RELAXED_KHR
  | other (code : Nat)
  deriving DecidableEq, Repr

/-- The Vulkan enumeration `VkColorSpaceKHR`: the two values the swapchain
names, every other value being `other code`. -/
inductive VkColorSpaceKHR where
  | VK_COLOR_SPACE_SRGB_NONLINEAR_KHR
  | VK_COLOR_SPACE_HDR10_ST2084_EXT
  | other (code : Nat)
  deriving DecidableEq, Repr

/-- The Vulkan enumeration `VkSharingMode`. -/
inductive VkSharingMode where
  | VK_SHARING_MODE_EXCLUSIVE
  | VK_SHARING_MODE_CONCURRENT
  deriving DecidableEq, Repr

/-- The Vulkan structure `VkSurfaceFormatKHR`; a `VkFormat` is its numeric
code. -/
structure VkSurfaceFormatKHR where
  format : Nat
  colorSpace : VkColorSpaceKHR
  deriving DecidableEq, Repr

/-- The Vulkan structure `VkExtent2D`. -/
structure VkExtent2D where
  width : Nat
  height : Nat
  deriving DecidableEq, Repr

/-- The fields of the Vulkan structure `VkSurfaceCapabilitiesKHR` that the
swapchain reads. -/
structure VkSurfaceCapabilitiesKHR where
  minImageExtent : VkExtent2D
  maxImageExtent : VkExtent2D
  currentTransform : Nat
  supportedCompositeAlpha : Nat
  deriving DecidableEq, Repr

/-- The fields of the Vulkan structure `VkSwapchainCreateInfoKHR` that `Create`
fills in. -/
structure VkSwapchainCreateInfoKHR where
  surface : Nat
  minImageCount : Nat
  imageFormat : Nat
  imageColorSpace : VkColorSpaceKHR
  imageExtent : VkExtent2D
  imageArrayLayers : Nat
  imageUsage : Nat
  imageSharingMode : VkSharingMode
  queueFamilyIndexCount : Nat
  pQueueFamilyIndices : List Nat
  preTransform : Nat
  compositeAlpha : Nat
  presentMode : VkPresentModeKHR
  clipped : Bool
  oldSwapchain : Option Nat
  deriving DecidableEq, Repr

/-- Calls the swapchain makes on its collaborators, with the arguments that
matter to the presentation logic.  Pure queries of the driver are not
recorded: their answers are inputs (see `Platform`). -/
inductive Event where
  | vkAcquireNextImageKHR (swapchain : Option Nat) (timeout : Nat) (semaphore : Nat)
  | sleep_for (milliseconds : Nat)
  | InsertBarrierTexture (cmd_list : Nat) (image : Option Nat)
      (layout_old layout_new : RHI_Image_Layout)
  | Queue_Present (swapchain : Option Nat) (image_index : Nat)
      (wait_semaphores : List (Option Nat))
  | QueueWaitAll
  | DeletionQueueAdd (image_view : Nat)
  | m_image_acquired_semaphore_fill (released : List Nat)
  | vkDestroySwapchainKHR (swapchain : Option Nat)
  | vkDestroySurfaceKHR (surface : Option Nat)
  | SDL_Vulkan_CreateSurface (window : Option Nat)
  | vkCreateSwapchainKHR (create_info : VkSwapchainCreateInfoKHR)
  | vkSetHdrMetadataEXT (swapchain : Nat)
  | CmdImmediateBegin
  | CmdImmediateSubmit (cmd_list : Nat)
  | SetResourceName (image : Option Nat) (index : Nat)
  | vkCreateImageView (image : Option Nat) (format : Nat)
  | make_shared_RHI_SyncPrimitive (index : Nat)
  | SP_LOG_WARNING
  | SP_LOG_INFO
  | Timer_OnVsyncToggled (enabled : Bool)
  | SP_SUBSCRIBE_TO_EVENT
  deriving DecidableEq, Repr

/-- Ways in which a call stops without returning. -/
inductive Fault where
  | assertion_failed
  | out_of_bounds
  | null_dereference
  | division_by_zero
  deriving DecidableEq, Repr

/-- Modelled from the spec: the assertion macros `SP_ASSERT`, `SP_ASSERT_MSG`
and `SP_ASSERT_VK` are defined in headers that are not part of the sources at
hand.  Following the spec, a failed assertion is a hard failure without a
recovery path: the call stops where the assertion stands.  `SP_ASSERT
condition` is the fault raised there, `none` when the condition holds. -/
def SP_ASSERT (condition : Bool) : Option Fault :=
  if condition then none else some Fault.assertion_failed

/-- The swapchain, the current command list of the graphics queue, and the
calls made so far. -/
structure World where
  swapchain : RHI_SwapChain
  cmd_list : RHI_CommandList
  trace : List Event
  deriving DecidableEq, Repr

/-- Where a call left the world, and the fault that stopped it (`none` when the
call returned). -/
structure Outcome where
  world : World
  fault : Option Fault
  deriving DecidableEq, Repr

/-- What `vkAcquireNextImageKHR` answers to one request: `VK_SUCCESS` together
with the index it wrote through `pImageIndex`, `VK_NOT_READY` (nothing
written), or any other `VkResult` code (nothing written). -/
inductive VkAcquireAnswer where
  | VK_SUCCESS (image_index : Nat)
  | VK_NOT_READY
  | other (code : Int)
  deriving DecidableEq, Repr

/-- Modelled from the spec: `SP_ASSERT_VK(result)`, defined outside the sources
at hand, asserts that a Vulkan call answered `VK_SUCCESS`. -/
def SP_ASSERT_VK (result : VkAcquireAnswer) : Option Fault :=
  SP_ASSERT (match result with
    | VkAcquireAnswer.VK_SUCCESS _ => true
    | _ => false)

/-- Reduction of a natural number to the range of `uint32_t`. -/
def u32 (n : Nat) : Nat := n % 2 ^ 32

/-! ## `RHI_SwapChain::Present` -/

/-- Embedding of `RHI_SwapChain::Present`. -/
def Present (w : World) : Outcome :=
  let sc := w.swapchain
  -- SP_ASSERT(m_layouts[m_image_index] == RHI_Image_Layout::Present_Source);
  match sc.m_layouts[sc.m_image_index]? with
  | none => ⟨w, some Fault.out_of_bounds⟩
  | some layout =>
    match SP_ASSERT (layout == RHI_Image_Layout.Present_Source) with
    | some fault => ⟨w, some fault⟩
    | none =>
      -- m_wait_semaphores.clear();
      let wait0 : List (Option Nat) := []
      -- get semaphores from command lists
      let cmd := w.cmd_list
      let presents_to_this_swapchain := cmd.m_swapchain_id == sc.m_object_id
      let cmd1 : RHI_CommandList :=
        if presents_to_this_swapchain then
          { cmd with m_rendering_complete_semaphore :=
              { cmd.m_rendering_complete_semaphore with has_been_waited_for := true } }
        else cmd
      let wait1 : List (Option Nat) :=
        if presents_to_this_swapchain then
          wait0 ++ [some cmd.m_rendering_complete_semaphore.m_rhi_resource]
        else wait0
      -- get semaphore from vkAcquireNextImageKHR
      match sc.m_image_acquired_semaphore[sc.m_buffer_index]? with
      | none =>
        ⟨{ w with swapchain := { sc with m_wait_semaphores := wait1 }, cmd_list := cmd1 },
          some Fault.out_of_bounds⟩
      | some image_acquired_semaphore =>
        let wait2 := wait1 ++ [image_acquired_semaphore.map (fun p => p.m_rhi_resource)]
        -- queue->Present(m_rhi_swapchain, m_image_index, m_wait_semaphores);
        ⟨{ swapchain := { sc with m_wait_semaphores := wait2 },
           cmd_list := cmd1,
           trace := w.trace ++ [Event.Queue_Present sc.m_rhi_swapchain sc.m_image_index wait2] },
          none⟩

/-! ## `RHI_SwapChain::AcquireNextImage` -/

/-- The constant `retry_max` of `AcquireNextImage`. -/
def retry_max : Nat := 10

/-- The `while (retry_count < retry_max)` loop of `AcquireNextImage`.
`driver` is the stream of answers the driver gives to the requests still to
come, `signal_semaphore` the pointer read before the loop. -/
def acquire_loop (signal_semaphore : Option RHI_SyncPrimitive)
    (driver : Nat → VkAcquireAnswer) (w : World) (retry_count : Nat) : Outcome :=
  if retry_count < retry_max then
    -- signal_semaphore->GetRhiResource()
    match signal_semaphore with
    | none => ⟨w, some Fault.null_dereference⟩
    | some semaphore =>
      let w1 : World :=
        { w with trace := w.trace ++
            [Event.vkAcquireNextImageKHR w.swapchain.m_rhi_swapchain 16000000
              semaphore.m_rhi_resource] }
      match driver 0 with
      | VkAcquireAnswer.VK_SUCCESS image_index =>
        ⟨{ w1 with swapchain := { w1.swapchain with m_image_index := image_index } }, none⟩
      | VkAcquireAnswer.VK_NOT_READY =>
        acquire_loop signal_semaphore (fun n => driver (n + 1))
          { w1 with trace := w1.trace ++ [Event.sleep_for 16] } (u32 (retry_count + 1))
      | VkAcquireAnswer.other code =>
        -- SP_ASSERT_VK(result), which fails: the result is not VK_SUCCESS
        ⟨w1, SP_ASSERT_VK (VkAcquireAnswer.other code)⟩
  else
    ⟨w, none⟩
termination_by retry_max - retry_count
decreasing_by
  simp only [u32, retry_max] at *
  omega

/-- Embedding of `RHI_SwapChain::AcquireNextImage`. -/
def AcquireNextImage (driver : Nat → VkAcquireAnswer) (w : World) : Outcome :=
  let sc := w.swapchain
  -- m_buffer_index = (m_buffer_index + 1) % m_buffer_count;
  if sc.m_buffer_count = 0 then
    ⟨w, some Fault.division_by_zero⟩
  else
    let buffer_index := u32 (sc.m_buffer_index + 1) % sc.m_buffer_count
    let w1 : World := { w with swapchain := { sc with m_buffer_index := buffer_index } }
    -- m_image_acquired_semaphore[m_buffer_index].get()
    match sc.m_image_acquired_semaphore[buffer_index]? with
    | none => ⟨w1, some Fault.out_of_bounds⟩
    | some signal_semaphore => acquire_loop signal_semaphore driver w1 0

/-! ## `RHI_SwapChain::SetLayout`, `RHI_SwapChain::GetLayout` -/

/-- Embedding of `RHI_SwapChain::SetLayout`; `cmd_list` names the command list
the barrier is recorded into. -/
def SetLayout (layout : RHI_Image_Layout) (cmd_list : Nat) (w : World) : Outcome :=
  let sc := w.swapchain
  match sc.m_layouts[sc.m_image_index]? with
  | none => ⟨w, some Fault.out_of_bounds⟩
  | some current =>
    if current = layout then
      ⟨w, none⟩
    else
      match sc.m_rhi_rt[sc.m_image_index]? with
      | none => ⟨w, some Fault.out_of_bounds⟩
      | some image =>
        ⟨{ w with
            swapchain := { sc with m_layouts := sc.m_layouts.set sc.m_image_index layout },
            trace := w.trace ++ [Event.InsertBarrierTexture cmd_list image current layout] },
          none⟩

/-- Embedding of `RHI_SwapChain::GetLayout`. -/
def GetLayout (sc : RHI_SwapChain) : Option RHI_Image_Layout :=
  sc.m_layouts[sc.m_image_index]?

/-! ## The platform: what the code takes from outside this file -/

/-- A `VkResult` is its numeric code. -/
abbrev VkResult := Int

/-- The `VkResult` code of success. -/
def VK_SUCCESS : VkResult := 0

/-- What `Create` and its callers take from declarations and collaborators that
are not part of the sources at hand: the constants `format_sdr` and
`format_hdr` of the class, the table `vulkan_format`, the predicate
`RHI_Device::IsValidResolution`, `Display::GetHdr()`, and the answers of SDL,
of the Vulkan driver and of `RHI_Device` to the calls `Create` makes.  A
handle that a successful call writes is a field of its own next to the result
of the call. -/
structure Platform where
  format_sdr : RHI_Format
  format_hdr : RHI_Format
  vulkan_format : RHI_Format → Nat
  IsValidResolution : Nat → Nat → Bool
  Display_GetHdr : Bool
  SDL_Vulkan_CreateSurface : Option Nat
  vkGetPhysicalDeviceSurfaceSupportKHR : VkResult
  present_support : Bool
  vkGetPhysicalDeviceSurfaceCapabilitiesKHR : VkResult
  surface_capabilities : VkSurfaceCapabilitiesKHR
  vkGetPhysicalDeviceSurfaceFormatsKHR_count : VkResult
  vkGetPhysicalDeviceSurfaceFormatsKHR : VkResult
  surface_formats : List VkSurfaceFormatKHR
  surface_present_modes : List VkPresentModeKHR
  queue_index_compute : Nat
  queue_index_graphics : Nat
  vkCreateSwapchainKHR : VkResult
  swap_chain : Nat
  pfnVkSetHdrMetadataEXT : Bool
  vkGetSwapchainImagesKHR_count : VkResult
  vkGetSwapchainImagesKHR : VkResult
  swapchain_images : List Nat
  CmdImmediateBegin : Option Nat
  vkCreateImageView : Nat → VkResult
  image_view : Nat → Nat
  semaphore : Nat → Nat

/-! ## Sequencing -/

/-- Sequential composition: `next` runs in the world `o` ended in, unless `o`
stopped on a fault. -/
def Outcome.and_then (o : Outcome) (next : World → Outcome) : Outcome :=
  match o.fault with
  | none => next o.world
  | some _ => o

/-- The world after one more call on a collaborator. -/
def emit (e : Event) (w : World) : World :=
  { w with trace := w.trace ++ [e] }

/-- An assertion standing in the world `w`. -/
def assert_that (condition : Bool) (w : World) : Outcome :=
  ⟨w, SP_ASSERT condition⟩

/-- A loop `for (uint32_t i = 0; i < n; i++)` runs `body` on the indices
`List.range n`, in order, and stops at the first fault. -/
def for_each_index (body : Nat → World → Outcome) : List Nat → World → Outcome
  | [], w => ⟨w, none⟩
  | i :: rest, w =>
    match body i w with
    | ⟨w1, none⟩ => for_each_index body rest w1
    | ⟨w1, some f⟩ => ⟨w1, some f⟩

/-! ## Capability negotiation helpers -/

/-- The function `get_color_space`. -/
def get_color_space (format : RHI_Format) : VkColorSpaceKHR :=
  if format = RHI_Format.R10G10B10A2_Unorm then VkColorSpaceKHR.VK_COLOR_SPACE_HDR10_ST2084_EXT
  else VkColorSpaceKHR.VK_COLOR_SPACE_SRGB_NONLINEAR_KHR

/-- The function `set_hdr_metadata`; the metadata values are floating-point
constants and are not recorded. -/
def set_hdr_metadata (p : Platform) (swapchain : Nat) (w : World) : Outcome :=
  -- SP_ASSERT(pfnVkSetHdrMetadataEXT != nullptr);
  (assert_that p.pfnVkSetHdrMetadataEXT w).and_then fun w =>
  ⟨emit (Event.vkSetHdrMetadataEXT swapchain) w, none⟩

/-- The function `get_surface_capabilities`; the result code of the query is
not looked at. -/
def get_surface_capabilities (p : Platform) : VkSurfaceCapabilitiesKHR :=
  p.surface_capabilities

/-- The function `get_supported_present_modes`.  `&surface_present_modes[0]`
subscripts the vector, which is out of bounds when the driver reports no
mode. -/
def get_supported_present_modes (p : Platform) : Except Fault (List VkPresentModeKHR) :=
  if p.surface_present_modes = [] then Except.error Fault.out_of_bounds
  else Except.ok p.surface_present_modes

/-- The function `get_present_mode`: the mode handed to the driver, and the
warning logged on the way, if any. -/
def get_present_mode (p : Platform) (present_mode : RHI_Present_Mode) :
    Except Fault (VkPresentModeKHR × List Event) :=
  -- convert RHI_Present_Mode to VkPresentModeKHR
  let vk_present_mode :=
    if present_mode = RHI_Present_Mode.Immediate then
      VkPresentModeKHR.VK_PRESENT_MODE_IMMEDIATE_KHR
    else if present_mode = RHI_Present_Mode.Mailbox then
      VkPresentModeKHR.VK_PRESENT_MODE_MAILBOX_KHR
    else VkPresentModeKHR.VK_PRESENT_MODE_FIFO_KHR
  -- return the present mode as is if the surface supports it
  match get_supported_present_modes p with
  | Except.error f => Except.error f
  | Except.ok surface_present_modes =>
    if surface_present_modes.any (fun supported_present_mode =>
        vk_present_mode == supported_present_mode) then
      Except.ok (vk_present_mode, [])
    else
      Except.ok (VkPresentModeKHR.VK_PRESENT_MODE_FIFO_KHR, [Event.SP_LOG_WARNING])

/-- The function `get_supported_surface_formats`.  `&surface_formats[0]`
subscripts the vector, which is out of bounds when the driver reports no
format. -/
def get_supported_surface_formats (p : Platform) : Except Fault (List VkSurfaceFormatKHR) :=
  match SP_ASSERT (p.vkGetPhysicalDeviceSurfaceFormatsKHR_count == VK_SUCCESS) with
  | some f => Except.error f
  | none =>
    if p.surface_formats = [] then Except.error Fault.out_of_bounds
    else
      match SP_ASSERT (p.vkGetPhysicalDeviceSurfaceFormatsKHR == VK_SUCCESS) with
      | some f => Except.error f
      | none => Except.ok p.surface_formats

/-- The function `is_format_and_color_space_supported`: its return value and
the format it leaves behind the pointer `format`. -/
def is_format_and_color_space_supported (p : Platform) (format : RHI_Format)
    (color_space : VkColorSpaceKHR) : Except Fault (Bool × RHI_Format) :=
  match get_supported_surface_formats p with
  | Except.error f => Except.error f
  | Except.ok supported_formats =>
    -- NV supports RHI_Format::B8R8G8A8_Unorm instead of RHI_Format::R8G8B8A8_Unorm.
    let format1 :=
      if format = RHI_Format.R8G8B8A8_Unorm then RHI_Format.B8R8G8A8_Unorm else format
    Except.ok
      (supported_formats.any (fun supported_format =>
          supported_format.format == p.vulkan_format format1 &&
            supported_format.colorSpace == color_space),
        format1)

/-- The four `VkCompositeAlphaFlagBitsKHR`, in the order of the vector
`composite_alpha_flags`: opaque, pre-multiplied, post-multiplied, inherit. -/
def composite_alpha_flags : List Nat := [1, 2, 4, 8]

/-- The function `get_supported_composite_alpha_format`. -/
def get_supported_composite_alpha_format (p : Platform) : Except Fault Nat :=
  match SP_ASSERT (p.vkGetPhysicalDeviceSurfaceCapabilitiesKHR == VK_SUCCESS) with
  | some f => Except.error f
  | none =>
    -- Simply select the first composite alpha format available
    match composite_alpha_flags.find? (fun composite_alpha =>
        p.surface_capabilities.supportedCompositeAlpha &&& composite_alpha != 0) with
    | some composite_alpha => Except.ok composite_alpha
    | none => Except.ok 1

/-- Modelled from the spec: `clamp`, which the sources at hand call and do not
define, "clamps width/height into the adapter-reported min/max extent".  The
definition is that of `std::clamp`, which presupposes `lo <= hi`. -/
def clamp (v lo hi : Nat) : Nat :=
  if v < lo then lo else if hi < v then hi else v

/-! ## `RHI_SwapChain::Create` -/

/-- Body of the loop of `Create` that transitions the layouts. -/
def Create_transition (cmd_list : Nat) (i : Nat) (w : World) : Outcome :=
  match w.swapchain.m_rhi_rt[i]? with
  | none => ⟨w, some Fault.out_of_bounds⟩
  | some image =>
    let w1 := emit (Event.InsertBarrierTexture cmd_list image RHI_Image_Layout.Max
      RHI_Image_Layout.Attachment) w
    -- m_layouts[i] = RHI_Image_Layout::Attachment;
    if i < w1.swapchain.m_layouts.length then
      ⟨{ w1 with swapchain := { w1.swapchain with
          m_layouts := w1.swapchain.m_layouts.set i RHI_Image_Layout.Attachment } }, none⟩
    else ⟨w1, some Fault.out_of_bounds⟩

/-- Body of the loop of `Create` that builds the image views. -/
def Create_image_view (p : Platform) (i : Nat) (w : World) : Outcome :=
  match w.swapchain.m_rhi_rt[i]? with
  | none => ⟨w, some Fault.out_of_bounds⟩
  | some image =>
    let w1 := emit (Event.SetResourceName image i) w
    if i < w1.swapchain.m_rhi_rtv.length then
      let w2 := emit (Event.vkCreateImageView image (p.vulkan_format w1.swapchain.m_format)) w1
      (assert_that (p.vkCreateImageView i == VK_SUCCESS) w2).and_then fun w3 =>
      ⟨{ w3 with swapchain := { w3.swapchain with
          m_rhi_rtv := w3.swapchain.m_rhi_rtv.set i (some (p.image_view i)) } }, none⟩
    else ⟨w1, some Fault.out_of_bounds⟩

/-- Body of the loop of `Create` that allocates the acquire semaphores; the
flag `has_been_waited_for` of a new sync primitive is taken to be false. -/
def Create_semaphore (p : Platform) (i : Nat) (w : World) : Outcome :=
  let w1 := emit (Event.make_shared_RHI_SyncPrimitive i) w
  if i < w1.swapchain.m_image_acquired_semaphore.length then
    ⟨{ w1 with swapchain := { w1.swapchain with
        m_image_acquired_semaphore :=
          w1.swapchain.m_image_acquired_semaphore.set i (some ⟨p.semaphore i, false⟩) } }, none⟩
  else ⟨w1, some Fault.out_of_bounds⟩

/-- The structure `create_info` that `Create` hands to `vkCreateSwapchainKHR`,
from the members of the swapchain and the values `Create` has computed by then.
`imageUsage` is `VK_IMAGE_USAGE_COLOR_ATTACHMENT_BIT | VK_IMAGE_USAGE_TRANSFER_DST_BIT`. -/
def Create_info (p : Platform) (sc : RHI_SwapChain) (surface : Nat)
    (color_space : VkColorSpaceKHR) (capabilities : VkSurfaceCapabilitiesKHR)
    (compositeAlpha : Nat) (presentMode : VkPresentModeKHR) : VkSwapchainCreateInfoKHR :=
  let concurrent := p.queue_index_compute != p.queue_index_graphics
  { surface := surface
    minImageCount := sc.m_buffer_count
    imageFormat := p.vulkan_format sc.m_format
    imageColorSpace := color_space
    imageExtent := ⟨sc.m_width, sc.m_height⟩
    imageArrayLayers := 1
    imageUsage := 0x10 ||| 0x02
    imageSharingMode :=
      if concurrent then VkSharingMode.VK_SHARING_MODE_CONCURRENT
      else VkSharingMode.VK_SHARING_MODE_EXCLUSIVE
    queueFamilyIndexCount := if concurrent then 2 else 0
    pQueueFamilyIndices :=
      if concurrent then [p.queue_index_compute, p.queue_index_graphics] else []
    preTransform := capabilities.currentTransform
    compositeAlpha := compositeAlpha
    presentMode := presentMode
    clipped := true
    oldSwapchain := none }

/-- Embedding of `RHI_SwapChain::Create`. -/
def Create (p : Platform) (w : World) : Outcome :=
  -- SP_ASSERT(m_sdl_window != nullptr);
  (assert_that w.swapchain.m_sdl_window.isSome w).and_then fun w =>
  -- create surface
  let w := emit (Event.SDL_Vulkan_CreateSurface w.swapchain.m_sdl_window) w
  match p.SDL_Vulkan_CreateSurface with
  | none => ⟨w, SP_ASSERT false⟩
  | some surface =>
  (assert_that (p.vkGetPhysicalDeviceSurfaceSupportKHR == VK_SUCCESS) w).and_then fun w =>
  (assert_that p.present_support w).and_then fun w =>
  -- get surface capabilities
  let capabilities := get_surface_capabilities p
  -- ensure that the surface supports the requested format and color space
  let color_space := get_color_space w.swapchain.m_format
  match is_format_and_color_space_supported p w.swapchain.m_format color_space with
  | Except.error f => ⟨w, some f⟩
  | Except.ok (supported, format) =>
  let w : World := { w with swapchain := { w.swapchain with m_format := format } }
  (assert_that supported w).and_then fun w =>
  -- clamp size between the supported min and max
  let w : World := { w with swapchain := { w.swapchain with
    m_width := clamp w.swapchain.m_width capabilities.minImageExtent.width
      capabilities.maxImageExtent.width,
    m_height := clamp w.swapchain.m_height capabilities.minImageExtent.height
      capabilities.maxImageExtent.height } }
  -- swap chain
  match get_supported_composite_alpha_format p with
  | Except.error f => ⟨w, some f⟩
  | Except.ok compositeAlpha =>
  match get_present_mode p w.swapchain.m_present_mode with
  | Except.error f => ⟨w, some f⟩
  | Except.ok (presentMode, logged) =>
  let w : World := { w with trace := w.trace ++ logged }
  let create_info :=
    Create_info p w.swapchain surface color_space capabilities compositeAlpha presentMode
  let w := emit (Event.vkCreateSwapchainKHR create_info) w
  (assert_that (p.vkCreateSwapchainKHR == VK_SUCCESS) w).and_then fun w =>
  let swap_chain := p.swap_chain
  (set_hdr_metadata p swap_chain w).and_then fun w =>
  -- images
  (assert_that (p.vkGetSwapchainImagesKHR_count == VK_SUCCESS) w).and_then fun w =>
  if w.swapchain.m_rhi_rt.length < p.swapchain_images.length then
    ⟨w, some Fault.out_of_bounds⟩
  else
  let w : World := { w with swapchain := { w.swapchain with
    m_rhi_rt := p.swapchain_images.map some ++
      w.swapchain.m_rhi_rt.drop p.swapchain_images.length } }
  (assert_that (p.vkGetSwapchainImagesKHR == VK_SUCCESS) w).and_then fun w =>
  -- transition layouts to VK_IMAGE_LAYOUT_PRESENT_SRC_KHR
  let w := emit Event.CmdImmediateBegin w
  Outcome.and_then
    (match p.CmdImmediateBegin with
      | none => ⟨w, none⟩
      | some cmd_list =>
        (for_each_index (Create_transition cmd_list)
          (List.range w.swapchain.m_buffer_count) w).and_then fun w =>
        -- end/flush
        ⟨emit (Event.CmdImmediateSubmit cmd_list) w, none⟩) fun w =>
  -- image views
  (for_each_index (Create_image_view p) (List.range w.swapchain.m_buffer_count) w).and_then
    fun w =>
  let w : World := { w with swapchain := { w.swapchain with
    m_rhi_surface := some surface, m_rhi_swapchain := some swap_chain } }
  for_each_index (Create_semaphore p) (List.range w.swapchain.m_buffer_count) w

/-! ## `RHI_SwapChain::Destroy` -/

/-- The loop of `Destroy` over `m_rhi_rtv`: the deletions it queues and the
slots it leaves. -/
def Destroy_image_views : List (Option Nat) → List Event × List (Option Nat)
  | [] => ([], [])
  | none :: rest =>
    ((Destroy_image_views rest).1, none :: (Destroy_image_views rest).2)
  | some image_view :: rest =>
    (Event.DeletionQueueAdd image_view :: (Destroy_image_views rest).1,
      none :: (Destroy_image_views rest).2)

/-- The sync primitives `m_image_acquired_semaphore.fill(nullptr)` lets go of:
the handles held by the slots that are not null, in slot order. -/
def released_semaphores (slots : List (Option RHI_SyncPrimitive)) : List Nat :=
  slots.filterMap (fun slot => slot.map (fun semaphore => semaphore.m_rhi_resource))

/-- Embedding of `RHI_SwapChain::Destroy`.  The release of the acquire
semaphores by `fill(nullptr)` is recorded in the trace, with the handles let go
of. -/
def Destroy (w : World) : Outcome :=
  -- RHI_Device::QueueWaitAll();
  let w := emit Event.QueueWaitAll w
  let views := Destroy_image_views w.swapchain.m_rhi_rtv
  let w : World := { w with
    swapchain := { w.swapchain with m_rhi_rtv := views.2 },
    trace := w.trace ++ views.1 }
  -- m_image_acquired_semaphore.fill(nullptr);
  let w := emit (Event.m_image_acquired_semaphore_fill
    (released_semaphores w.swapchain.m_image_acquired_semaphore)) w
  let w : World := { w with swapchain := { w.swapchain with
    m_image_acquired_semaphore := w.swapchain.m_image_acquired_semaphore.map (fun _ => none) } }
  let w := emit (Event.vkDestroySwapchainKHR w.swapchain.m_rhi_swapchain) w
  let w : World := { w with swapchain := { w.swapchain with m_rhi_swapchain := none } }
  let w := emit (Event.vkDestroySurfaceKHR w.swapchain.m_rhi_surface) w
  let w : World := { w with swapchain := { w.swapchain with m_rhi_surface := none } }
  -- reset indices
  ⟨{ w with swapchain := { w.swapchain with m_image_index := 0, m_buffer_index := 0 } }, none⟩

/-! ## Constructor, `Resize`, `SetHdr`, `SetVsync`, `GetVsync` -/

/-- Embedding of the constructor `RHI_SwapChain::RHI_SwapChain`; the swapchain
of `w` is the object with its members default-initialised. -/
def RHI_SwapChain_constructor (p : Platform) (sdl_window : Option Nat) (width height : Nat)
    (present_mode : RHI_Present_Mode) (buffer_count : Nat) (hdr : Bool) (w : World) : Outcome :=
  (assert_that (p.IsValidResolution width height) w).and_then fun w =>
  (assert_that (decide (buffer_count ≥ 2)) w).and_then fun w =>
  let w : World := { w with swapchain := { w.swapchain with
    m_format := if hdr then p.format_hdr else p.format_sdr,
    m_buffer_count := buffer_count,
    m_width := width,
    m_height := height,
    m_sdl_window := sdl_window,
    m_present_mode := present_mode } }
  (Create p w).and_then fun w =>
  ⟨emit Event.SP_SUBSCRIBE_TO_EVENT w, none⟩

/-- Embedding of the destructor `RHI_SwapChain::~RHI_SwapChain`. -/
def RHI_SwapChain_destructor (w : World) : Outcome :=
  Destroy w

/-- Embedding of `RHI_SwapChain::Resize`. -/
def Resize (p : Platform) (width height : Nat) (w : World) : Outcome :=
  (assert_that (p.IsValidResolution width height) w).and_then fun w =>
  -- save new dimensions
  let w : World := { w with swapchain := { w.swapchain with
    m_width := width, m_height := height } }
  (Destroy w).and_then fun w =>
  (Create p w).and_then fun w =>
  ⟨emit Event.SP_LOG_INFO w, none⟩

/-- Embedding of `RHI_SwapChain::SetHdr`. -/
def SetHdr (p : Platform) (enabled : Bool) (w : World) : Outcome :=
  (if enabled then assert_that p.Display_GetHdr w else ⟨w, none⟩).and_then fun w =>
  let new_format := if enabled then p.format_hdr else p.format_sdr
  if new_format ≠ w.swapchain.m_format then
    let w : World := { w with swapchain := { w.swapchain with m_format := new_format } }
    (Destroy w).and_then fun w =>
    Create p w
  else ⟨w, none⟩

/-- Embedding of `RHI_SwapChain::SetVsync`. -/
def SetVsync (p : Platform) (enabled : Bool) (w : World) : Outcome :=
  if (decide (w.swapchain.m_present_mode = RHI_Present_Mode.Fifo)) != enabled then
    let w : World := { w with swapchain := { w.swapchain with
      m_present_mode :=
        if enabled then RHI_Present_Mode.Fifo else RHI_Present_Mode.Immediate } }
    (Destroy w).and_then fun w =>
    (Create p w).and_then fun w =>
    ⟨emit Event.SP_LOG_INFO (emit (Event.Timer_OnVsyncToggled enabled) w), none⟩
  else ⟨w, none⟩

/-- Embedding of `RHI_SwapChain::GetVsync`. -/
def GetVsync (sc : RHI_SwapChain) : Bool :=
  decide (sc.m_present_mode = RHI_Present_Mode.Fifo)

/-! ## What a `Create` that goes through leaves behind -/

/-- The list `l` with its first `n` entries replaced by `f 0, …, f (n - 1)`. -/
def overwrite {α : Type} (l : List α) (n : Nat) (f : Nat → α) : List α :=
  (List.range n).map f ++ l.drop n

/-- The events of the first `n` turns of the layout loop of `Create`. -/
def transition_events (cmd_list : Nat) (rt : List (Option Nat)) : Nat → List Event
  | 0 => []
  | n + 1 => transition_events cmd_list rt n ++
      [Event.InsertBarrierTexture cmd_list (rt.getD n none) RHI_Image_Layout.Max
        RHI_Image_Layout.Attachment]

/-- The events of the first `n` turns of the image-view loop of `Create`. -/
def image_view_events (format : Nat) (rt : List (Option Nat)) : Nat → List Event
  | 0 => []
  | n + 1 => image_view_events format rt n ++
      [Event.SetResourceName (rt.getD n none) n, Event.vkCreateImageView (rt.getD n none) format]

/-- The events of the first `n` turns of the semaphore loop of `Create`. -/
def semaphore_events : Nat → List Event
  | 0 => []
  | n + 1 => semaphore_events n ++ [Event.make_shared_RHI_SyncPrimitive n]

/-- Conditions on the platform and on the swapchain under which `Create` meets
no failed assertion and stays inside its arrays. -/
structure Create_ready (p : Platform) (w : World) : Prop where
  window : w.swapchain.m_sdl_window.isSome = true
  surface : p.SDL_Vulkan_CreateSurface.isSome = true
  surface_support : p.vkGetPhysicalDeviceSurfaceSupportKHR = VK_SUCCESS
  present_support : p.present_support = true
  formats_count : p.vkGetPhysicalDeviceSurfaceFormatsKHR_count = VK_SUCCESS
  formats_nonempty : p.surface_formats ≠ []
  formats : p.vkGetPhysicalDeviceSurfaceFormatsKHR = VK_SUCCESS
  format_supported :
    p.surface_formats.any (fun supported_format =>
      supported_format.format ==
          p.vulkan_format (if w.swapchain.m_format = RHI_Format.R8G8B8A8_Unorm then
            RHI_Format.B8R8G8A8_Unorm else w.swapchain.m_format) &&
        supported_format.colorSpace == get_color_space w.swapchain.m_format) = true
  capabilities : p.vkGetPhysicalDeviceSurfaceCapabilitiesKHR = VK_SUCCESS
  present_modes_nonempty : p.surface_present_modes ≠ []
  swapchain : p.vkCreateSwapchainKHR = VK_SUCCESS
  hdr_metadata : p.pfnVkSetHdrMetadataEXT = true
  images_count : p.vkGetSwapchainImagesKHR_count = VK_SUCCESS
  images : p.vkGetSwapchainImagesKHR = VK_SUCCESS
  images_fit : p.swapchain_images.length ≤ w.swapchain.m_rhi_rt.length
  rt_capacity : w.swapchain.m_buffer_count ≤ w.swapchain.m_rhi_rt.length
  layouts_capacity : w.swapchain.m_buffer_count ≤ w.swapchain.m_layouts.length
  rtv_capacity : w.swapchain.m_buffer_count ≤ w.swapchain.m_rhi_rtv.length
  semaphore_capacity :
    w.swapchain.m_buffer_count ≤ w.swapchain.m_image_acquired_semaphore.length
  image_views : ∀ i, i < w.swapchain.m_buffer_count → p.vkCreateImageView i = VK_SUCCESS

/-- The images `Create` finds in `m_rhi_rt` after `vkGetSwapchainImagesKHR`. -/
def created_rt (p : Platform) (sc : RHI_SwapChain) : List (Option Nat) :=
  p.swapchain_images.map some ++ sc.m_rhi_rt.drop p.swapchain_images.length

/-- The format `is_format_and_color_space_supported` leaves in `m_format`. -/
def created_format (sc : RHI_SwapChain) : RHI_Format :=
  if sc.m_format = RHI_Format.R8G8B8A8_Unorm then RHI_Format.B8R8G8A8_Unorm else sc.m_format

/-- The composite-alpha mode a `Create` that goes through hands to the driver. -/
def created_composite_alpha (p : Platform) : Nat :=
  match get_supported_composite_alpha_format p with
  | Except.ok compositeAlpha => compositeAlpha
  | Except.error _ => 1

/-- The present mode a `Create` that goes through hands to the driver, and the
warning logged on the way, if any. -/
def created_present_mode (p : Platform) (present_mode : RHI_Present_Mode) :
    VkPresentModeKHR × List Event :=
  match get_present_mode p present_mode with
  | Except.ok chosen => chosen
  | Except.error _ => (VkPresentModeKHR.VK_PRESENT_MODE_FIFO_KHR, [])

/-- The swapchain a `Create` that goes through leaves behind. -/
def created_swapchain (p : Platform) (sc : RHI_SwapChain) : RHI_SwapChain :=
  { sc with
    m_format := created_format sc
    m_width := clamp sc.m_width p.surface_capabilities.minImageExtent.width
      p.surface_capabilities.maxImageExtent.width
    m_height := clamp sc.m_height p.surface_capabilities.minImageExtent.height
      p.surface_capabilities.maxImageExtent.height
    m_rhi_rt := created_rt p sc
    m_layouts :=
      match p.CmdImmediateBegin with
      | none => sc.m_layouts
      | some _ => overwrite sc.m_layouts sc.m_buffer_count (fun _ => RHI_Image_Layout.Attachment)
    m_rhi_rtv := overwrite sc.m_rhi_rtv sc.m_buffer_count (fun i => some (p.image_view i))
    m_image_acquired_semaphore :=
      overwrite sc.m_image_acquired_semaphore sc.m_buffer_count
        (fun i => some ⟨p.semaphore i, false⟩)
    m_rhi_surface := p.SDL_Vulkan_CreateSurface
    m_rhi_swapchain := some p.swap_chain }

/-- The structure `create_info` of a `Create` that goes through. -/
def created_info (p : Platform) (sc : RHI_SwapChain) : VkSwapchainCreateInfoKHR :=
  Create_info p
    { sc with
      m_format := created_format sc
      m_width := clamp sc.m_width p.surface_capabilities.minImageExtent.width
        p.surface_capabilities.maxImageExtent.width
      m_height := clamp sc.m_height p.surface_capabilities.minImageExtent.height
        p.surface_capabilities.maxImageExtent.height }
    (p.SDL_Vulkan_CreateSurface.getD 0) (get_color_space sc.m_format) p.surface_capabilities
    (created_composite_alpha p) (created_present_mode p sc.m_present_mode).1

/-- The events of a `Create` that goes through, in order. -/
def created_events (p : Platform) (sc : RHI_SwapChain) : List Event :=
  [Event.SDL_Vulkan_CreateSurface sc.m_sdl_window] ++
    (created_present_mode p sc.m_present_mode).2 ++
    [Event.vkCreateSwapchainKHR (created_info p sc),
      Event.vkSetHdrMetadataEXT p.swap_chain,
      Event.CmdImmediateBegin] ++
    (match p.CmdImmediateBegin with
      | none => []
      | some cmd_list =>
        transition_events cmd_list (created_rt p sc) sc.m_buffer_count ++
          [Event.CmdImmediateSubmit cmd_list]) ++
    image_view_events (p.vulkan_format (created_format sc)) (created_rt p sc)
      sc.m_buffer_count ++
    semaphore_events sc.m_buffer_count

/-- The world a `Create` that goes through leaves behind. -/
def created (p : Platform) (w : World) : World :=
  { swapchain := created_swapchain p w.swapchain
    cmd_list := w.cmd_list
    trace := w.trace ++ created_events p w.swapchain }

/-- The layouts a `Create` that goes through leaves recorded. -/
def created_layouts (p : Platform) (sc : RHI_SwapChain) : List RHI_Image_Layout :=
  (created_swapchain p sc).m_layouts

/-- What `Create`, started in the world `w0`, has left alone when it stands in
the world `w` somewhere before its semaphore loop: the calls made so far are
still in the trace, and the buffer count, the buffer index and the acquire
semaphores are as they were. -/
structure Create_untouched (w0 w : World) : Prop where
  trace : ∃ events, w.trace = w0.trace ++ events
  buffer_count : w.swapchain.m_buffer_count = w0.swapchain.m_buffer_count
  buffer_index : w.swapchain.m_buffer_index = w0.swapchain.m_buffer_index
  semaphores : w.swapchain.m_image_acquired_semaphore = w0.swapchain.m_image_acquired_semaphore

/-- What holds of the outcome `o` of `Create`, started in the world `w0`,
however it ends: the calls made before are still in the trace, the buffer count
and the buffer index are as they were; and if `Create` returned, the
semaphore array has room for `m_buffer_count` semaphores and holds new ones in
its first `m_buffer_count` slots. -/
structure Create_post (p : Platform) (w0 : World) (o : Outcome) : Prop where
  trace : ∃ events, o.world.trace = w0.trace ++ events
  buffer_count : o.world.swapchain.m_buffer_count = w0.swapchain.m_buffer_count
  buffer_index : o.world.swapchain.m_buffer_index = w0.swapchain.m_buffer_index
  semaphores : o.fault = none →
    w0.swapchain.m_buffer_count ≤ w0.swapchain.m_image_acquired_semaphore.length ∧
      o.world.swapchain.m_image_acquired_semaphore =
        overwrite w0.swapchain.m_image_acquired_semaphore w0.swapchain.m_buffer_count
          (fun i => some ⟨p.semaphore i, false⟩)

/-! ## Sequences of calls and readings of the trace -/

/-- Calls of `AcquireNextImage` one after the other, `n` of them; call number
`i` (from 0) is answered by the driver stream `drivers i`.  A call that stops
on a fault ends the sequence. -/
def AcquireNextImage_times (drivers : Nat → Nat → VkAcquireAnswer) : Nat → World → Outcome
  | 0, w => ⟨w, none⟩
  | n + 1, w =>
    match AcquireNextImage_times drivers n w with
    | ⟨w1, none⟩ => AcquireNextImage (drivers n) w1
    | ⟨w1, some f⟩ => ⟨w1, some f⟩

/-- Calls of `SetLayout` one after the other on the same command list, one per
element of `layouts`.  A call that stops on a fault ends the sequence. -/
def SetLayout_each (cmd_list : Nat) : List RHI_Image_Layout → World → Outcome
  | [], w => ⟨w, none⟩
  | layout :: rest, w =>
    match SetLayout layout cmd_list w with
    | ⟨w1, none⟩ => SetLayout_each cmd_list rest w1
    | ⟨w1, some f⟩ => ⟨w1, some f⟩

/-- The events a call appended to the trace: what the trace of its outcome
holds beyond the trace of the world it started from. -/
def new_events (w : World) (o : Outcome) : List Event :=
  o.world.trace.drop w.trace.length

/-- The request `AcquireNextImage` sends to the driver for a given swapchain
handle and semaphore handle. -/
def acquire_request (swapchain : Option Nat) (semaphore : Nat) : Event :=
  Event.vkAcquireNextImageKHR swapchain 16000000 semaphore

/-- The events of `k` attempts that were answered not-ready: each is the
request followed by the 16 ms sleep. -/
def retry_events (swapchain : Option Nat) (semaphore : Nat) : Nat → List Event
  | 0 => []
  | k + 1 => acquire_request swapchain semaphore :: Event.sleep_for 16 ::
      retry_events swapchain semaphore k

/-- Whether an event is a request to `vkAcquireNextImageKHR`. -/
def is_acquire_request : Event → Bool
  | Event.vkAcquireNextImageKHR _ _ _ => true
  | _ => false

/-- Whether an event is a sleep of the calling thread. -/
def is_sleep : Event → Bool
  | Event.sleep_for _ => true
  | _ => false

/-- Whether an event is a texture barrier. -/
def is_barrier : Event → Bool
  | Event.InsertBarrierTexture _ _ _ _ => true
  | _ => false

/-- The semaphore handle an acquire request carries. -/
def request_semaphore : Event → Option Nat
  | Event.vkAcquireNextImageKHR _ _ semaphore => some semaphore
  | _ => none

/-- The image view a deletion event hands to the deferred-deletion queue. -/
def deleted_view : Event → Option Nat
  | Event.DeletionQueueAdd image_view => some image_view
  | _ => none

/-- Whether an event is the destruction of a swapchain by the driver. -/
def is_swapchain_destroy : Event → Bool
  | Event.vkDestroySwapchainKHR _ => true
  | _ => false

/-- Whether an event is the creation of a swapchain by the driver. -/
def is_swapchain_create : Event → Bool
  | Event.vkCreateSwapchainKHR _ => true
  | _ => false

/-- The events of `Destroy` on a swapchain, in order. -/
def destroyed_events (sc : RHI_SwapChain) : List Event :=
  [Event.QueueWaitAll] ++ (Destroy_image_views sc.m_rhi_rtv).1 ++
    [Event.m_image_acquired_semaphore_fill (released_semaphores sc.m_image_acquired_semaphore),
      Event.vkDestroySwapchainKHR sc.m_rhi_swapchain, Event.vkDestroySurfaceKHR sc.m_rhi_surface]

/-- The world after one `Destroy` followed by one `Create` that goes through. -/
def recreated (p : Platform) (w : World) : World :=
  created p (Destroy w).world

/-- The present mode of the driver that stands for a present mode of the
engine, following the spec: immediate, mailbox and fifo are the unthrottled,
latest-frame-wins and vsync-locked policies. -/
def vk_present_mode_of : RHI_Present_Mode → VkPresentModeKHR
  | RHI_Present_Mode.Immediate => VkPresentModeKHR.VK_PRESENT_MODE_IMMEDIATE_KHR
  | RHI_Present_Mode.Mailbox => VkPresentModeKHR.VK_PRESENT_MODE_MAILBOX_KHR
  | RHI_Present_Mode.Fifo => VkPresentModeKHR.VK_PRESENT_MODE_FIFO_KHR

/-- The calls `Resize`, `AcquireNextImage`, `Present` one after the other, a
call that stops on a fault ending the sequence. -/
def Resize_Acquire_Present (p : Platform) (width height : Nat)
    (driver : Nat → VkAcquireAnswer) (w : World) : Outcome :=
  (Resize p width height w).and_then fun w =>
  (AcquireNextImage driver w).and_then fun w =>
  Present w

/-- The calls `Resize`, `AcquireNextImage`, `SetLayout(Present_Source)`,
`Present` one after the other, a call that stops on a fault ending the
sequence. -/
def Resize_Acquire_SetLayout_Present (p : Platform) (width height : Nat)
    (driver : Nat → VkAcquireAnswer) (cmd_list : Nat) (w : World) : Outcome :=
  (Resize p width height w).and_then fun w =>
  (AcquireNextImage driver w).and_then fun w =>
  (SetLayout RHI_Image_Layout.Present_Source cmd_list w).and_then fun w =>
  Present w

/-- Whether an event is the hand-over of HDR metadata to the driver. -/
def is_hdr_metadata : Event → Bool
  | Event.vkSetHdrMetadataEXT _ => true
  | _ => false

/-- Whether an event is one of the effects by which `Destroy` takes the
swapchain apart: an image view queued for deletion, the release of the acquire
semaphores, the destruction of the swapchain or that of the surface. -/
def is_teardown : Event → Bool
  | Event.DeletionQueueAdd _ => true
  | Event.m_image_acquired_semaphore_fill _ => true
  | Event.vkDestroySwapchainKHR _ => true
  | Event.vkDestroySurfaceKHR _ => true
  | _ => false

/-- One call on an existing swapchain, with its arguments and with what the
platform and the driver answer during the call. -/
inductive Call where
  | AcquireNextImage (driver : Nat → VkAcquireAnswer)
  | Present
  | SetLayout (layout : RHI_Image_Layout) (cmd_list : Nat)
  | Resize (p : Platform) (width height : Nat)
  | SetHdr (p : Platform) (enabled : Bool)
  | SetVsync (p : Platform) (enabled : Bool)

/-- The outcome of one call. -/
def run_call : Call → World → Outcome
  | Call.AcquireNextImage driver, w => AcquireNextImage driver w
  | Call.Present, w => Present w
  | Call.SetLayout layout cmd_list, w => SetLayout layout cmd_list w
  | Call.Resize p width height, w => Resize p width height w
  | Call.SetHdr p enabled, w => SetHdr p enabled w
  | Call.SetVsync p enabled, w => SetVsync p enabled w

/-- Calls one after the other; a call that stops on a fault ends the
sequence. -/
def run_calls : List Call → World → Outcome
  | [], w => ⟨w, none⟩
  | call :: rest, w => (run_call call w).and_then (run_calls rest)

/-- The buffer index addresses one of the `m_buffer_count` acquire semaphores,
of which there are at least two, and none of them is null. -/
structure Slots_ready (sc : RHI_SwapChain) : Prop where
  buffer_count : 2 ≤ sc.m_buffer_count
  buffer_index : sc.m_buffer_index < sc.m_buffer_count
  semaphores : ∀ i, i < sc.m_buffer_count →
    ∃ semaphore, sc.m_image_acquired_semaphore[i]? = some (some semaphore)

/-! ## `Mesh::AddLod`, `Mesh::GetGeometry` -/

/-- A vertex of type `RHI_Vertex_PosTexNorTan`.  The functions embedded here
copy vertices and never look inside them: a vertex is kept as a number that
stands for the bit pattern of its floats. -/
structure RHI_Vertex_PosTexNorTan where
  bits : Nat
  deriving DecidableEq, Repr

/-- The structure `MeshLod`: a range of the vertex buffer and a range of the
index buffer of the mesh.  The bounding box is floating-point data; it is kept
as the vertices handed to `BoundingBox`, of which it is a function. -/
structure MeshLod where
  vertex_offset : Nat
  vertex_count : Nat
  index_offset : Nat
  index_count : Nat
  aabb : List RHI_Vertex_PosTexNorTan
  deriving DecidableEq, Repr

/-- The structure `SubMesh`: the levels of detail of one part of a mesh. -/
structure SubMesh where
  lods : List MeshLod
  deriving DecidableEq, Repr

/-- The members of `Mesh` that `AddLod` and `GetGeometry` touch. -/
structure Mesh where
  m_vertices : List RHI_Vertex_PosTexNorTan
  m_indices : List Nat
  m_sub_meshes : List SubMesh
  deriving DecidableEq, Repr

/-- Modelled from the spec: `GetSubMesh` is declared in a header that is not
part of the sources at hand; it is taken to be the accessor of `m_sub_meshes`
at the given index, an index outside the vector being a fault. -/
def GetSubMesh (mesh : Mesh) (sub_mesh_index : Nat) : Except Fault SubMesh :=
  match mesh.m_sub_meshes[sub_mesh_index]? with
  | some sub_mesh => Except.ok sub_mesh
  | none => Except.error Fault.out_of_bounds

/-- The vector built from the iterator range `buffer.begin() + offset` to
`buffer.begin() + offset + count`; a range that leaves the buffer is a
fault. -/
def vector_of_range {α : Type} (buffer : List α) (offset count : Nat) : Except Fault (List α) :=
  if offset + count ≤ buffer.length then Except.ok ((buffer.drop offset).take count)
  else Except.error Fault.out_of_bounds

/-- Embedding of `Mesh::GetGeometry`.  The flags `indices` and `vertices` say
whether the pointer of that name is not null; the result holds what the call
writes through each pointer, `none` for a pointer that is null. -/
def GetGeometry (sub_mesh_index : Nat) (indices vertices : Bool) (mesh : Mesh) :
    Except Fault (Option (List Nat) × Option (List RHI_Vertex_PosTexNorTan)) :=
  match SP_ASSERT (indices || vertices) with
  | some f => Except.error f
  | none =>
  match GetSubMesh mesh sub_mesh_index with
  | Except.error f => Except.error f
  | Except.ok sub_mesh =>
  -- const MeshLod& lod = GetSubMesh(sub_mesh_index).lods[0];
  match sub_mesh.lods[0]? with
  | none => Except.error Fault.out_of_bounds
  | some lod =>
  let indices_written : Except Fault (Option (List Nat)) :=
    if indices then
      match SP_ASSERT (lod.index_count != 0) with
      | some f => Except.error f
      | none =>
        match vector_of_range mesh.m_indices lod.index_offset lod.index_count with
        | Except.error f => Except.error f
        | Except.ok range => Except.ok (some range)
    else Except.ok none
  match indices_written with
  | Except.error f => Except.error f
  | Except.ok indices_out =>
  let vertices_written : Except Fault (Option (List RHI_Vertex_PosTexNorTan)) :=
    if vertices then
      match SP_ASSERT (lod.vertex_count != 0) with
      | some f => Except.error f
      | none =>
        match vector_of_range mesh.m_vertices lod.vertex_offset lod.vertex_count with
        | Except.error f => Except.error f
        | Except.ok range => Except.ok (some range)
    else Except.ok none
  match vertices_written with
  | Except.error f => Except.error f
  | Except.ok vertices_out => Except.ok (indices_out, vertices_out)

/-- Embedding of `Mesh::AddLod`; the lock on the mutex has no effect on a
single thread and is left out. -/
def AddLod (vertices : List RHI_Vertex_PosTexNorTan) (indices : List Nat)
    (sub_mesh_index : Nat) (mesh : Mesh) : Except Fault Mesh :=
  match SP_ASSERT (decide (sub_mesh_index < mesh.m_sub_meshes.length)) with
  | some f => Except.error f
  | none =>
  -- build lod
  let lod : MeshLod :=
    { vertex_offset := u32 mesh.m_vertices.length
      vertex_count := u32 vertices.length
      index_offset := u32 mesh.m_indices.length
      index_count := u32 indices.length
      aabb := vertices.take (u32 vertices.length) }
  -- append geometry to mesh buffers
  let mesh : Mesh :=
    { mesh with
      m_vertices := mesh.m_vertices ++ vertices
      m_indices := mesh.m_indices ++ indices }
  -- add lod to the specified sub-mesh
  match mesh.m_sub_meshes[sub_mesh_index]? with
  | none => Except.error Fault.out_of_bounds
  | some sub_mesh =>
    Except.ok { mesh with
      m_sub_meshes := mesh.m_sub_meshes.set sub_mesh_index
        { sub_mesh with lods := sub_mesh.lods ++ [lod] } }

/-- Calls of `AddLod` one after the other, each with its vertices, its indices
and its sub-mesh index; a call that stops on a fault ends the sequence. -/
def AddLod_each :
    List (List RHI_Vertex_PosTexNorTan × List Nat × Nat) → Mesh → Except Fault Mesh
  | [], mesh => Except.ok mesh
  | (vertices, indices, sub_mesh_index) :: rest, mesh =>
    match AddLod vertices indices sub_mesh_index mesh with
    | Except.error f => Except.error f
    | Except.ok mesh1 => AddLod_each rest mesh1

/-- Every range recorded in a LOD of the mesh lies within the vertex buffer and
the index buffer. -/
def Lods_within (mesh : Mesh) : Prop :=
  ∀ sub_mesh ∈ mesh.m_sub_meshes, ∀ lod ∈ sub_mesh.lods,
    lod.vertex_offset + lod.vertex_count ≤ mesh.m_vertices.length ∧
      lod.index_offset + lod.index_count ≤ mesh.m_indices.length

/-- The first LOD of sub-mesh `s` is `lod`, and its ranges hold the vertices
`v` and the indices `i`, neither of them empty. -/
structure Geometry_recorded (mesh : Mesh) (s : Nat) (lod : MeshLod)
    (v : List RHI_Vertex_PosTexNorTan) (i : List Nat) : Prop where
  first_lod : ∃ sub_mesh, mesh.m_sub_meshes[s]? = some sub_mesh ∧ sub_mesh.lods[0]? = some lod
  vertex_count : lod.vertex_count ≠ 0
  index_count : lod.index_count ≠ 0
  vertices_within : lod.vertex_offset + lod.vertex_count ≤ mesh.m_vertices.length
  indices_within : lod.index_offset + lod.index_count ≤ mesh.m_indices.length
  vertices : (mesh.m_vertices.drop lod.vertex_offset).take lod.vertex_count = v
  indices : (mesh.m_indices.drop lod.index_offset).take lod.index_count = i

/-! ## Concrete worlds used to exercise the definitions -/

/-- A swapchain as `Create` leaves it for `buffer_count = 2` on a chain of two
images, with image 1 already moved to `Present_Source`. -/
def demo_swapchain : RHI_SwapChain :=
  { m_object_id := 7
    m_sdl_window := some 1
    m_buffer_count := 2
    m_width := 800
    m_height := 600
    m_format := RHI_Format.B8R8G8A8_Unorm
    m_present_mode := RHI_Present_Mode.Fifo
    m_image_index := 0
    m_buffer_index := 0
    m_layouts := [RHI_Image_Layout.Attachment, RHI_Image_Layout.Present_Source,
      RHI_Image_Layout.Max]
    m_rhi_rt := [some 100, some 101, none]
    m_rhi_rtv := [some 200, some 201, none]
    m_image_acquired_semaphore := [some ⟨300, false⟩, some ⟨301, false⟩, none]
    m_wait_semaphores := [some 999]
    m_rhi_swapchain := some 50
    m_rhi_surface := some 60 }

/-- A world whose current command list was submitted for `demo_swapchain`. -/
def demo_world : World :=
  { swapchain := demo_swapchain
    cmd_list := { m_swapchain_id := 7, m_rendering_complete_semaphore := ⟨400, false⟩ }
    trace := [] }

/-- The world `demo_world` with image 1 as the current image. -/
def demo_world_presentable : World :=
  { demo_world with swapchain := { demo_swapchain with m_image_index := 1 } }

/-- A platform on which `Create` goes through: an HDR-capable display, a
surface with the formats `B8G8R8A8_UNORM` (44) in sRGB and
`A2B10G10R10_UNORM_PACK32` (64) in HDR10, two images allocated by the driver. -/
def demo_platform : Platform :=
  { format_sdr := RHI_Format.R8G8B8A8_Unorm
    format_hdr := RHI_Format.R10G10B10A2_Unorm
    vulkan_format := fun format =>
      match format with
      | RHI_Format.R8G8B8A8_Unorm => 37
      | RHI_Format.B8R8G8A8_Unorm => 44
      | RHI_Format.R10G10B10A2_Unorm => 64
      | RHI_Format.Other tag => 1000 + tag
    IsValidResolution := fun width height =>
      decide (4 < width ∧ width ≤ 16384 ∧ 4 < height ∧ height ≤ 16384)
    Display_GetHdr := true
    SDL_Vulkan_CreateSurface := some 61
    vkGetPhysicalDeviceSurfaceSupportKHR := VK_SUCCESS
    present_support := true
    vkGetPhysicalDeviceSurfaceCapabilitiesKHR := VK_SUCCESS
    surface_capabilities :=
      { minImageExtent := ⟨1, 1⟩
        maxImageExtent := ⟨4096, 4096⟩
        currentTransform := 1
        supportedCompositeAlpha := 1 }
    vkGetPhysicalDeviceSurfaceFormatsKHR_count := VK_SUCCESS
    vkGetPhysicalDeviceSurfaceFormatsKHR := VK_SUCCESS
    surface_formats :=
      [⟨44, VkColorSpaceKHR.VK_COLOR_SPACE_SRGB_NONLINEAR_KHR⟩,
        ⟨64, VkColorSpaceKHR.VK_COLOR_SPACE_HDR10_ST2084_EXT⟩]
    surface_present_modes :=
      [VkPresentModeKHR.VK_PRESENT_MODE_FIFO_KHR, VkPresentModeKHR.VK_PRESENT_MODE_IMMEDIATE_KHR]
    queue_index_compute := 1
    queue_index_graphics := 0
    vkCreateSwapchainKHR := VK_SUCCESS
    swap_chain := 51
    pfnVkSetHdrMetadataEXT := true
    vkGetSwapchainImagesKHR_count := VK_SUCCESS
    vkGetSwapchainImagesKHR := VK_SUCCESS
    swapchain_images := [110, 111]
    CmdImmediateBegin := some 9
    vkCreateImageView := fun _ => VK_SUCCESS
    image_view := fun i => 210 + i
    semaphore := fun i => 310 + i }

/-- The platform `demo_platform` with a driver that allocates three images
for the chain, one more than the minimum it is asked for. -/
def demo_platform_three_images : Platform :=
  { demo_platform with swapchain_images := [110, 111, 112] }

/-- The platform `demo_platform` with `CmdImmediateBegin` returning null. -/
def demo_platform_no_cmd_list : Platform :=
  { demo_platform with CmdImmediateBegin := none }

/-- The platform `demo_platform` with a display that does not support HDR. -/
def demo_platform_sdr_display : Platform :=
  { demo_platform with Display_GetHdr := false }

/-- A swapchain object before its constructor has run: arrays of capacity 3
holding the undefined layout and null pointers. -/
def demo_fresh_swapchain : RHI_SwapChain :=
  { m_object_id := 7
    m_sdl_window := none
    m_buffer_count := 0
    m_width := 0
    m_height := 0
    m_format := RHI_Format.Other 0
    m_present_mode := RHI_Present_Mode.Immediate
    m_image_index := 0
    m_buffer_index := 0
    m_layouts := [RHI_Image_Layout.Max, RHI_Image_Layout.Max, RHI_Image_Layout.Max]
    m_rhi_rt := [none, none, none]
    m_rhi_rtv := [none, none, none]
    m_image_acquired_semaphore := [none, none, none]
    m_wait_semaphores := []
    m_rhi_swapchain := none
    m_rhi_surface := none }

/-- The object `demo_fresh_swapchain` as the constructor hands it to `Create`
for an 800 x 600 SDR swapchain of two buffers. -/
def demo_unbuilt_swapchain : RHI_SwapChain :=
  { demo_fresh_swapchain with
    m_sdl_window := some 1
    m_buffer_count := 2
    m_width := 800
    m_height := 600
    m_format := RHI_Format.R8G8B8A8_Unorm
    m_present_mode := RHI_Present_Mode.Fifo }

/-- A world holding `demo_unbuilt_swapchain`. -/
def demo_unbuilt_world : World :=
  { swapchain := demo_unbuilt_swapchain
    cmd_list := { m_swapchain_id := 7, m_rendering_complete_semaphore := ⟨400, false⟩ }
    trace := [] }

/-- A world holding `demo_fresh_swapchain`. -/
def demo_fresh_world : World :=
  { swapchain := demo_fresh_swapchain
    cmd_list := { m_swapchain_id := 7, m_rendering_complete_semaphore := ⟨400, false⟩ }
    trace := [] }

/-- The demonstration platform with a surface that offers the RGBA format
`VK_FORMAT_R8G8B8A8_UNORM` (37) with the sRGB color space, and nothing else. -/
def demo_platform_rgba_surface : Platform :=
  { demo_platform with
    surface_formats := [⟨37, VkColorSpaceKHR.VK_COLOR_SPACE_SRGB_NONLINEAR_KHR⟩] }

/-- The demonstration platform with a surface whose composite-alpha mask is 12:
post-multiplied and inherit. -/
def demo_platform_translucent : Platform :=
  { demo_platform with
    surface_capabilities :=
      { demo_platform.surface_capabilities with supportedCompositeAlpha := 12 } }

/-- A mesh of two sub-meshes, the first with one LOD, the second without. -/
def demo_mesh : Mesh :=
  { m_vertices := [⟨10⟩, ⟨11⟩, ⟨12⟩]
    m_indices := [0, 1, 2]
    m_sub_meshes :=
      [⟨[{ vertex_offset := 0, vertex_count := 3, index_offset := 0, index_count := 3,
            aabb := [⟨10⟩, ⟨11⟩, ⟨12⟩] }]⟩, ⟨[]⟩] }

/-! ## Theorems: `Present` -/

/-- C1: whenever the image at `image_index` has a recorded layout, `Present`
fails its precondition assertion if and only if that layout is not
`Present_Source`; and when the assertion fails the world is left exactly as it
was: no present has been handed to the queue (the trace is unchanged) and the
rendering-complete signal of the command list has not been marked consumed. -/
theorem Present_precondition (w : World) (layout : RHI_Image_Layout)
    (h : w.swapchain.m_layouts[w.swapchain.m_image_index]? = some layout) :
    ((Present w).fault = some Fault.assertion_failed ↔
        layout ≠ RHI_Image_Layout.Present_Source) ∧
      ((Present w).fault = some Fault.assertion_failed →
        (Present w).world = w ∧
        (Present w).world.trace = w.trace ∧
        (Present w).world.cmd_list.m_rendering_complete_semaphore.has_been_waited_for =
          w.cmd_list.m_rendering_complete_semaphore.has_been_waited_for) := by
  by_cases hl : layout = RHI_Image_Layout.Present_Source
  · subst hl
    have hne : (Present w).fault ≠ some Fault.assertion_failed := by
      unfold Present
      simp only [h, SP_ASSERT, beq_self_eq_true, if_true]
      cases hs : w.swapchain.m_image_acquired_semaphore[w.swapchain.m_buffer_index]? <;> simp
    exact ⟨⟨fun hf => absurd hf hne, fun hf => absurd rfl hf⟩, fun hf => absurd hf hne⟩
  · have hw : Present w = ⟨w, some Fault.assertion_failed⟩ := by
      unfold Present
      simp [h, hl, SP_ASSERT]
    rw [hw]
    exact ⟨⟨fun _ => hl, fun _ => rfl⟩, fun _ => ⟨rfl, rfl, rfl⟩⟩

/-- Witness of `Present_precondition`: image 0 of `demo_world` is recorded as
`Attachment`. -/
theorem Present_precondition_witness :
    ((Present demo_world).fault = some Fault.assertion_failed ↔
        RHI_Image_Layout.Attachment ≠ RHI_Image_Layout.Present_Source) ∧
      ((Present demo_world).fault = some Fault.assertion_failed →
        (Present demo_world).world = demo_world ∧
        (Present demo_world).world.trace = demo_world.trace ∧
        (Present demo_world).world.cmd_list.m_rendering_complete_semaphore.has_been_waited_for =
          demo_world.cmd_list.m_rendering_complete_semaphore.has_been_waited_for) :=
  Present_precondition demo_world RHI_Image_Layout.Attachment (by decide)

/-- The outcome of `Present` when its precondition holds and `buffer_index`
addresses a semaphore slot. -/
theorem Present_of_precondition (w : World) (slot : Option RHI_SyncPrimitive)
    (hpre : w.swapchain.m_layouts[w.swapchain.m_image_index]? =
      some RHI_Image_Layout.Present_Source)
    (hslot : w.swapchain.m_image_acquired_semaphore[w.swapchain.m_buffer_index]? = some slot) :
    Present w =
      ⟨{ swapchain := { w.swapchain with
            m_wait_semaphores :=
              (if w.cmd_list.m_swapchain_id = w.swapchain.m_object_id then
                  [some w.cmd_list.m_rendering_complete_semaphore.m_rhi_resource]
                else []) ++ [slot.map (fun p => p.m_rhi_resource)] },
          cmd_list :=
            if w.cmd_list.m_swapchain_id = w.swapchain.m_object_id then
              { w.cmd_list with m_rendering_complete_semaphore :=
                  { w.cmd_list.m_rendering_complete_semaphore with has_been_waited_for := true } }
            else w.cmd_list,
          trace := w.trace ++
            [Event.Queue_Present w.swapchain.m_rhi_swapchain w.swapchain.m_image_index
              ((if w.cmd_list.m_swapchain_id = w.swapchain.m_object_id then
                  [some w.cmd_list.m_rendering_complete_semaphore.m_rhi_resource]
                else []) ++ [slot.map (fun p => p.m_rhi_resource)])] },
        none⟩ := by
  unfold Present
  simp only [hpre, hslot, SP_ASSERT, beq_self_eq_true, if_true]
  by_cases hid : w.cmd_list.m_swapchain_id = w.swapchain.m_object_id <;> simp [hid]

/-- C2: in every state in which the precondition of `Present` holds and
`buffer_index` addresses an acquire-semaphore slot, `Present` returns after
exactly one call of the queue's present operation.  That call receives the
swapchain handle, `image_index`, and a wait-set that is built from nothing: the
rendering-complete signal of the current command list exactly when that
command list's swapchain id equals the object id of this swapchain, followed
by the acquire semaphore of slot `buffer_index`.  Whatever `m_wait_semaphores`
held before the call does not appear in it. -/
theorem Present_wait_set (w : World) (slot : Option RHI_SyncPrimitive)
    (hpre : w.swapchain.m_layouts[w.swapchain.m_image_index]? =
      some RHI_Image_Layout.Present_Source)
    (hslot : w.swapchain.m_image_acquired_semaphore[w.swapchain.m_buffer_index]? = some slot) :
    (Present w).fault = none ∧
      (Present w).world.trace = w.trace ++
        [Event.Queue_Present w.swapchain.m_rhi_swapchain w.swapchain.m_image_index
          ((if w.cmd_list.m_swapchain_id = w.swapchain.m_object_id then
              [some w.cmd_list.m_rendering_complete_semaphore.m_rhi_resource]
            else []) ++ [slot.map (fun p => p.m_rhi_resource)])] ∧
      (Present w).world.swapchain.m_wait_semaphores =
        (if w.cmd_list.m_swapchain_id = w.swapchain.m_object_id then
            [some w.cmd_list.m_rendering_complete_semaphore.m_rhi_resource]
          else []) ++ [slot.map (fun p => p.m_rhi_resource)] := by
  rw [Present_of_precondition w slot hpre hslot]
  exact ⟨rfl, rfl, rfl⟩

/-- Witness of `Present_wait_set`: `demo_world_presentable` holds a stale
wait-set `[some 999]`, which the present call does not receive. -/
theorem Present_wait_set_witness :
    (Present demo_world_presentable).fault = none ∧
      (Present demo_world_presentable).world.trace =
        [Event.Queue_Present (some 50) 1 [some 400, some 300]] ∧
      (Present demo_world_presentable).world.swapchain.m_wait_semaphores =
        [some 400, some 300] :=
  Present_wait_set demo_world_presentable (some ⟨300, false⟩) (by decide) (by decide)

/-! ## Lemmas on the retry loop -/

theorem retry_events_count_requests (sc : Option Nat) (sem : Nat) (k : Nat) :
    (retry_events sc sem k).countP is_acquire_request = k := by
  induction k with
  | zero => rfl
  | succ k ih => simp [retry_events, acquire_request, is_acquire_request, ih]

theorem retry_events_count_sleeps (sc : Option Nat) (sem : Nat) (k : Nat) :
    (retry_events sc sem k).countP is_sleep = k := by
  induction k with
  | zero => rfl
  | succ k ih => simp [retry_events, acquire_request, is_sleep, ih]

theorem retry_events_semaphore (sc : Option Nat) (sem : Nat) (k : Nat) :
    ∀ e ∈ retry_events sc sem k, is_acquire_request e = true → request_semaphore e = some sem := by
  induction k with
  | zero => intro e he; simp [retry_events] at he
  | succ k ih =>
    intro e he hreq
    simp only [retry_events, List.mem_cons] at he
    rcases he with he | he | he
    · subst he; rfl
    · subst he; simp [is_acquire_request] at hreq
    · exact ih e he hreq

theorem retry_events_succ_right (sc : Option Nat) (sem : Nat) (k : Nat) :
    retry_events sc sem (k + 1) =
      retry_events sc sem k ++ [acquire_request sc sem, Event.sleep_for 16] := by
  induction k with
  | zero => rfl
  | succ k ih =>
    calc retry_events sc sem (k + 1 + 1)
        = acquire_request sc sem :: Event.sleep_for 16 :: retry_events sc sem (k + 1) := rfl
      _ = acquire_request sc sem :: Event.sleep_for 16 ::
            (retry_events sc sem k ++ [acquire_request sc sem, Event.sleep_for 16]) := by rw [ih]
      _ = retry_events sc sem (k + 1) ++ [acquire_request sc sem, Event.sleep_for 16] := rfl

/-- One turn of the loop on a not-ready answer. -/
theorem acquire_loop_step_not_ready (sem : RHI_SyncPrimitive) (driver : Nat → VkAcquireAnswer)
    (w : World) (rc : Nat) (hrc : rc < retry_max) (h0 : driver 0 = VkAcquireAnswer.VK_NOT_READY) :
    acquire_loop (some sem) driver w rc =
      acquire_loop (some sem) (fun n => driver (n + 1))
        { w with trace := w.trace ++
            [acquire_request w.swapchain.m_rhi_swapchain sem.m_rhi_resource, Event.sleep_for 16] }
        (rc + 1) := by
  rw [acquire_loop]
  have hu : u32 (rc + 1) = rc + 1 := by
    simp only [u32, retry_max] at *
    omega
  simp [hrc, h0, hu, acquire_request]

/-- After `k` not-ready answers the loop stands at `retry_count + k`, having
made `k` requests each followed by a sleep. -/
theorem acquire_loop_not_ready_run (sem : RHI_SyncPrimitive) (k : Nat) :
    ∀ (driver : Nat → VkAcquireAnswer) (w : World) (rc : Nat),
      rc + k ≤ retry_max → (∀ i, i < k → driver i = VkAcquireAnswer.VK_NOT_READY) →
      acquire_loop (some sem) driver w rc =
        acquire_loop (some sem) (fun n => driver (n + k))
          { w with trace := w.trace ++
              retry_events w.swapchain.m_rhi_swapchain sem.m_rhi_resource k }
          (rc + k) := by
  induction k with
  | zero => intro driver w rc _ _; simp [retry_events]
  | succ k ih =>
    intro driver w rc hle hnr
    rw [ih driver w rc (by omega) (fun i hi => hnr i (by omega))]
    rw [acquire_loop_step_not_ready sem _ _ (rc + k) (by omega) (by simpa using hnr k (by omega))]
    simp only [retry_events_succ_right, List.append_assoc]
    congr 1
    funext n
    congr 1
    omega

/-- The loop answered by success at attempt `k` (counted from 0), after `k`
not-ready answers. -/
theorem acquire_loop_success_at (sem : RHI_SyncPrimitive) (driver : Nat → VkAcquireAnswer)
    (w : World) (k image_index : Nat) (hk : k < retry_max)
    (hnr : ∀ i, i < k → driver i = VkAcquireAnswer.VK_NOT_READY)
    (hs : driver k = VkAcquireAnswer.VK_SUCCESS image_index) :
    acquire_loop (some sem) driver w 0 =
      ⟨{ w with
          swapchain := { w.swapchain with m_image_index := image_index },
          trace := w.trace ++ retry_events w.swapchain.m_rhi_swapchain sem.m_rhi_resource k ++
            [acquire_request w.swapchain.m_rhi_swapchain sem.m_rhi_resource] }, none⟩ := by
  rw [acquire_loop_not_ready_run sem k driver w 0 (by omega) hnr, acquire_loop]
  simp [hk, hs, acquire_request]

/-- The loop answered by a result that is neither success nor not-ready at
attempt `k` (counted from 0), after `k` not-ready answers. -/
theorem acquire_loop_other_at (sem : RHI_SyncPrimitive) (driver : Nat → VkAcquireAnswer)
    (w : World) (k : Nat) (code : Int) (hk : k < retry_max)
    (hnr : ∀ i, i < k → driver i = VkAcquireAnswer.VK_NOT_READY)
    (hs : driver k = VkAcquireAnswer.other code) :
    acquire_loop (some sem) driver w 0 =
      ⟨{ w with
          trace := w.trace ++ retry_events w.swapchain.m_rhi_swapchain sem.m_rhi_resource k ++
            [acquire_request w.swapchain.m_rhi_swapchain sem.m_rhi_resource] },
        some Fault.assertion_failed⟩ := by
  rw [acquire_loop_not_ready_run sem k driver w 0 (by omega) hnr, acquire_loop]
  simp [hk, hs, acquire_request, SP_ASSERT_VK, SP_ASSERT]

/-- The loop answered not-ready on every one of its `retry_max` attempts. -/
theorem acquire_loop_exhausted (sem : RHI_SyncPrimitive) (driver : Nat → VkAcquireAnswer)
    (w : World) (hnr : ∀ i, i < retry_max → driver i = VkAcquireAnswer.VK_NOT_READY) :
    acquire_loop (some sem) driver w 0 =
      ⟨{ w with
          trace := w.trace ++
            retry_events w.swapchain.m_rhi_swapchain sem.m_rhi_resource retry_max }, none⟩ := by
  rw [acquire_loop_not_ready_run sem retry_max driver w 0 (by omega) hnr, acquire_loop]
  simp

/-- The call `AcquireNextImage` up to the loop: the cursor is advanced and the semaphore
of the new slot is read. -/
theorem AcquireNextImage_enter (driver : Nat → VkAcquireAnswer) (w : World)
    (slot : Option RHI_SyncPrimitive)
    (hcount : w.swapchain.m_buffer_count ≠ 0)
    (hslot : w.swapchain.m_image_acquired_semaphore[
      u32 (w.swapchain.m_buffer_index + 1) % w.swapchain.m_buffer_count]? = some slot) :
    AcquireNextImage driver w =
      acquire_loop slot driver
        { w with swapchain := { w.swapchain with
            m_buffer_index := u32 (w.swapchain.m_buffer_index + 1) % w.swapchain.m_buffer_count } }
        0 := by
  unfold AcquireNextImage
  simp [hcount, hslot]

/-- Every driver stream is of one of three shapes within the first `retry_max`
answers: success after `k` not-ready answers, another result after `k`
not-ready answers, or not-ready throughout. -/
theorem driver_shape (driver : Nat → VkAcquireAnswer) (n : Nat) :
    (∃ k image_index, k < n ∧ (∀ i, i < k → driver i = VkAcquireAnswer.VK_NOT_READY) ∧
        driver k = VkAcquireAnswer.VK_SUCCESS image_index) ∨
      (∃ k code, k < n ∧ (∀ i, i < k → driver i = VkAcquireAnswer.VK_NOT_READY) ∧
        driver k = VkAcquireAnswer.other code) ∨
      (∀ i, i < n → driver i = VkAcquireAnswer.VK_NOT_READY) := by
  induction n with
  | zero => exact Or.inr (Or.inr (fun i hi => absurd hi (Nat.not_lt_zero i)))
  | succ n ih =>
    rcases ih with ⟨k, x, hk, hnr, hs⟩ | ⟨k, c, hk, hnr, hs⟩ | hall
    · exact Or.inl ⟨k, x, by omega, hnr, hs⟩
    · exact Or.inr (Or.inl ⟨k, c, by omega, hnr, hs⟩)
    · cases hd : driver n with
      | VK_SUCCESS x => exact Or.inl ⟨n, x, by omega, hall, hd⟩
      | VK_NOT_READY =>
        refine Or.inr (Or.inr (fun i hi => ?_))
        rcases Nat.lt_succ_iff_lt_or_eq.mp hi with h | h
        · exact hall i h
        · rw [h]; exact hd
      | other c => exact Or.inr (Or.inl ⟨n, c, by omega, hall, hd⟩)

theorem new_events_of_append (w : World) (o : Outcome) (evs : List Event)
    (h : o.world.trace = w.trace ++ evs) : new_events w o = evs := by
  simp [new_events, h]

/-- Outcome of `AcquireNextImage` when the driver answers success at attempt
`k` after `k` not-ready answers. -/
theorem AcquireNextImage_success_at (driver : Nat → VkAcquireAnswer) (w : World)
    (sem : RHI_SyncPrimitive) (k image_index : Nat)
    (hcount : w.swapchain.m_buffer_count ≠ 0)
    (hslot : w.swapchain.m_image_acquired_semaphore[
      u32 (w.swapchain.m_buffer_index + 1) % w.swapchain.m_buffer_count]? = some (some sem))
    (hk : k < retry_max)
    (hnr : ∀ i, i < k → driver i = VkAcquireAnswer.VK_NOT_READY)
    (hs : driver k = VkAcquireAnswer.VK_SUCCESS image_index) :
    AcquireNextImage driver w =
      ⟨{ w with
          swapchain := { w.swapchain with
            m_buffer_index := u32 (w.swapchain.m_buffer_index + 1) % w.swapchain.m_buffer_count,
            m_image_index := image_index },
          trace := w.trace ++ retry_events w.swapchain.m_rhi_swapchain sem.m_rhi_resource k ++
            [acquire_request w.swapchain.m_rhi_swapchain sem.m_rhi_resource] }, none⟩ := by
  rw [AcquireNextImage_enter driver w (some sem) hcount hslot,
    acquire_loop_success_at sem driver _ k image_index hk hnr hs]

/-- Outcome of `AcquireNextImage` when the driver answers a result that is
neither success nor not-ready at attempt `k` after `k` not-ready answers. -/
theorem AcquireNextImage_other_at (driver : Nat → VkAcquireAnswer) (w : World)
    (sem : RHI_SyncPrimitive) (k : Nat) (code : Int)
    (hcount : w.swapchain.m_buffer_count ≠ 0)
    (hslot : w.swapchain.m_image_acquired_semaphore[
      u32 (w.swapchain.m_buffer_index + 1) % w.swapchain.m_buffer_count]? = some (some sem))
    (hk : k < retry_max)
    (hnr : ∀ i, i < k → driver i = VkAcquireAnswer.VK_NOT_READY)
    (hs : driver k = VkAcquireAnswer.other code) :
    AcquireNextImage driver w =
      ⟨{ w with
          swapchain := { w.swapchain with
            m_buffer_index := u32 (w.swapchain.m_buffer_index + 1) % w.swapchain.m_buffer_count },
          trace := w.trace ++ retry_events w.swapchain.m_rhi_swapchain sem.m_rhi_resource k ++
            [acquire_request w.swapchain.m_rhi_swapchain sem.m_rhi_resource] },
        some Fault.assertion_failed⟩ := by
  rw [AcquireNextImage_enter driver w (some sem) hcount hslot,
    acquire_loop_other_at sem driver _ k code hk hnr hs]

/-- Outcome of `AcquireNextImage` when the driver answers not-ready on all
`retry_max` attempts. -/
theorem AcquireNextImage_exhausted (driver : Nat → VkAcquireAnswer) (w : World)
    (sem : RHI_SyncPrimitive)
    (hcount : w.swapchain.m_buffer_count ≠ 0)
    (hslot : w.swapchain.m_image_acquired_semaphore[
      u32 (w.swapchain.m_buffer_index + 1) % w.swapchain.m_buffer_count]? = some (some sem))
    (hnr : ∀ i, i < retry_max → driver i = VkAcquireAnswer.VK_NOT_READY) :
    AcquireNextImage driver w =
      ⟨{ w with
          swapchain := { w.swapchain with
            m_buffer_index := u32 (w.swapchain.m_buffer_index + 1) % w.swapchain.m_buffer_count },
          trace := w.trace ++
            retry_events w.swapchain.m_rhi_swapchain sem.m_rhi_resource retry_max }, none⟩ := by
  rw [AcquireNextImage_enter driver w (some sem) hcount hslot,
    acquire_loop_exhausted sem driver _ hnr]

/-- A call whose driver never answers anything but success or not-ready
returns, and changes nothing of the swapchain but the two cursors. -/
theorem AcquireNextImage_non_fatal (driver : Nat → VkAcquireAnswer) (w : World)
    (sem : RHI_SyncPrimitive)
    (hcount : w.swapchain.m_buffer_count ≠ 0)
    (hslot : w.swapchain.m_image_acquired_semaphore[
      u32 (w.swapchain.m_buffer_index + 1) % w.swapchain.m_buffer_count]? = some (some sem))
    (hdrv : ∀ i code, driver i ≠ VkAcquireAnswer.other code) :
    (AcquireNextImage driver w).fault = none ∧
      ∃ image_index, (AcquireNextImage driver w).world.swapchain =
        { w.swapchain with
          m_buffer_index := u32 (w.swapchain.m_buffer_index + 1) % w.swapchain.m_buffer_count,
          m_image_index := image_index } := by
  rcases driver_shape driver retry_max with ⟨k, x, hk, hnr, hs⟩ | ⟨k, c, _, _, hs⟩ | hall
  · rw [AcquireNextImage_success_at driver w sem k x hcount hslot hk hnr hs]
    exact ⟨rfl, x, rfl⟩
  · exact absurd hs (hdrv k c)
  · rw [AcquireNextImage_exhausted driver w sem hcount hslot hall]
    exact ⟨rfl, w.swapchain.m_image_index, rfl⟩

/-- Invariant of a run of non-fatal `AcquireNextImage` calls. -/
theorem AcquireNextImage_times_invariant (drivers : Nat → Nat → VkAcquireAnswer) (w : World)
    (hcount : 2 ≤ w.swapchain.m_buffer_count)
    (hu32 : w.swapchain.m_buffer_count < 2 ^ 32)
    (hb : w.swapchain.m_buffer_index < w.swapchain.m_buffer_count)
    (hslots : ∀ i, i < w.swapchain.m_buffer_count →
      ∃ sem, w.swapchain.m_image_acquired_semaphore[i]? = some (some sem))
    (hdrv : ∀ call attempt code, drivers call attempt ≠ VkAcquireAnswer.other code) (n : Nat) :
    (AcquireNextImage_times drivers n w).fault = none ∧
      (AcquireNextImage_times drivers n w).world.swapchain.m_buffer_index =
        (w.swapchain.m_buffer_index + n) % w.swapchain.m_buffer_count ∧
      (AcquireNextImage_times drivers n w).world.swapchain.m_buffer_count =
        w.swapchain.m_buffer_count ∧
      (AcquireNextImage_times drivers n w).world.swapchain.m_image_acquired_semaphore =
        w.swapchain.m_image_acquired_semaphore := by
  induction n with
  | zero =>
    refine ⟨rfl, ?_, rfl, rfl⟩
    show w.swapchain.m_buffer_index = _
    rw [Nat.add_zero, Nat.mod_eq_of_lt hb]
  | succ n ih =>
    obtain ⟨hf, hbi, hbc, hsem⟩ := ih
    generalize hgen : AcquireNextImage_times drivers n w = o at hf hbi hbc hsem
    obtain ⟨w1, f1⟩ := o
    simp only at hf hbi hbc hsem
    subst hf
    have hlt : (w.swapchain.m_buffer_index + n) % w.swapchain.m_buffer_count <
        w.swapchain.m_buffer_count := Nat.mod_lt _ (by omega)
    have hidx : u32 (w1.swapchain.m_buffer_index + 1) % w1.swapchain.m_buffer_count =
        (w.swapchain.m_buffer_index + (n + 1)) % w.swapchain.m_buffer_count := by
      rw [hbi, hbc]
      have h1 : u32 ((w.swapchain.m_buffer_index + n) % w.swapchain.m_buffer_count + 1) =
          (w.swapchain.m_buffer_index + n) % w.swapchain.m_buffer_count + 1 := by
        unfold u32
        exact Nat.mod_eq_of_lt (by omega)
      rw [h1, Nat.mod_add_mod, Nat.add_assoc]
    obtain ⟨sem, hsemi⟩ := hslots ((w.swapchain.m_buffer_index + (n + 1)) %
      w.swapchain.m_buffer_count) (Nat.mod_lt _ (by omega))
    have hstep := AcquireNextImage_non_fatal (drivers n) w1 sem (by rw [hbc]; omega)
      (by rw [hidx, hsem]; exact hsemi) (hdrv n)
    have hunf : AcquireNextImage_times drivers (n + 1) w = AcquireNextImage (drivers n) w1 := by
      simp [AcquireNextImage_times, hgen]
    rw [hunf]
    obtain ⟨hfault, img, hsc⟩ := hstep
    refine ⟨hfault, ?_, ?_, ?_⟩
    · rw [hsc]; exact hidx
    · rw [hsc]; exact hbc
    · rw [hsc]; exact hsem

/-- Adding `0, 1, …, c - 1` to a number and reducing modulo `c` reaches every
residue exactly once. -/
theorem add_mod_visits_once (c a t : Nat) (ht : t < c) :
    ∃! k, k < c ∧ (a + k) % c = t := by
  have hc : 0 < c := by omega
  refine ⟨(t + (c - a % c)) % c, ⟨Nat.mod_lt _ hc, ?_⟩, ?_⟩
  · have ha : a % c < c := Nat.mod_lt _ hc
    rw [Nat.add_mod_mod, ← Nat.mod_add_mod, ← Nat.add_assoc]
    have : a % c + t + (c - a % c) = t + c := by omega
    rw [this, Nat.add_mod_right, Nat.mod_eq_of_lt ht]
  · rintro k ⟨hk, hkt⟩
    have ha : a % c < c := Nat.mod_lt _ hc
    have h1 : (a % c + k) % c = t := by rw [Nat.mod_add_mod]; exact hkt
    by_cases hlt : a % c + k < c
    · rw [Nat.mod_eq_of_lt hlt] at h1
      have : t + (c - a % c) = k + c := by omega
      rw [this, Nat.add_mod_right, Nat.mod_eq_of_lt hk]
    · have h2 : (a % c + k) % c = a % c + k - c := by
        rw [Nat.mod_eq_sub_mod (by omega), Nat.mod_eq_of_lt (by omega)]
      rw [h2] at h1
      have : t + (c - a % c) = k := by omega
      rw [this, Nat.mod_eq_of_lt hk]

/-- With a null semaphore pointer the loop stops at its first request, which
is never made. -/
theorem acquire_loop_null (driver : Nat → VkAcquireAnswer) (w : World) :
    acquire_loop none driver w 0 = ⟨w, some Fault.null_dereference⟩ := by
  rw [acquire_loop]
  simp [retry_max]

/-- The events of one call of `AcquireNextImage` that reaches the loop with a
semaphore: some not-ready attempts followed by one last request, or
`retry_max` not-ready attempts. -/
theorem AcquireNextImage_events (driver : Nat → VkAcquireAnswer) (w : World)
    (sem : RHI_SyncPrimitive)
    (hcount : w.swapchain.m_buffer_count ≠ 0)
    (hslot : w.swapchain.m_image_acquired_semaphore[
      u32 (w.swapchain.m_buffer_index + 1) % w.swapchain.m_buffer_count]? = some (some sem)) :
    (∃ k, k < retry_max ∧ new_events w (AcquireNextImage driver w) =
        retry_events w.swapchain.m_rhi_swapchain sem.m_rhi_resource k ++
          [acquire_request w.swapchain.m_rhi_swapchain sem.m_rhi_resource]) ∨
      new_events w (AcquireNextImage driver w) =
        retry_events w.swapchain.m_rhi_swapchain sem.m_rhi_resource retry_max := by
  rcases driver_shape driver retry_max with ⟨k, x, hk, hnr, hs⟩ | ⟨k, c, hk, hnr, hs⟩ | hall
  · refine Or.inl ⟨k, hk, new_events_of_append _ _ _ ?_⟩
    rw [AcquireNextImage_success_at driver w sem k x hcount hslot hk hnr hs, List.append_assoc]
  · refine Or.inl ⟨k, hk, new_events_of_append _ _ _ ?_⟩
    rw [AcquireNextImage_other_at driver w sem k c hcount hslot hk hnr hs, List.append_assoc]
  · refine Or.inr (new_events_of_append _ _ _ ?_)
    rw [AcquireNextImage_exhausted driver w sem hcount hslot hall]

/-- A call of `AcquireNextImage` that does not reach the loop with a semaphore
makes no request and does not sleep. -/
theorem AcquireNextImage_events_unreached (driver : Nat → VkAcquireAnswer) (w : World)
    (h : w.swapchain.m_buffer_count = 0 ∨
      w.swapchain.m_image_acquired_semaphore[
        u32 (w.swapchain.m_buffer_index + 1) % w.swapchain.m_buffer_count]? = none ∨
      w.swapchain.m_image_acquired_semaphore[
        u32 (w.swapchain.m_buffer_index + 1) % w.swapchain.m_buffer_count]? = some none) :
    new_events w (AcquireNextImage driver w) = [] := by
  rcases h with h | h | h
  · simp [AcquireNextImage, h, new_events]
  · by_cases hc : w.swapchain.m_buffer_count = 0
    · simp [AcquireNextImage, hc, new_events]
    · simp [AcquireNextImage, hc, h, new_events]
  · by_cases hc : w.swapchain.m_buffer_count = 0
    · simp [AcquireNextImage, hc, new_events]
    · rw [AcquireNextImage_enter driver w none hc h, acquire_loop_null]
      simp [new_events]

theorem u32_succ_mod (b c : Nat) (hb : b < c) (hu32 : c < 2 ^ 32) :
    u32 (b + 1) % c = (b + 1) % c := by
  have h : (b + 1) % 2 ^ 32 = b + 1 := Nat.mod_eq_of_lt (by omega)
  unfold u32
  rw [h]

theorem succ_mod_ne_self (b c : Nat) (hc : 2 ≤ c) (hb : b < c) : (b + 1) % c ≠ b := by
  by_cases h : b + 1 < c
  · rw [Nat.mod_eq_of_lt h]; omega
  · have : b + 1 = c := by omega
    rw [this, Nat.mod_self]; omega

/-- C3: on a swapchain with `buffer_count >= 2` whose slots `0..buffer_count-1`
hold semaphores and whose `buffer_index` is `b < buffer_count`, `n` calls of
`AcquireNextImage` all return and leave `buffer_index = (b + n) mod
buffer_count`, whatever the driver answered on each attempt of each call
(success with any image index, or not-ready); and among any `buffer_count`
consecutive calls, each slot is the value of `buffer_index` after exactly one
of them. -/
theorem AcquireNextImage_buffer_index_round_robin (drivers : Nat → Nat → VkAcquireAnswer)
    (w : World) (n : Nat)
    (hcount : 2 ≤ w.swapchain.m_buffer_count)
    (hu32 : w.swapchain.m_buffer_count < 2 ^ 32)
    (hb : w.swapchain.m_buffer_index < w.swapchain.m_buffer_count)
    (hslots : ∀ i, i < w.swapchain.m_buffer_count →
      ∃ sem, w.swapchain.m_image_acquired_semaphore[i]? = some (some sem))
    (hdrv : ∀ call attempt code, drivers call attempt ≠ VkAcquireAnswer.other code) :
    (AcquireNextImage_times drivers n w).fault = none ∧
      (AcquireNextImage_times drivers n w).world.swapchain.m_buffer_index =
        (w.swapchain.m_buffer_index + n) % w.swapchain.m_buffer_count ∧
      ∀ slot, slot < w.swapchain.m_buffer_count →
        ∃! k, k < w.swapchain.m_buffer_count ∧
          (AcquireNextImage_times drivers (n + k + 1) w).world.swapchain.m_buffer_index = slot := by
  have inv := AcquireNextImage_times_invariant drivers w hcount hu32 hb hslots hdrv
  refine ⟨(inv n).1, (inv n).2.1, fun slot hslot => ?_⟩
  obtain ⟨k, ⟨hk, hkslot⟩, huniq⟩ :=
    add_mod_visits_once w.swapchain.m_buffer_count (w.swapchain.m_buffer_index + n + 1) slot hslot
  have key : ∀ j, (AcquireNextImage_times drivers (n + j + 1) w).world.swapchain.m_buffer_index =
      (w.swapchain.m_buffer_index + n + 1 + j) % w.swapchain.m_buffer_count := by
    intro j
    rw [(inv (n + j + 1)).2.1]
    congr 1
    omega
  refine ⟨k, ⟨hk, ?_⟩, ?_⟩
  · rw [key k]; exact hkslot
  · rintro j ⟨hj, hjslot⟩
    exact huniq j ⟨hj, by rw [← key j]; exact hjslot⟩

/-- Witness of `AcquireNextImage_buffer_index_round_robin`: three calls on
`demo_world`, the driver answering not-ready on every attempt of the first call
and success with image 2 on the first attempt of the others. -/
theorem AcquireNextImage_buffer_index_round_robin_witness :
    (AcquireNextImage_times
        (fun call _ => if call = 0 then VkAcquireAnswer.VK_NOT_READY
          else VkAcquireAnswer.VK_SUCCESS 2) 3 demo_world).fault = none ∧
      (AcquireNextImage_times
        (fun call _ => if call = 0 then VkAcquireAnswer.VK_NOT_READY
          else VkAcquireAnswer.VK_SUCCESS 2) 3 demo_world).world.swapchain.m_buffer_index =
        (0 + 3) % 2 ∧
      ∀ slot, slot < 2 →
        ∃! k, k < 2 ∧
          (AcquireNextImage_times
            (fun call _ => if call = 0 then VkAcquireAnswer.VK_NOT_READY
              else VkAcquireAnswer.VK_SUCCESS 2) (3 + k + 1)
            demo_world).world.swapchain.m_buffer_index = slot :=
  AcquireNextImage_buffer_index_round_robin
    (fun call _ => if call = 0 then VkAcquireAnswer.VK_NOT_READY
      else VkAcquireAnswer.VK_SUCCESS 2) demo_world 3
    (by decide) (by decide) (by decide)
    (fun i hi => by
      have hi2 : i < 2 := hi
      interval_cases i
      · exact ⟨⟨300, false⟩, rfl⟩
      · exact ⟨⟨301, false⟩, rfl⟩)
    (fun call _ code => by
      by_cases h : call = 0 <;> simp [h])

theorem retry_events_request_semaphore (sc : Option Nat) (sem : Nat) (k : Nat) (tail : List Event)
    (htail : tail = [] ∨ tail = [acquire_request sc sem]) :
    ∀ e ∈ retry_events sc sem k ++ tail,
      is_acquire_request e = true → request_semaphore e = some sem := by
  intro e he hreq
  rcases List.mem_append.mp he with h | h
  · exact retry_events_semaphore sc sem k e h hreq
  · rcases htail with ht | ht
    · rw [ht] at h; cases h
    · rw [ht, List.mem_singleton] at h
      subst h; rfl

/-- Every request of one call carries the semaphore read before the loop. -/
theorem AcquireNextImage_requests_carry (driver : Nat → VkAcquireAnswer) (w : World)
    (sem : RHI_SyncPrimitive)
    (hcount : w.swapchain.m_buffer_count ≠ 0)
    (hslot : w.swapchain.m_image_acquired_semaphore[
      u32 (w.swapchain.m_buffer_index + 1) % w.swapchain.m_buffer_count]? = some (some sem)) :
    ∀ e ∈ new_events w (AcquireNextImage driver w),
      is_acquire_request e = true → request_semaphore e = some sem.m_rhi_resource := by
  rcases AcquireNextImage_events driver w sem hcount hslot with ⟨k, _, hev⟩ | hev
  · rw [hev]
    exact retry_events_request_semaphore _ _ k _ (Or.inr rfl)
  · rw [hev, ← List.append_nil (retry_events _ _ _)]
    exact retry_events_request_semaphore _ _ retry_max _ (Or.inl rfl)

/-- The first event of one call that reaches the loop is a request. -/
theorem AcquireNextImage_first_event (driver : Nat → VkAcquireAnswer) (w : World)
    (sem : RHI_SyncPrimitive)
    (hcount : w.swapchain.m_buffer_count ≠ 0)
    (hslot : w.swapchain.m_image_acquired_semaphore[
      u32 (w.swapchain.m_buffer_index + 1) % w.swapchain.m_buffer_count]? = some (some sem)) :
    (new_events w (AcquireNextImage driver w)).head? =
      some (acquire_request w.swapchain.m_rhi_swapchain sem.m_rhi_resource) := by
  rcases AcquireNextImage_events driver w sem hcount hslot with ⟨k, _, hev⟩ | hev
  · rw [hev]
    cases k <;> rfl
  · rw [hev]; rfl

/-- The events of a call depend on the world only through `buffer_count`,
`buffer_index`, the semaphore slots and the swapchain handle. -/
theorem AcquireNextImage_events_congr (driver : Nat → VkAcquireAnswer) (w w1 : World)
    (h1 : w1.swapchain.m_buffer_count = w.swapchain.m_buffer_count)
    (h2 : w1.swapchain.m_buffer_index = w.swapchain.m_buffer_index)
    (h3 : w1.swapchain.m_image_acquired_semaphore = w.swapchain.m_image_acquired_semaphore)
    (h4 : w1.swapchain.m_rhi_swapchain = w.swapchain.m_rhi_swapchain) :
    new_events w1 (AcquireNextImage driver w1) = new_events w (AcquireNextImage driver w) := by
  have hidx : w1.swapchain.m_image_acquired_semaphore[
      u32 (w1.swapchain.m_buffer_index + 1) % w1.swapchain.m_buffer_count]? =
      w.swapchain.m_image_acquired_semaphore[
        u32 (w.swapchain.m_buffer_index + 1) % w.swapchain.m_buffer_count]? := by
    rw [h1, h2, h3]
  by_cases hc : w.swapchain.m_buffer_count = 0
  · rw [AcquireNextImage_events_unreached driver w (Or.inl hc),
      AcquireNextImage_events_unreached driver w1 (Or.inl (h1.trans hc))]
  · have hc1 : w1.swapchain.m_buffer_count ≠ 0 := fun h => hc (h1.symm.trans h)
    cases hs : w.swapchain.m_image_acquired_semaphore[
        u32 (w.swapchain.m_buffer_index + 1) % w.swapchain.m_buffer_count]? with
    | none =>
      rw [AcquireNextImage_events_unreached driver w (Or.inr (Or.inl hs)),
        AcquireNextImage_events_unreached driver w1 (Or.inr (Or.inl (hidx.trans hs)))]
    | some slot =>
      cases slot with
      | none =>
        rw [AcquireNextImage_events_unreached driver w (Or.inr (Or.inr hs)),
          AcquireNextImage_events_unreached driver w1 (Or.inr (Or.inr (hidx.trans hs)))]
      | some sem =>
        have hs1 := hidx.trans hs
        rcases driver_shape driver retry_max with ⟨k, x, hk, hnr, hd⟩ | ⟨k, c, hk, hnr, hd⟩ | hall
        · rw [new_events_of_append w (AcquireNextImage driver w) _ (by
              rw [AcquireNextImage_success_at driver w sem k x hc hs hk hnr hd,
                List.append_assoc]),
            new_events_of_append w1 (AcquireNextImage driver w1) _ (by
              rw [AcquireNextImage_success_at driver w1 sem k x hc1 hs1 hk hnr hd,
                List.append_assoc]), h4]
        · rw [new_events_of_append w (AcquireNextImage driver w) _ (by
              rw [AcquireNextImage_other_at driver w sem k c hc hs hk hnr hd,
                List.append_assoc]),
            new_events_of_append w1 (AcquireNextImage driver w1) _ (by
              rw [AcquireNextImage_other_at driver w1 sem k c hc1 hs1 hk hnr hd,
                List.append_assoc]), h4]
        · rw [new_events_of_append w (AcquireNextImage driver w) _ (by
              rw [AcquireNextImage_exhausted driver w sem hc hs hall]),
            new_events_of_append w1 (AcquireNextImage driver w1) _ (by
              rw [AcquireNextImage_exhausted driver w1 sem hc1 hs1 hall]), h4]

/-- C4: on a swapchain with `buffer_count >= 2` and `buffer_index <
buffer_count`, `AcquireNextImage` starts with a request to the driver, and
every request it makes, retries included, passes the semaphore stored at slot
`(old buffer_index + 1) mod buffer_count`.  That slot is not the old
`buffer_index`; a semaphore with another handle, such as one stored at the old
`buffer_index` or at `image_index`, is passed in no request; and the requests
are the same whatever `image_index` is. -/
theorem AcquireNextImage_semaphore_slot (driver : Nat → VkAcquireAnswer) (w : World)
    (sem : RHI_SyncPrimitive)
    (hcount : 2 ≤ w.swapchain.m_buffer_count)
    (hu32 : w.swapchain.m_buffer_count < 2 ^ 32)
    (hb : w.swapchain.m_buffer_index < w.swapchain.m_buffer_count)
    (hslot : w.swapchain.m_image_acquired_semaphore[
      (w.swapchain.m_buffer_index + 1) % w.swapchain.m_buffer_count]? = some (some sem)) :
    (w.swapchain.m_buffer_index + 1) % w.swapchain.m_buffer_count ≠ w.swapchain.m_buffer_index ∧
      (new_events w (AcquireNextImage driver w)).head? =
        some (acquire_request w.swapchain.m_rhi_swapchain sem.m_rhi_resource) ∧
      (∀ e ∈ new_events w (AcquireNextImage driver w),
        is_acquire_request e = true → request_semaphore e = some sem.m_rhi_resource) ∧
      (∀ (i : Nat) (other : RHI_SyncPrimitive), w.swapchain.m_image_acquired_semaphore[i]? = some (some other) →
        other.m_rhi_resource ≠ sem.m_rhi_resource →
        ∀ e ∈ new_events w (AcquireNextImage driver w),
          request_semaphore e ≠ some other.m_rhi_resource) ∧
      (∀ image_index,
        new_events { w with swapchain := { w.swapchain with m_image_index := image_index } }
            (AcquireNextImage driver
              { w with swapchain := { w.swapchain with m_image_index := image_index } }) =
          new_events w (AcquireNextImage driver w)) := by
  have hc : w.swapchain.m_buffer_count ≠ 0 := by omega
  have hs : w.swapchain.m_image_acquired_semaphore[
      u32 (w.swapchain.m_buffer_index + 1) % w.swapchain.m_buffer_count]? = some (some sem) := by
    rw [u32_succ_mod _ _ hb hu32]; exact hslot
  have hcarry := AcquireNextImage_requests_carry driver w sem hc hs
  refine ⟨succ_mod_ne_self _ _ hcount hb, AcquireNextImage_first_event driver w sem hc hs,
    hcarry, ?_, fun _ => AcquireNextImage_events_congr driver w _ rfl rfl rfl rfl⟩
  intro i other _ hne e he heq
  have hreq : is_acquire_request e = true := by
    cases e <;> first | rfl | simp [request_semaphore] at heq
  rw [hcarry e he hreq] at heq
  exact hne (Option.some.inj heq).symm

/-- Witness of `AcquireNextImage_semaphore_slot`: on `demo_world`
(`buffer_index = 0`, `image_index = 0`) the requests carry the semaphore of
slot 1. -/
theorem AcquireNextImage_semaphore_slot_witness :
    (0 + 1) % 2 ≠ 0 ∧
      (new_events demo_world
          (AcquireNextImage (fun _ => VkAcquireAnswer.VK_NOT_READY) demo_world)).head? =
        some (acquire_request (some 50) 301) ∧
      (∀ e ∈ new_events demo_world
          (AcquireNextImage (fun _ => VkAcquireAnswer.VK_NOT_READY) demo_world),
        is_acquire_request e = true → request_semaphore e = some 301) :=
  have h := AcquireNextImage_semaphore_slot (fun _ => VkAcquireAnswer.VK_NOT_READY) demo_world
    ⟨301, false⟩ (by decide) (by decide) (by decide) (by decide)
  ⟨h.1, h.2.1, h.2.2.1⟩

/-- The call `SetLayout` when `image_index` is outside the recorded layouts. -/
theorem SetLayout_of_no_layout (layout : RHI_Image_Layout) (cmd_list : Nat) (w : World)
    (h1 : w.swapchain.m_layouts[w.swapchain.m_image_index]? = none) :
    SetLayout layout cmd_list w = ⟨w, some Fault.out_of_bounds⟩ := by
  simp [SetLayout, h1]

/-- The call `SetLayout` when the current image is already in the requested layout. -/
theorem SetLayout_of_same (layout : RHI_Image_Layout) (cmd_list : Nat) (w : World)
    (h1 : w.swapchain.m_layouts[w.swapchain.m_image_index]? = some layout) :
    SetLayout layout cmd_list w = ⟨w, none⟩ := by
  simp [SetLayout, h1]

/-- The call `SetLayout` when `image_index` is outside the images. -/
theorem SetLayout_of_no_image (layout current : RHI_Image_Layout) (cmd_list : Nat) (w : World)
    (h1 : w.swapchain.m_layouts[w.swapchain.m_image_index]? = some current)
    (h2 : current ≠ layout)
    (h3 : w.swapchain.m_rhi_rt[w.swapchain.m_image_index]? = none) :
    SetLayout layout cmd_list w = ⟨w, some Fault.out_of_bounds⟩ := by
  simp [SetLayout, h1, h2, h3]

/-- The call `SetLayout` when the current image is in another layout. -/
theorem SetLayout_of_change (layout current : RHI_Image_Layout) (cmd_list : Nat) (w : World)
    (image : Option Nat)
    (h1 : w.swapchain.m_layouts[w.swapchain.m_image_index]? = some current)
    (h2 : current ≠ layout)
    (h3 : w.swapchain.m_rhi_rt[w.swapchain.m_image_index]? = some image) :
    SetLayout layout cmd_list w =
      ⟨{ w with
          swapchain := { w.swapchain with
            m_layouts := w.swapchain.m_layouts.set w.swapchain.m_image_index layout },
          trace := w.trace ++ [Event.InsertBarrierTexture cmd_list image current layout] },
        none⟩ := by
  simp [SetLayout, h1, h2, h3]

/-- A call of `SetLayout` changes nothing of the swapchain but the recorded
layouts, leaves the command list of the queue alone and only appends to the
trace. -/
theorem SetLayout_frame (layout : RHI_Image_Layout) (cmd_list : Nat) (w : World) :
    ∃ layouts, (SetLayout layout cmd_list w).world.swapchain =
        { w.swapchain with m_layouts := layouts } ∧
      (SetLayout layout cmd_list w).world.cmd_list = w.cmd_list := by
  cases h1 : w.swapchain.m_layouts[w.swapchain.m_image_index]? with
  | none =>
    rw [SetLayout_of_no_layout layout cmd_list w h1]
    exact ⟨w.swapchain.m_layouts, rfl, rfl⟩
  | some current =>
    by_cases h2 : current = layout
    · rw [SetLayout_of_same layout cmd_list w (h2 ▸ h1)]
      exact ⟨w.swapchain.m_layouts, rfl, rfl⟩
    · cases h3 : w.swapchain.m_rhi_rt[w.swapchain.m_image_index]? with
      | none =>
        rw [SetLayout_of_no_image layout current cmd_list w h1 h2 h3]
        exact ⟨w.swapchain.m_layouts, rfl, rfl⟩
      | some image =>
        rw [SetLayout_of_change layout current cmd_list w image h1 h2 h3]
        exact ⟨_, rfl, rfl⟩

/-- A run of `SetLayout` calls changes nothing of the swapchain but the
recorded layouts and leaves the command list of the queue alone. -/
theorem SetLayout_each_frame (cmd_list : Nat) (layouts : List RHI_Image_Layout) :
    ∀ w : World, ∃ recorded, (SetLayout_each cmd_list layouts w).world.swapchain =
        { w.swapchain with m_layouts := recorded } ∧
      (SetLayout_each cmd_list layouts w).world.cmd_list = w.cmd_list := by
  induction layouts with
  | nil => intro w; exact ⟨w.swapchain.m_layouts, rfl, rfl⟩
  | cons layout rest ih =>
    intro w
    obtain ⟨l1, hsc1, hcmd1⟩ := SetLayout_frame layout cmd_list w
    generalize hgen : SetLayout layout cmd_list w = o at hsc1 hcmd1
    obtain ⟨w1, f1⟩ := o
    simp only at hsc1 hcmd1
    cases f1 with
    | some f =>
      refine ⟨l1, ?_, ?_⟩
      · simp only [SetLayout_each, hgen]; exact hsc1
      · simp only [SetLayout_each, hgen]; exact hcmd1
    | none =>
      obtain ⟨l2, hsc2, hcmd2⟩ := ih w1
      refine ⟨l2, ?_, ?_⟩
      · simp only [SetLayout_each, hgen]; rw [hsc2, hsc1]
      · simp only [SetLayout_each, hgen]; rw [hcmd2, hcmd1]

/-- C5: let `AcquireNextImage` succeed (the driver answers success at some
attempt, having answered not-ready before), let any `SetLayout` calls follow,
and let `Present` be called in a state where the current image is recorded as
`Present_Source`.  Then `Present` returns, hands the driver-returned image
index to the queue, and the last entry of the wait-set it hands over is the
semaphore that every request of this `AcquireNextImage` passed to the driver:
the one of slot `(old buffer_index + 1) mod buffer_count`. -/
theorem Present_waits_on_acquired_semaphore (driver : Nat → VkAcquireAnswer) (w w2 : World)
    (sem : RHI_SyncPrimitive) (k image_index cmd_list : Nat) (layouts : List RHI_Image_Layout)
    (hcount : w.swapchain.m_buffer_count ≠ 0)
    (hslot : w.swapchain.m_image_acquired_semaphore[
      u32 (w.swapchain.m_buffer_index + 1) % w.swapchain.m_buffer_count]? = some (some sem))
    (hk : k < retry_max)
    (hnr : ∀ i, i < k → driver i = VkAcquireAnswer.VK_NOT_READY)
    (hs : driver k = VkAcquireAnswer.VK_SUCCESS image_index)
    (hset : SetLayout_each cmd_list layouts (AcquireNextImage driver w).world = ⟨w2, none⟩)
    (hpre : w2.swapchain.m_layouts[w2.swapchain.m_image_index]? =
      some RHI_Image_Layout.Present_Source) :
    (AcquireNextImage driver w).fault = none ∧
      (∀ e ∈ new_events w (AcquireNextImage driver w),
        is_acquire_request e = true → request_semaphore e = some sem.m_rhi_resource) ∧
      (new_events w (AcquireNextImage driver w)).getLast? =
        some (acquire_request w.swapchain.m_rhi_swapchain sem.m_rhi_resource) ∧
      (Present w2).fault = none ∧
      new_events w2 (Present w2) =
        [Event.Queue_Present w.swapchain.m_rhi_swapchain image_index
          ((if w.cmd_list.m_swapchain_id = w.swapchain.m_object_id then
              [some w.cmd_list.m_rendering_complete_semaphore.m_rhi_resource]
            else []) ++ [some sem.m_rhi_resource])] := by
  have hacq := AcquireNextImage_success_at driver w sem k image_index hcount hslot hk hnr hs
  obtain ⟨recorded, hsc, hcmd⟩ := SetLayout_each_frame cmd_list layouts (AcquireNextImage driver w).world
  rw [hset] at hsc hcmd
  simp only at hsc hcmd
  rw [hacq] at hsc hcmd
  simp only at hsc hcmd
  have hslot2 : w2.swapchain.m_image_acquired_semaphore[w2.swapchain.m_buffer_index]? =
      some (some sem) := by
    rw [hsc]; exact hslot
  have hpres := Present_of_precondition w2 (some sem) hpre hslot2
  refine ⟨by rw [hacq], AcquireNextImage_requests_carry driver w sem hcount hslot, ?_,
    by rw [hpres], ?_⟩
  · rw [new_events_of_append w _ _ (by rw [hacq, List.append_assoc])]
    simp
  · rw [new_events_of_append w2 (Present w2) _ (by rw [hpres]), hcmd, hsc]
    rfl

/-- Witness of `Present_waits_on_acquired_semaphore`: on `demo_world` the
driver answers not-ready once and then success with image 0, the image is moved
to `Present_Source`, and `Present` waits on the semaphore of slot 1. -/
theorem Present_waits_on_acquired_semaphore_witness :
    (Present
        (SetLayout_each 1 [RHI_Image_Layout.Present_Source]
          (AcquireNextImage
            (fun n => if n < 1 then VkAcquireAnswer.VK_NOT_READY else VkAcquireAnswer.VK_SUCCESS 0)
            demo_world).world).world).fault = none ∧
      new_events
          (SetLayout_each 1 [RHI_Image_Layout.Present_Source]
            (AcquireNextImage
              (fun n => if n < 1 then VkAcquireAnswer.VK_NOT_READY
                else VkAcquireAnswer.VK_SUCCESS 0)
              demo_world).world).world
          (Present
            (SetLayout_each 1 [RHI_Image_Layout.Present_Source]
              (AcquireNextImage
                (fun n => if n < 1 then VkAcquireAnswer.VK_NOT_READY
                  else VkAcquireAnswer.VK_SUCCESS 0)
                demo_world).world).world) =
        [Event.Queue_Present (some 50) 0 [some 400, some 301]] :=
  have hacq := AcquireNextImage_success_at
    (fun n => if n < 1 then VkAcquireAnswer.VK_NOT_READY else VkAcquireAnswer.VK_SUCCESS 0)
    demo_world ⟨301, false⟩ 1 0 (by decide) (by decide) (by decide)
    (fun i hi => by simp [hi]) (by decide)
  have h := Present_waits_on_acquired_semaphore
    (fun n => if n < 1 then VkAcquireAnswer.VK_NOT_READY else VkAcquireAnswer.VK_SUCCESS 0)
    demo_world
    (SetLayout_each 1 [RHI_Image_Layout.Present_Source]
      (AcquireNextImage
        (fun n => if n < 1 then VkAcquireAnswer.VK_NOT_READY else VkAcquireAnswer.VK_SUCCESS 0)
        demo_world).world).world
    ⟨301, false⟩ 1 0 1 [RHI_Image_Layout.Present_Source]
    (by decide) (by decide) (by decide) (fun i hi => by simp [hi]) (by decide)
    (by rw [hacq]; rfl) (by rw [hacq]; rfl)
  ⟨h.2.2.2.1, h.2.2.2.2⟩

theorem retry_events_append_count_requests (sc : Option Nat) (sem : Nat) (k : Nat) :
    (retry_events sc sem k ++ [acquire_request sc sem]).countP is_acquire_request = k + 1 := by
  rw [List.countP_append, retry_events_count_requests]
  rfl

theorem retry_events_append_count_sleeps (sc : Option Nat) (sem : Nat) (k : Nat) :
    (retry_events sc sem k ++ [acquire_request sc sem]).countP is_sleep = k := by
  rw [List.countP_append, retry_events_count_sleeps]
  rfl

/-- C6: when the driver answers success at attempt `k` (counted from 0, the
earlier attempts having been answered not-ready), `AcquireNextImage` returns
at that attempt: the request answered by success is the last event of the
call, `k + 1` requests have been made in all, and `image_index` is the index
the driver returned, whatever `buffer_index` was and has become. -/
theorem AcquireNextImage_returns_on_success (driver : Nat → VkAcquireAnswer) (w : World)
    (sem : RHI_SyncPrimitive) (k image_index : Nat)
    (hcount : w.swapchain.m_buffer_count ≠ 0)
    (hslot : w.swapchain.m_image_acquired_semaphore[
      u32 (w.swapchain.m_buffer_index + 1) % w.swapchain.m_buffer_count]? = some (some sem))
    (hk : k < 10)
    (hnr : ∀ i, i < k → driver i = VkAcquireAnswer.VK_NOT_READY)
    (hs : driver k = VkAcquireAnswer.VK_SUCCESS image_index) :
    (AcquireNextImage driver w).fault = none ∧
      (AcquireNextImage driver w).world.swapchain.m_image_index = image_index ∧
      (AcquireNextImage driver w).world.swapchain.m_buffer_index =
        u32 (w.swapchain.m_buffer_index + 1) % w.swapchain.m_buffer_count ∧
      new_events w (AcquireNextImage driver w) =
        retry_events w.swapchain.m_rhi_swapchain sem.m_rhi_resource k ++
          [acquire_request w.swapchain.m_rhi_swapchain sem.m_rhi_resource] ∧
      (new_events w (AcquireNextImage driver w)).countP is_acquire_request = k + 1 := by
  have hacq := AcquireNextImage_success_at driver w sem k image_index hcount hslot hk hnr hs
  have hev := new_events_of_append w (AcquireNextImage driver w) _
    (by rw [hacq, List.append_assoc])
  refine ⟨by rw [hacq], by rw [hacq], by rw [hacq], hev, ?_⟩
  rw [hev, retry_events_append_count_requests]

/-- Witness of `AcquireNextImage_returns_on_success`: on `demo_world` the
driver answers not-ready three times and then success with image 2, while
`buffer_index` becomes 1. -/
theorem AcquireNextImage_returns_on_success_witness :
    (AcquireNextImage
        (fun n => if n < 3 then VkAcquireAnswer.VK_NOT_READY else VkAcquireAnswer.VK_SUCCESS 2)
        demo_world).fault = none ∧
      (AcquireNextImage
        (fun n => if n < 3 then VkAcquireAnswer.VK_NOT_READY else VkAcquireAnswer.VK_SUCCESS 2)
        demo_world).world.swapchain.m_image_index = 2 ∧
      (AcquireNextImage
        (fun n => if n < 3 then VkAcquireAnswer.VK_NOT_READY else VkAcquireAnswer.VK_SUCCESS 2)
        demo_world).world.swapchain.m_buffer_index = 1 ∧
      (new_events demo_world (AcquireNextImage
        (fun n => if n < 3 then VkAcquireAnswer.VK_NOT_READY else VkAcquireAnswer.VK_SUCCESS 2)
        demo_world)).countP is_acquire_request = 3 + 1 :=
  have h := AcquireNextImage_returns_on_success
    (fun n => if n < 3 then VkAcquireAnswer.VK_NOT_READY else VkAcquireAnswer.VK_SUCCESS 2)
    demo_world ⟨301, false⟩ 3 2 (by decide) (by decide) (by decide)
    (fun i hi => by simp [hi]) (by decide)
  ⟨h.1, h.2.1, h.2.2.1, h.2.2.2.2⟩

/-- C7: one call of `AcquireNextImage` always terminates, and makes at most 10
requests to the driver whatever the state and whatever the driver answers.
When the call reaches the loop with a semaphore: if the first `k < 10` answers
are not-ready and the next is success it makes exactly `k + 1` requests, and
if the first 10 answers are all not-ready it makes exactly 10. -/
theorem AcquireNextImage_request_count (driver : Nat → VkAcquireAnswer) (w : World) :
    (new_events w (AcquireNextImage driver w)).countP is_acquire_request ≤ 10 ∧
      ∀ sem : RHI_SyncPrimitive,
        w.swapchain.m_buffer_count ≠ 0 →
        w.swapchain.m_image_acquired_semaphore[
          u32 (w.swapchain.m_buffer_index + 1) % w.swapchain.m_buffer_count]? = some (some sem) →
        (∀ k image_index, k < 10 →
          (∀ i, i < k → driver i = VkAcquireAnswer.VK_NOT_READY) →
          driver k = VkAcquireAnswer.VK_SUCCESS image_index →
          (new_events w (AcquireNextImage driver w)).countP is_acquire_request = k + 1) ∧
        ((∀ i, i < 10 → driver i = VkAcquireAnswer.VK_NOT_READY) →
          (new_events w (AcquireNextImage driver w)).countP is_acquire_request = 10) := by
  constructor
  · by_cases hc : w.swapchain.m_buffer_count = 0
    · rw [AcquireNextImage_events_unreached driver w (Or.inl hc)]
      exact Nat.zero_le _
    · cases hs : w.swapchain.m_image_acquired_semaphore[
          u32 (w.swapchain.m_buffer_index + 1) % w.swapchain.m_buffer_count]? with
      | none =>
        rw [AcquireNextImage_events_unreached driver w (Or.inr (Or.inl hs))]
        exact Nat.zero_le _
      | some slot =>
        cases slot with
        | none =>
          rw [AcquireNextImage_events_unreached driver w (Or.inr (Or.inr hs))]
          exact Nat.zero_le _
        | some sem =>
          rcases AcquireNextImage_events driver w sem hc hs with ⟨k, hk, hev⟩ | hev
          · rw [hev, retry_events_append_count_requests]
            exact hk
          · rw [hev, retry_events_count_requests]
            exact Nat.le_refl _
  · intro sem hc hs
    constructor
    · intro k image_index hk hnr hd
      rw [new_events_of_append w (AcquireNextImage driver w) _
        (by rw [AcquireNextImage_success_at driver w sem k image_index hc hs hk hnr hd,
          List.append_assoc]),
        retry_events_append_count_requests]
    · intro hall
      rw [new_events_of_append w (AcquireNextImage driver w) _
        (by rw [AcquireNextImage_exhausted driver w sem hc hs hall]),
        retry_events_count_requests]
      rfl

/-- Witness of `AcquireNextImage_request_count`: on `demo_world`, a driver that
is never ready is asked exactly 10 times. -/
theorem AcquireNextImage_request_count_witness :
    (new_events demo_world
        (AcquireNextImage (fun _ => VkAcquireAnswer.VK_NOT_READY) demo_world)).countP
        is_acquire_request ≤ 10 ∧
      (new_events demo_world
        (AcquireNextImage (fun _ => VkAcquireAnswer.VK_NOT_READY) demo_world)).countP
        is_acquire_request = 10 :=
  have h := AcquireNextImage_request_count (fun _ => VkAcquireAnswer.VK_NOT_READY) demo_world
  ⟨h.1, (h.2 ⟨301, false⟩ (by decide) (by decide)).2 (fun _ _ => rfl)⟩

/-- C8 (as stated) fails: on `demo_world`, with the driver answering not-ready
on all 10 attempts, `AcquireNextImage` returns like a successful call does.
No fault is raised, and the swapchain and the command list are left exactly as
by a call that the driver answered with success and image index 0. -/
theorem AcquireNextImage_exhausted_looks_successful :
    (AcquireNextImage (fun _ => VkAcquireAnswer.VK_NOT_READY) demo_world).fault = none ∧
      (AcquireNextImage (fun _ => VkAcquireAnswer.VK_NOT_READY) demo_world).fault =
        (AcquireNextImage (fun _ => VkAcquireAnswer.VK_SUCCESS 0) demo_world).fault ∧
      (AcquireNextImage (fun _ => VkAcquireAnswer.VK_NOT_READY) demo_world).world.swapchain =
        (AcquireNextImage (fun _ => VkAcquireAnswer.VK_SUCCESS 0) demo_world).world.swapchain ∧
      (AcquireNextImage (fun _ => VkAcquireAnswer.VK_NOT_READY) demo_world).world.cmd_list =
        (AcquireNextImage (fun _ => VkAcquireAnswer.VK_SUCCESS 0) demo_world).world.cmd_list := by
  rw [AcquireNextImage_exhausted (fun _ => VkAcquireAnswer.VK_NOT_READY) demo_world ⟨301, false⟩
      (by decide) (by decide) (fun _ _ => rfl),
    AcquireNextImage_success_at (fun _ => VkAcquireAnswer.VK_SUCCESS 0) demo_world ⟨301, false⟩
      0 0 (by decide) (by decide) (by decide) (fun i hi => absurd hi (Nat.not_lt_zero i)) rfl]
  exact ⟨rfl, rfl, rfl, rfl⟩

/-- C8 (amended): when the driver answers not-ready on all 10 attempts,
`AcquireNextImage` gives up after the 10th request and 10th sleep and returns
normally, raising no fault.  `buffer_index` has been advanced and nothing else
of the swapchain or the command list has changed; in particular `image_index`
keeps its previous value, so the caller is left with the same return and the
same state as after a successful call whose driver returned the previous
`image_index`. -/
theorem AcquireNextImage_gives_up_silently (driver : Nat → VkAcquireAnswer) (w : World)
    (sem : RHI_SyncPrimitive)
    (hcount : w.swapchain.m_buffer_count ≠ 0)
    (hslot : w.swapchain.m_image_acquired_semaphore[
      u32 (w.swapchain.m_buffer_index + 1) % w.swapchain.m_buffer_count]? = some (some sem))
    (hall : ∀ i, i < 10 → driver i = VkAcquireAnswer.VK_NOT_READY) :
    (AcquireNextImage driver w).fault = none ∧
      (AcquireNextImage driver w).world.swapchain =
        { w.swapchain with
          m_buffer_index := u32 (w.swapchain.m_buffer_index + 1) % w.swapchain.m_buffer_count } ∧
      (AcquireNextImage driver w).world.cmd_list = w.cmd_list ∧
      new_events w (AcquireNextImage driver w) =
        retry_events w.swapchain.m_rhi_swapchain sem.m_rhi_resource 10 ∧
      (AcquireNextImage driver w).fault =
        (AcquireNextImage (fun _ => VkAcquireAnswer.VK_SUCCESS w.swapchain.m_image_index) w).fault ∧
      (AcquireNextImage driver w).world.swapchain =
        (AcquireNextImage (fun _ => VkAcquireAnswer.VK_SUCCESS w.swapchain.m_image_index)
          w).world.swapchain := by
  have hex := AcquireNextImage_exhausted driver w sem hcount hslot hall
  have hok := AcquireNextImage_success_at
    (fun _ => VkAcquireAnswer.VK_SUCCESS w.swapchain.m_image_index) w sem 0
    w.swapchain.m_image_index hcount hslot (by decide)
    (fun i hi => absurd hi (Nat.not_lt_zero i)) rfl
  have hev := new_events_of_append w (AcquireNextImage driver w) _ (by rw [hex])
  rw [hok]
  refine ⟨by rw [hex], by rw [hex], by rw [hex], hev, by rw [hex], by rw [hex]⟩

/-- Witness of `AcquireNextImage_gives_up_silently` on `demo_world`. -/
theorem AcquireNextImage_gives_up_silently_witness :
    (AcquireNextImage (fun _ => VkAcquireAnswer.VK_NOT_READY) demo_world).fault = none ∧
      (AcquireNextImage (fun _ => VkAcquireAnswer.VK_NOT_READY)
        demo_world).world.swapchain.m_image_index = 0 ∧
      (AcquireNextImage (fun _ => VkAcquireAnswer.VK_NOT_READY)
        demo_world).world.swapchain.m_buffer_index = 1 :=
  have h := AcquireNextImage_gives_up_silently (fun _ => VkAcquireAnswer.VK_NOT_READY)
    demo_world ⟨301, false⟩ (by decide) (by decide) (fun _ _ => rfl)
  ⟨h.1, by rw [h.2.1]; rfl, by rw [h.2.1]; rfl⟩

/-- C9: when the driver answers, at attempt `k` (counted from 0, the earlier
attempts having been answered not-ready), a result that is neither success nor
not-ready, `AcquireNextImage` stops on a failed assertion at that attempt: the
request so answered is the last event of the call, so that no request and no
sleep follows it; `k + 1` requests and `k` sleeps have been made in all, and
`image_index` is unchanged. -/
theorem AcquireNextImage_fatal_on_other_result (driver : Nat → VkAcquireAnswer) (w : World)
    (sem : RHI_SyncPrimitive) (k : Nat) (code : Int)
    (hcount : w.swapchain.m_buffer_count ≠ 0)
    (hslot : w.swapchain.m_image_acquired_semaphore[
      u32 (w.swapchain.m_buffer_index + 1) % w.swapchain.m_buffer_count]? = some (some sem))
    (hk : k < 10)
    (hnr : ∀ i, i < k → driver i = VkAcquireAnswer.VK_NOT_READY)
    (hs : driver k = VkAcquireAnswer.other code) :
    (AcquireNextImage driver w).fault = some Fault.assertion_failed ∧
      new_events w (AcquireNextImage driver w) =
        retry_events w.swapchain.m_rhi_swapchain sem.m_rhi_resource k ++
          [acquire_request w.swapchain.m_rhi_swapchain sem.m_rhi_resource] ∧
      (new_events w (AcquireNextImage driver w)).countP is_acquire_request = k + 1 ∧
      (new_events w (AcquireNextImage driver w)).countP is_sleep = k ∧
      (AcquireNextImage driver w).world.swapchain.m_image_index = w.swapchain.m_image_index := by
  have hacq := AcquireNextImage_other_at driver w sem k code hcount hslot hk hnr hs
  have hev := new_events_of_append w (AcquireNextImage driver w) _
    (by rw [hacq, List.append_assoc])
  refine ⟨by rw [hacq], hev, ?_, ?_, by rw [hacq]⟩
  · rw [hev, retry_events_append_count_requests]
  · rw [hev, retry_events_append_count_sleeps]

/-- Witness of `AcquireNextImage_fatal_on_other_result`: on `demo_world` the
driver answers not-ready twice and then the code -1000000001
(`VK_ERROR_OUT_OF_DATE_KHR`), eight attempts being left. -/
theorem AcquireNextImage_fatal_on_other_result_witness :
    (AcquireNextImage
        (fun n => if n < 2 then VkAcquireAnswer.VK_NOT_READY
          else VkAcquireAnswer.other (-1000000001))
        demo_world).fault = some Fault.assertion_failed ∧
      new_events demo_world (AcquireNextImage
        (fun n => if n < 2 then VkAcquireAnswer.VK_NOT_READY
          else VkAcquireAnswer.other (-1000000001))
        demo_world) =
        [acquire_request (some 50) 301, Event.sleep_for 16,
          acquire_request (some 50) 301, Event.sleep_for 16,
          acquire_request (some 50) 301] :=
  have h := AcquireNextImage_fatal_on_other_result
    (fun n => if n < 2 then VkAcquireAnswer.VK_NOT_READY
      else VkAcquireAnswer.other (-1000000001))
    demo_world ⟨301, false⟩ 2 (-1000000001) (by decide) (by decide) (by decide)
    (fun i hi => by simp [hi]) (by decide)
  ⟨h.1, h.2.1⟩

/-- C10: `SetLayout` is idempotent.  The first of two calls in a row with the
same target layout issues at most one barrier; the second, on whichever
command list, issues none and ends exactly as the first did, in the same world
(recorded layouts and trace included); so both calls together issue at most
one barrier. -/
theorem SetLayout_idempotent (layout : RHI_Image_Layout) (cmd_list cmd_list2 : Nat) (w : World) :
    (new_events w (SetLayout layout cmd_list w)).countP is_barrier ≤ 1 ∧
      SetLayout layout cmd_list2 (SetLayout layout cmd_list w).world =
        SetLayout layout cmd_list w ∧
      new_events (SetLayout layout cmd_list w).world
        (SetLayout layout cmd_list2 (SetLayout layout cmd_list w).world) = [] ∧
      (new_events w
        (SetLayout layout cmd_list2 (SetLayout layout cmd_list w).world)).countP is_barrier ≤ 1 := by
  have key : (new_events w (SetLayout layout cmd_list w)).countP is_barrier ≤ 1 ∧
      SetLayout layout cmd_list2 (SetLayout layout cmd_list w).world =
        SetLayout layout cmd_list w := by
    cases h1 : w.swapchain.m_layouts[w.swapchain.m_image_index]? with
    | none =>
      rw [SetLayout_of_no_layout layout cmd_list w h1]
      exact ⟨by simp [new_events], SetLayout_of_no_layout layout cmd_list2 w h1⟩
    | some current =>
      by_cases h2 : current = layout
      · rw [SetLayout_of_same layout cmd_list w (h2 ▸ h1)]
        exact ⟨by simp [new_events], SetLayout_of_same layout cmd_list2 w (h2 ▸ h1)⟩
      · cases h3 : w.swapchain.m_rhi_rt[w.swapchain.m_image_index]? with
        | none =>
          rw [SetLayout_of_no_image layout current cmd_list w h1 h2 h3]
          exact ⟨by simp [new_events], SetLayout_of_no_image layout current cmd_list2 w h1 h2 h3⟩
        | some image =>
          rw [SetLayout_of_change layout current cmd_list w image h1 h2 h3]
          refine ⟨by simp [new_events, is_barrier], ?_⟩
          apply SetLayout_of_same
          have hlt : w.swapchain.m_image_index < w.swapchain.m_layouts.length := by
            by_contra hge
            rw [List.getElem?_eq_none (by omega)] at h1
            cases h1
          simp [hlt]
  obtain ⟨hfirst, hsecond⟩ := key
  refine ⟨hfirst, hsecond, ?_, ?_⟩
  · rw [hsecond]; simp [new_events]
  · rw [hsecond]; exact hfirst

/-! ## Lemmas on sequencing and on the loops of `Create` -/

theorem and_then_returned (w : World) (next : World → Outcome) :
    Outcome.and_then ⟨w, none⟩ next = next w := rfl

theorem and_then_stopped (w : World) (f : Fault) (next : World → Outcome) :
    Outcome.and_then ⟨w, some f⟩ next = ⟨w, some f⟩ := rfl

theorem assert_that_holds (w : World) : assert_that true w = ⟨w, none⟩ := rfl

theorem assert_that_fails (w : World) :
    assert_that false w = ⟨w, some Fault.assertion_failed⟩ := rfl

theorem for_each_index_append (body : Nat → World → Outcome) (l1 l2 : List Nat) :
    ∀ w : World, for_each_index body (l1 ++ l2) w =
      (for_each_index body l1 w).and_then (for_each_index body l2) := by
  induction l1 with
  | nil => intro w; rfl
  | cons i rest ih =>
    intro w
    simp only [List.cons_append, for_each_index]
    generalize body i w = o
    obtain ⟨w1, f1⟩ := o
    cases f1 with
    | none => exact ih w1
    | some f => rfl

/-- A loop over `List.range n` whose turn `i` leads from stage `i` to stage
`i + 1` leads from stage 0 to stage `n`. -/
theorem for_each_index_range (body : Nat → World → Outcome) (stage : Nat → World) (n : Nat)
    (hstep : ∀ i, i < n → body i (stage i) = ⟨stage (i + 1), none⟩) :
    for_each_index body (List.range n) (stage 0) = ⟨stage n, none⟩ := by
  induction n with
  | zero => rfl
  | succ n ih =>
    rw [List.range_succ, for_each_index_append, ih (fun i hi => hstep i (by omega))]
    show for_each_index body [n] (stage n) = _
    simp only [for_each_index, hstep n (by omega)]

theorem overwrite_zero {α : Type} (l : List α) (f : Nat → α) : overwrite l 0 f = l := by
  simp [overwrite]

theorem overwrite_length {α : Type} (l : List α) (n : Nat) (f : Nat → α) (h : n ≤ l.length) :
    (overwrite l n f).length = l.length := by
  simp [overwrite]
  omega

theorem overwrite_set {α : Type} (l : List α) (n : Nat) (f : Nat → α) (h : n < l.length) :
    (overwrite l n f).set n (f n) = overwrite l (n + 1) f := by
  unfold overwrite
  rw [List.set_append]
  have hlen : ((List.range n).map f).length = n := by simp
  rw [hlen]
  simp only [Nat.lt_irrefl, if_false, Nat.sub_self]
  rw [List.range_succ, List.map_append, List.append_assoc]
  congr 1
  rw [List.drop_eq_getElem_cons h]
  rfl

theorem overwrite_getElem?_lt {α : Type} (l : List α) (n : Nat) (f : Nat → α) (i : Nat)
    (h : i < n) : (overwrite l n f)[i]? = some (f i) := by
  unfold overwrite
  rw [List.getElem?_append_left (by simpa using h)]
  simp [h]

theorem overwrite_getElem?_ge {α : Type} (l : List α) (n : Nat) (f : Nat → α) (i : Nat)
    (h : n ≤ i) : (overwrite l n f)[i]? = l[i]? := by
  unfold overwrite
  rw [List.getElem?_append_right (by simpa using h)]
  simp
  congr 1
  omega

theorem getElem?_eq_some_getD {α : Type} (l : List α) (i : Nat) (d : α) (h : i < l.length) :
    l[i]? = some (l.getD i d) := by
  simp [List.getD, List.getElem?_eq_getElem h]

/-- The layout loop of `Create`, run inside the arrays. -/
theorem Create_transition_loop (cmd_list : Nat) (w : World) (n : Nat)
    (hrt : n ≤ w.swapchain.m_rhi_rt.length) (hl : n ≤ w.swapchain.m_layouts.length) :
    for_each_index (Create_transition cmd_list) (List.range n) w =
      ⟨{ w with
          swapchain := { w.swapchain with
            m_layouts := overwrite w.swapchain.m_layouts n (fun _ => RHI_Image_Layout.Attachment) },
          trace := w.trace ++ transition_events cmd_list w.swapchain.m_rhi_rt n }, none⟩ := by
  have h := for_each_index_range (Create_transition cmd_list)
    (fun i => { w with
      swapchain := { w.swapchain with
        m_layouts := overwrite w.swapchain.m_layouts i (fun _ => RHI_Image_Layout.Attachment) },
      trace := w.trace ++ transition_events cmd_list w.swapchain.m_rhi_rt i }) n
    (fun i hi => by
      have hget := getElem?_eq_some_getD w.swapchain.m_rhi_rt i none (by omega)
      have hlen := overwrite_length w.swapchain.m_layouts i
        (fun _ => RHI_Image_Layout.Attachment) (by omega)
      have hset := overwrite_set w.swapchain.m_layouts i
        (fun _ => RHI_Image_Layout.Attachment) (by omega)
      simp only [Create_transition, emit, hget, hlen, hset, transition_events,
        List.append_assoc]
      rw [if_pos (by omega)])
  simpa [overwrite_zero, transition_events] using h

/-- The image-view loop of `Create`, run inside the arrays with every view
created. -/
theorem Create_image_view_loop (p : Platform) (w : World) (n : Nat)
    (hrt : n ≤ w.swapchain.m_rhi_rt.length) (hl : n ≤ w.swapchain.m_rhi_rtv.length)
    (hviews : ∀ i, i < n → p.vkCreateImageView i = VK_SUCCESS) :
    for_each_index (Create_image_view p) (List.range n) w =
      ⟨{ w with
          swapchain := { w.swapchain with
            m_rhi_rtv := overwrite w.swapchain.m_rhi_rtv n (fun i => some (p.image_view i)) },
          trace := w.trace ++
            image_view_events (p.vulkan_format w.swapchain.m_format) w.swapchain.m_rhi_rt n },
        none⟩ := by
  have h := for_each_index_range (Create_image_view p)
    (fun i => { w with
      swapchain := { w.swapchain with
        m_rhi_rtv := overwrite w.swapchain.m_rhi_rtv i (fun i => some (p.image_view i)) },
      trace := w.trace ++
        image_view_events (p.vulkan_format w.swapchain.m_format) w.swapchain.m_rhi_rt i }) n
    (fun i hi => by
      have hget := getElem?_eq_some_getD w.swapchain.m_rhi_rt i none (by omega)
      have hlen := overwrite_length w.swapchain.m_rhi_rtv i
        (fun i => some (p.image_view i)) (by omega)
      have hset := overwrite_set w.swapchain.m_rhi_rtv i
        (fun i => some (p.image_view i)) (by omega)
      simp only [Create_image_view, emit, hget, hlen, hset, image_view_events,
        List.append_assoc, hviews i hi]
      rw [if_pos (by omega)]
      simp only [assert_that, SP_ASSERT, Outcome.and_then, beq_self_eq_true, if_true]
      rw [← hset]
      rfl)
  simpa [overwrite_zero, image_view_events] using h

/-- The semaphore loop of `Create`, run inside the array. -/
theorem Create_semaphore_loop (p : Platform) (w : World) (n : Nat)
    (hl : n ≤ w.swapchain.m_image_acquired_semaphore.length) :
    for_each_index (Create_semaphore p) (List.range n) w =
      ⟨{ w with
          swapchain := { w.swapchain with
            m_image_acquired_semaphore :=
              overwrite w.swapchain.m_image_acquired_semaphore n
                (fun i => some ⟨p.semaphore i, false⟩) },
          trace := w.trace ++ semaphore_events n }, none⟩ := by
  have h := for_each_index_range (Create_semaphore p)
    (fun i => { w with
      swapchain := { w.swapchain with
        m_image_acquired_semaphore :=
          overwrite w.swapchain.m_image_acquired_semaphore i
            (fun i => some ⟨p.semaphore i, false⟩) },
      trace := w.trace ++ semaphore_events i }) n
    (fun i hi => by
      have hlen := overwrite_length w.swapchain.m_image_acquired_semaphore i
        (fun i => some (⟨p.semaphore i, false⟩ : RHI_SyncPrimitive)) (by omega)
      have hset := overwrite_set w.swapchain.m_image_acquired_semaphore i
        (fun i => some (⟨p.semaphore i, false⟩ : RHI_SyncPrimitive)) (by omega)
      simp only [Create_semaphore, emit, hlen, hset, semaphore_events, List.append_assoc]
      rw [if_pos (by omega)])
  simpa [overwrite_zero, semaphore_events] using h

theorem get_supported_surface_formats_ready (p : Platform) (w : World)
    (hready : Create_ready p w) :
    get_supported_surface_formats p = Except.ok p.surface_formats := by
  simp [get_supported_surface_formats, SP_ASSERT, hready.formats_count, hready.formats,
    hready.formats_nonempty]

theorem is_format_and_color_space_supported_ready (p : Platform) (w : World)
    (hready : Create_ready p w) :
    is_format_and_color_space_supported p w.swapchain.m_format
        (get_color_space w.swapchain.m_format) =
      Except.ok (true, created_format w.swapchain) := by
  unfold is_format_and_color_space_supported
  rw [get_supported_surface_formats_ready p w hready]
  simp only [created_format]
  rw [hready.format_supported]

theorem get_supported_composite_alpha_format_ready (p : Platform) (w : World)
    (hready : Create_ready p w) :
    get_supported_composite_alpha_format p = Except.ok (created_composite_alpha p) := by
  unfold created_composite_alpha get_supported_composite_alpha_format
  simp only [SP_ASSERT, hready.capabilities, beq_self_eq_true, if_true]
  cases composite_alpha_flags.find? (fun composite_alpha =>
    p.surface_capabilities.supportedCompositeAlpha &&& composite_alpha != 0) <;> rfl

theorem get_present_mode_ready (p : Platform) (w : World) (hready : Create_ready p w)
    (present_mode : RHI_Present_Mode) :
    get_present_mode p present_mode = Except.ok (created_present_mode p present_mode) := by
  have h : ∃ chosen, get_present_mode p present_mode = Except.ok chosen := by
    unfold get_present_mode get_supported_present_modes
    simp only [hready.present_modes_nonempty, if_false]
    split_ifs <;> exact ⟨_, rfl⟩
  obtain ⟨chosen, hchosen⟩ := h
  unfold created_present_mode
  rw [hchosen]

/-- A `Create` whose platform and arrays are ready returns, in the world
`created`. -/
theorem Create_returns (p : Platform) (w : World) (hready : Create_ready p w) :
    Create p w = ⟨created p w, none⟩ := by
  obtain ⟨surface, hsurface⟩ := Option.isSome_iff_exists.mp hready.surface
  unfold Create
  simp only [hready.window, assert_that_holds, and_then_returned, hsurface,
    hready.surface_support, hready.present_support, beq_self_eq_true,
    is_format_and_color_space_supported_ready p w hready, emit,
    get_supported_composite_alpha_format_ready p w hready,
    get_present_mode_ready p w hready, hready.swapchain, set_hdr_metadata,
    hready.hdr_metadata, hready.images_count, hready.images, get_surface_capabilities]
  rw [if_neg (by have := hready.images_fit; omega)]
  have hrt : w.swapchain.m_buffer_count ≤ (created_rt p w.swapchain).length := by
    have h1 := hready.images_fit
    have h2 := hready.rt_capacity
    simp only [created_rt, List.length_append, List.length_map, List.length_drop]
    omega
  have hrtv := hready.rtv_capacity
  have hlay := hready.layouts_capacity
  have hsem := hready.semaphore_capacity
  cases hcmd : p.CmdImmediateBegin with
  | none =>
    simp only [and_then_returned]
    rw [Create_image_view_loop p _ _ ?_ ?_ hready.image_views]
    · simp only [and_then_returned]
      rw [Create_semaphore_loop p _ _ ?_]
      · simp [created, created_swapchain, created_events, hcmd, hsurface, created_info,
          created_rt]
      · exact hsem
    · exact hrt
    · exact hrtv
  | some cmd_list =>
    simp only
    rw [Create_transition_loop cmd_list _ _ ?_ ?_]
    · simp only [and_then_returned]
      rw [Create_image_view_loop p _ _ ?_ ?_ hready.image_views]
      · simp only [and_then_returned]
        rw [Create_semaphore_loop p _ _ ?_]
        · simp [created, created_swapchain, created_events, hcmd, hsurface, created_info,
            created_rt]
        · exact hsem
      · exact hrt
      · exact hrtv
    · exact hrt
    · exact hlay

/-! ## Theorems: `Destroy` -/

theorem Destroy_image_views_slots (views : List (Option Nat)) :
    (Destroy_image_views views).2 = List.replicate views.length none := by
  induction views with
  | nil => rfl
  | cons view rest ih =>
    cases view with
    | none => simp only [Destroy_image_views, ih, List.length_cons, List.replicate_succ]
    | some v => simp only [Destroy_image_views, ih, List.length_cons, List.replicate_succ]

theorem Destroy_image_views_events (views : List (Option Nat)) :
    (Destroy_image_views views).1 = (views.filterMap id).map Event.DeletionQueueAdd := by
  induction views with
  | nil => rfl
  | cons view rest ih =>
    cases view with
    | none => simp [Destroy_image_views, ih]
    | some v => simp [Destroy_image_views, ih]

theorem map_const_none {α : Type} (l : List (Option α)) :
    l.map (fun _ => (none : Option α)) = List.replicate l.length none := by
  induction l with
  | nil => rfl
  | cons a rest ih => simp [List.replicate_succ, ih]

/-- The world `Destroy` leaves, in closed form. -/
theorem Destroy_returns (w : World) :
    Destroy w =
      ⟨{ swapchain := { w.swapchain with
            m_rhi_rtv := List.replicate w.swapchain.m_rhi_rtv.length none,
            m_image_acquired_semaphore :=
              List.replicate w.swapchain.m_image_acquired_semaphore.length none,
            m_rhi_swapchain := none,
            m_rhi_surface := none,
            m_image_index := 0,
            m_buffer_index := 0 },
          cmd_list := w.cmd_list,
          trace := w.trace ++ destroyed_events w.swapchain }, none⟩ := by
  simp [Destroy, emit, destroyed_events, Destroy_image_views_slots, map_const_none]

/-- C11: `Destroy` always returns, and afterwards `image_index` and
`buffer_index` are 0, every image-view slot and every acquire-semaphore slot is
null, and the swapchain and surface handles are null.  The image views handed
to the deferred-deletion queue during the call are, in slot order, exactly the
views that were non-null before it, each slot counting once. -/
theorem Destroy_resets (w : World) :
    (Destroy w).fault = none ∧
      (Destroy w).world.swapchain.m_image_index = 0 ∧
      (Destroy w).world.swapchain.m_buffer_index = 0 ∧
      (Destroy w).world.swapchain.m_rhi_rtv =
        List.replicate w.swapchain.m_rhi_rtv.length none ∧
      (Destroy w).world.swapchain.m_image_acquired_semaphore =
        List.replicate w.swapchain.m_image_acquired_semaphore.length none ∧
      (Destroy w).world.swapchain.m_rhi_swapchain = none ∧
      (Destroy w).world.swapchain.m_rhi_surface = none ∧
      (new_events w (Destroy w)).filterMap deleted_view = w.swapchain.m_rhi_rtv.filterMap id := by
  rw [Destroy_returns]
  refine ⟨rfl, rfl, rfl, rfl, rfl, rfl, rfl, ?_⟩
  rw [new_events_of_append w _ (destroyed_events w.swapchain) rfl]
  simp only [destroyed_events, Destroy_image_views_events, List.filterMap_append,
    List.filterMap_cons, List.filterMap_nil, deleted_view, List.nil_append, List.append_nil]
  induction w.swapchain.m_rhi_rtv.filterMap id with
  | nil => rfl
  | cons v rest ih => simp [deleted_view, ih]

/-! ## Theorems: `Create` -/

theorem transition_events_mem (cmd_list : Nat) (rt : List (Option Nat)) (n i : Nat)
    (h : i < n) :
    Event.InsertBarrierTexture cmd_list (rt.getD i none) RHI_Image_Layout.Max
      RHI_Image_Layout.Attachment ∈ transition_events cmd_list rt n := by
  induction n with
  | zero => omega
  | succ n ih =>
    simp only [transition_events, List.mem_append, List.mem_singleton]
    rcases Nat.lt_succ_iff_lt_or_eq.mp h with hlt | heq
    · exact Or.inl (ih hlt)
    · exact Or.inr (by rw [heq])

theorem created_rt_getElem? (p : Platform) (sc : RHI_SwapChain) (i : Nat)
    (h : i < p.swapchain_images.length) :
    (created_rt p sc)[i]? = some (some (p.swapchain_images.getD i 0)) := by
  unfold created_rt
  rw [List.getElem?_append_left (by simpa using h)]
  simp [List.getD, List.getElem?_eq_getElem h]

theorem created_rt_getD (p : Platform) (sc : RHI_SwapChain) (i : Nat)
    (h : i < p.swapchain_images.length) :
    (created_rt p sc).getD i none = some (p.swapchain_images.getD i 0) := by
  rw [List.getD_eq_getElem?_getD, created_rt_getElem? p sc i h]
  rfl

/-- The events a `Create` that goes through appends. -/
theorem Create_events (p : Platform) (w : World) (hready : Create_ready p w) :
    new_events w (Create p w) = created_events p w.swapchain := by
  rw [Create_returns p w hready]
  exact new_events_of_append w _ _ rfl

theorem demo_platform_ready : Create_ready demo_platform demo_unbuilt_world :=
  { window := by decide
    surface := by decide
    surface_support := by decide
    present_support := by decide
    formats_count := by decide
    formats_nonempty := by decide
    formats := by decide
    format_supported := by decide
    capabilities := by decide
    present_modes_nonempty := by decide
    swapchain := by decide
    hdr_metadata := by decide
    images_count := by decide
    images := by decide
    images_fit := by decide
    rt_capacity := by decide
    layouts_capacity := by decide
    rtv_capacity := by decide
    semaphore_capacity := by decide
    image_views := fun _ _ => rfl }

/-- C12 (as stated) fails.  On a platform whose driver allocates three images
for a swapchain of `buffer_count = 2`, `Create` returns with the three images
stored, but only images 0 and 1 have been given a barrier and are recorded as
`Attachment`: image 2 is still recorded in the undefined layout.  And on a
platform where `CmdImmediateBegin` returns null, `Create` returns having
transitioned and recorded nothing. -/
theorem Create_leaves_images_untransitioned :
    (Create demo_platform_three_images demo_unbuilt_world).fault = none ∧
      (Create demo_platform_three_images demo_unbuilt_world).world.swapchain.m_rhi_rt =
        [some 110, some 111, some 112] ∧
      (Create demo_platform_three_images demo_unbuilt_world).world.swapchain.m_layouts =
        [RHI_Image_Layout.Attachment, RHI_Image_Layout.Attachment, RHI_Image_Layout.Max] ∧
      (new_events demo_unbuilt_world
          (Create demo_platform_three_images demo_unbuilt_world)).filter is_barrier =
        [Event.InsertBarrierTexture 9 (some 110) RHI_Image_Layout.Max
            RHI_Image_Layout.Attachment,
          Event.InsertBarrierTexture 9 (some 111) RHI_Image_Layout.Max
            RHI_Image_Layout.Attachment] ∧
      (Create demo_platform_no_cmd_list demo_unbuilt_world).fault = none ∧
      (Create demo_platform_no_cmd_list demo_unbuilt_world).world.swapchain.m_layouts =
        [RHI_Image_Layout.Max, RHI_Image_Layout.Max, RHI_Image_Layout.Max] ∧
      (new_events demo_unbuilt_world
          (Create demo_platform_no_cmd_list demo_unbuilt_world)).filter is_barrier = [] := by
  decide

/-- C12 (amended): when `Create` goes through and has obtained the immediate
command list, every driver-allocated image whose index is below `buffer_count`
is stored in `m_rhi_rt`, has been given a barrier from the undefined layout to
`Attachment` on that command list, and is recorded as `Attachment`. -/
theorem Create_transitions_first_images (p : Platform) (w : World) (cmd_list : Nat)
    (hready : Create_ready p w) (hcmd : p.CmdImmediateBegin = some cmd_list) :
    (Create p w).fault = none ∧
      ∀ i, i < w.swapchain.m_buffer_count → i < p.swapchain_images.length →
        (Create p w).world.swapchain.m_rhi_rt[i]? =
            some (some (p.swapchain_images.getD i 0)) ∧
          (Create p w).world.swapchain.m_layouts[i]? = some RHI_Image_Layout.Attachment ∧
          Event.InsertBarrierTexture cmd_list (some (p.swapchain_images.getD i 0))
              RHI_Image_Layout.Max RHI_Image_Layout.Attachment ∈
            new_events w (Create p w) := by
  rw [Create_events p w hready, Create_returns p w hready]
  refine ⟨rfl, fun i hi himg => ⟨created_rt_getElem? p w.swapchain i himg, ?_, ?_⟩⟩
  · show (created_swapchain p w.swapchain).m_layouts[i]? = _
    simp only [created_swapchain, hcmd]
    exact overwrite_getElem?_lt _ _ _ i hi
  · have hmem := transition_events_mem cmd_list (created_rt p w.swapchain)
      w.swapchain.m_buffer_count i hi
    rw [created_rt_getD p w.swapchain i himg] at hmem
    simp only [created_events, hcmd, List.mem_append]
    exact Or.inl (Or.inl (Or.inr (Or.inl hmem)))

/-- Witness of `Create_transitions_first_images` on `demo_platform`. -/
theorem Create_transitions_first_images_witness :
    (Create demo_platform demo_unbuilt_world).fault = none ∧
      ∀ i, i < 2 → i < 2 →
        (Create demo_platform demo_unbuilt_world).world.swapchain.m_rhi_rt[i]? =
            some (some ([110, 111].getD i 0)) ∧
          (Create demo_platform demo_unbuilt_world).world.swapchain.m_layouts[i]? =
            some RHI_Image_Layout.Attachment ∧
          Event.InsertBarrierTexture 9 (some ([110, 111].getD i 0))
              RHI_Image_Layout.Max RHI_Image_Layout.Attachment ∈
            new_events demo_unbuilt_world (Create demo_platform demo_unbuilt_world) :=
  Create_transitions_first_images demo_platform demo_unbuilt_world 9 demo_platform_ready rfl

/-! ## Theorems: `Resize`, `SetVsync`, `SetHdr` and the constructor -/

/-- Readiness for `Create` depends on the world only through the window, the
format, `buffer_count` and the capacities of the arrays. -/
theorem Create_ready_of_same (p : Platform) (w w1 : World) (hready : Create_ready p w)
    (hwindow : w1.swapchain.m_sdl_window = w.swapchain.m_sdl_window)
    (hformat : w1.swapchain.m_format = w.swapchain.m_format)
    (hcount : w1.swapchain.m_buffer_count = w.swapchain.m_buffer_count)
    (hrt : w1.swapchain.m_rhi_rt.length = w.swapchain.m_rhi_rt.length)
    (hlayouts : w1.swapchain.m_layouts.length = w.swapchain.m_layouts.length)
    (hrtv : w1.swapchain.m_rhi_rtv.length = w.swapchain.m_rhi_rtv.length)
    (hsem : w1.swapchain.m_image_acquired_semaphore.length =
      w.swapchain.m_image_acquired_semaphore.length) :
    Create_ready p w1 :=
  { window := by rw [hwindow]; exact hready.window
    surface := hready.surface
    surface_support := hready.surface_support
    present_support := hready.present_support
    formats_count := hready.formats_count
    formats_nonempty := hready.formats_nonempty
    formats := hready.formats
    format_supported := by rw [hformat]; exact hready.format_supported
    capabilities := hready.capabilities
    present_modes_nonempty := hready.present_modes_nonempty
    swapchain := hready.swapchain
    hdr_metadata := hready.hdr_metadata
    images_count := hready.images_count
    images := hready.images
    images_fit := by rw [hrt]; exact hready.images_fit
    rt_capacity := by rw [hcount, hrt]; exact hready.rt_capacity
    layouts_capacity := by rw [hcount, hlayouts]; exact hready.layouts_capacity
    rtv_capacity := by rw [hcount, hrtv]; exact hready.rtv_capacity
    semaphore_capacity := by rw [hcount, hsem]; exact hready.semaphore_capacity
    image_views := by rw [hcount]; exact hready.image_views }

/-- After `Destroy` the swapchain is as ready for `Create` as before, whatever
its size and present mode have been set to. -/
theorem Create_ready_Destroy (p : Platform) (w w1 : World) (hready : Create_ready p w)
    (hwindow : w1.swapchain.m_sdl_window = w.swapchain.m_sdl_window)
    (hformat : w1.swapchain.m_format = w.swapchain.m_format)
    (hcount : w1.swapchain.m_buffer_count = w.swapchain.m_buffer_count)
    (hrt : w1.swapchain.m_rhi_rt.length = w.swapchain.m_rhi_rt.length)
    (hlayouts : w1.swapchain.m_layouts.length = w.swapchain.m_layouts.length)
    (hrtv : w1.swapchain.m_rhi_rtv.length = w.swapchain.m_rhi_rtv.length)
    (hsem : w1.swapchain.m_image_acquired_semaphore.length =
      w.swapchain.m_image_acquired_semaphore.length) :
    Create_ready p (Destroy w1).world := by
  apply Create_ready_of_same p w _ hready
  all_goals rw [Destroy_returns]
  · exact hwindow
  · exact hformat
  · exact hcount
  · exact hrt
  · exact hlayouts
  · simpa using hrtv
  · simpa using hsem

theorem countP_eq_zero_of_forall (pred : Event → Bool) (l : List Event)
    (h : ∀ e ∈ l, pred e = false) : l.countP pred = 0 := by
  rw [List.countP_eq_zero]
  intro e he
  rw [h e he]
  exact Bool.false_ne_true

theorem transition_events_kind (cmd_list : Nat) (rt : List (Option Nat)) (n : Nat) :
    ∀ e ∈ transition_events cmd_list rt n, is_barrier e = true := by
  induction n with
  | zero => intro e he; cases he
  | succ n ih =>
    intro e he
    simp only [transition_events, List.mem_append, List.mem_singleton] at he
    rcases he with he | he
    · exact ih e he
    · rw [he]; rfl

theorem image_view_events_kind (format : Nat) (rt : List (Option Nat)) (n : Nat) :
    ∀ e ∈ image_view_events format rt n,
      (∃ image index, e = Event.SetResourceName image index) ∨
        ∃ image, e = Event.vkCreateImageView image format := by
  induction n with
  | zero => intro e he; cases he
  | succ n ih =>
    intro e he
    simp only [image_view_events, List.mem_append, List.mem_cons, List.mem_singleton,
      List.not_mem_nil, or_false] at he
    rcases he with he | he | he
    · exact ih e he
    · exact Or.inl ⟨_, _, he⟩
    · exact Or.inr ⟨_, he⟩

theorem semaphore_events_kind (n : Nat) :
    ∀ e ∈ semaphore_events n, ∃ index, e = Event.make_shared_RHI_SyncPrimitive index := by
  induction n with
  | zero => intro e he; cases he
  | succ n ih =>
    intro e he
    simp only [semaphore_events, List.mem_append, List.mem_singleton] at he
    rcases he with he | he
    · exact ih e he
    · exact ⟨_, he⟩

theorem created_present_mode_logged (p : Platform) (present_mode : RHI_Present_Mode) :
    ∀ e ∈ (created_present_mode p present_mode).2, e = Event.SP_LOG_WARNING := by
  intro e he
  unfold created_present_mode get_present_mode at he
  cases hm : get_supported_present_modes p with
  | error f => rw [hm] at he; cases he
  | ok modes =>
    rw [hm] at he
    simp only at he
    split_ifs at he
    all_goals first | exact List.mem_singleton.mp he | cases he

/-- What the events of a `Create` that goes through count, for a kind of
event that occurs neither in the loops nor in the log. -/
theorem created_events_count (p : Platform) (sc : RHI_SwapChain) (pred : Event → Bool)
    (hbarrier : ∀ cmd_list image layout_old layout_new,
      pred (Event.InsertBarrierTexture cmd_list image layout_old layout_new) = false)
    (hname : ∀ image index, pred (Event.SetResourceName image index) = false)
    (hview : ∀ image format, pred (Event.vkCreateImageView image format) = false)
    (hsem : ∀ index, pred (Event.make_shared_RHI_SyncPrimitive index) = false)
    (hlog : pred Event.SP_LOG_WARNING = false)
    (hsubmit : ∀ cmd_list, pred (Event.CmdImmediateSubmit cmd_list) = false) :
    (created_events p sc).countP pred =
      [Event.SDL_Vulkan_CreateSurface sc.m_sdl_window,
        Event.vkCreateSwapchainKHR (created_info p sc),
        Event.vkSetHdrMetadataEXT p.swap_chain,
        Event.CmdImmediateBegin].countP pred := by
  have h1 : (created_present_mode p sc.m_present_mode).2.countP pred = 0 :=
    countP_eq_zero_of_forall pred _ (fun e he => by
      rw [created_present_mode_logged p _ e he]; exact hlog)
  have h2 : (image_view_events (p.vulkan_format (created_format sc)) (created_rt p sc)
      sc.m_buffer_count).countP pred = 0 :=
    countP_eq_zero_of_forall pred _ (fun e he => by
      rcases image_view_events_kind _ _ _ e he with ⟨image, index, h⟩ | ⟨image, h⟩
      · rw [h]; exact hname image index
      · rw [h]; exact hview image _)
  have h3 : (semaphore_events sc.m_buffer_count).countP pred = 0 :=
    countP_eq_zero_of_forall pred _ (fun e he => by
      obtain ⟨index, h⟩ := semaphore_events_kind _ e he
      rw [h]; exact hsem index)
  have h4 : ∀ cmd_list, (transition_events cmd_list (created_rt p sc)
      sc.m_buffer_count).countP pred = 0 := fun cmd_list =>
    countP_eq_zero_of_forall pred _ (fun e he => by
      have hk := transition_events_kind _ _ _ e he
      cases e <;> first | exact hbarrier _ _ _ _ | cases hk)
  unfold created_events
  cases hcmd : p.CmdImmediateBegin with
  | none =>
    simp only [List.countP_append, h1, h2, h3, List.countP_nil, List.countP_cons,
      Nat.add_zero, Nat.zero_add]
    omega
  | some cmd_list =>
    simp only [List.countP_append, h1, h2, h3, h4, List.countP_nil, List.countP_cons,
      Nat.add_zero, Nat.zero_add, hsubmit]
    simp
    omega

theorem destroyed_events_count_destroy (sc : RHI_SwapChain) :
    (destroyed_events sc).countP is_swapchain_destroy = 1 := by
  have h : (Destroy_image_views sc.m_rhi_rtv).1.countP is_swapchain_destroy = 0 :=
    countP_eq_zero_of_forall _ _ (fun e he => by
      rw [Destroy_image_views_events, List.mem_map] at he
      obtain ⟨v, _, hv⟩ := he
      rw [← hv]; rfl)
  simp [destroyed_events, List.countP_append, h, List.countP_cons, is_swapchain_destroy]

theorem destroyed_events_count_create (sc : RHI_SwapChain) :
    (destroyed_events sc).countP is_swapchain_create = 0 := by
  have h : (Destroy_image_views sc.m_rhi_rtv).1.countP is_swapchain_create = 0 :=
    countP_eq_zero_of_forall _ _ (fun e he => by
      rw [Destroy_image_views_events, List.mem_map] at he
      obtain ⟨v, _, hv⟩ := he
      rw [← hv]; rfl)
  simp [destroyed_events, List.countP_append, h, List.countP_cons, is_swapchain_create]

theorem created_events_count_create (p : Platform) (sc : RHI_SwapChain) :
    (created_events p sc).countP is_swapchain_create = 1 := by
  rw [created_events_count p sc is_swapchain_create (fun _ _ _ _ => rfl) (fun _ _ => rfl)
    (fun _ _ => rfl) (fun _ => rfl) rfl (fun _ => rfl)]
  rfl

theorem created_events_count_destroy (p : Platform) (sc : RHI_SwapChain) :
    (created_events p sc).countP is_swapchain_destroy = 0 := by
  rw [created_events_count p sc is_swapchain_destroy (fun _ _ _ _ => rfl) (fun _ _ => rfl)
    (fun _ _ => rfl) (fun _ => rfl) rfl (fun _ => rfl)]
  rfl

theorem and_then_assoc (o : Outcome) (f g : World → Outcome) :
    (o.and_then f).and_then g = o.and_then (fun w => (f w).and_then g) := by
  obtain ⟨w, fault⟩ := o
  cases fault <;> rfl

/-- One `Destroy` followed by one `Create`, on a swapchain that is ready for
`Create`: both return, in the world `recreated`. -/
theorem Destroy_Create_returns (p : Platform) (w : World)
    (hready : Create_ready p (Destroy w).world) :
    (Destroy w).and_then (Create p) = ⟨recreated p w, none⟩ := by
  have hd : Destroy w = ⟨(Destroy w).world, none⟩ := by rw [Destroy_returns]
  rw [hd, and_then_returned, Create_returns p _ hready]
  rfl

/-- The trace of the world `recreated`: the events of `Destroy`, then those of
`Create`. -/
theorem recreated_trace (p : Platform) (w : World) :
    (recreated p w).trace =
      w.trace ++ (destroyed_events w.swapchain ++
        created_events p (Destroy w).world.swapchain) := by
  unfold recreated created
  rw [Destroy_returns, List.append_assoc]

theorem recreated_count_destroy (p : Platform) (w : World) :
    (destroyed_events w.swapchain ++
      created_events p (Destroy w).world.swapchain).countP is_swapchain_destroy = 1 := by
  rw [List.countP_append, destroyed_events_count_destroy, created_events_count_destroy]

theorem recreated_count_create (p : Platform) (w : World) :
    (destroyed_events w.swapchain ++
      created_events p (Destroy w).world.swapchain).countP is_swapchain_create = 1 := by
  rw [List.countP_append, destroyed_events_count_create, created_events_count_create]

/-- The cursors, the size and the present mode of the world `recreated`. -/
theorem recreated_members (p : Platform) (w : World) :
    (recreated p w).swapchain.m_image_index = 0 ∧
      (recreated p w).swapchain.m_buffer_index = 0 ∧
      (recreated p w).swapchain.m_width =
        clamp w.swapchain.m_width p.surface_capabilities.minImageExtent.width
          p.surface_capabilities.maxImageExtent.width ∧
      (recreated p w).swapchain.m_height =
        clamp w.swapchain.m_height p.surface_capabilities.minImageExtent.height
          p.surface_capabilities.maxImageExtent.height ∧
      (recreated p w).swapchain.m_present_mode = w.swapchain.m_present_mode ∧
      (recreated p w).swapchain.m_buffer_count = w.swapchain.m_buffer_count := by
  unfold recreated created created_swapchain
  rw [Destroy_returns]
  exact ⟨rfl, rfl, rfl, rfl, rfl, rfl⟩

/-- The call `Resize` with a valid resolution, on a swapchain and platform
ready for `Create`. -/
theorem Resize_returns (p : Platform) (w : World) (width height : Nat)
    (hvalid : p.IsValidResolution width height = true) (hready : Create_ready p w) :
    Resize p width height w =
      ⟨emit Event.SP_LOG_INFO
        (recreated p { w with swapchain := { w.swapchain with
          m_width := width, m_height := height } }), none⟩ := by
  have hready1 := Create_ready_Destroy p w
    { w with swapchain := { w.swapchain with m_width := width, m_height := height } }
    hready rfl rfl rfl rfl rfl rfl rfl
  unfold Resize
  rw [hvalid, assert_that_holds, and_then_returned]
  show (Destroy _).and_then (fun w => (Create p w).and_then _) = _
  rw [← and_then_assoc, Destroy_Create_returns p _ hready1, and_then_returned]

/-- C13: for a resolution that passes the validity check, on a swapchain and
platform ready for `Create`, `Resize` returns after exactly one `Destroy`
followed by exactly one `Create` (and a log entry), whether or not the size
changes: its events are those of the `Destroy`, then those of the `Create`,
among them one `vkDestroySwapchainKHR` and one `vkCreateSwapchainKHR`.
Afterwards width and height are the requested ones clamped into the min/max
extent of the surface, and `image_index` and `buffer_index` are 0. -/
theorem Resize_recreates (p : Platform) (w : World) (width height : Nat)
    (hvalid : p.IsValidResolution width height = true) (hready : Create_ready p w) :
    Resize p width height w =
        ⟨emit Event.SP_LOG_INFO
          (recreated p { w with swapchain := { w.swapchain with
            m_width := width, m_height := height } }), none⟩ ∧
      new_events w (Resize p width height w) =
        destroyed_events w.swapchain ++
          created_events p (Destroy { w with swapchain := { w.swapchain with
            m_width := width, m_height := height } }).world.swapchain ++
          [Event.SP_LOG_INFO] ∧
      (new_events w (Resize p width height w)).countP is_swapchain_destroy = 1 ∧
      (new_events w (Resize p width height w)).countP is_swapchain_create = 1 ∧
      (Resize p width height w).world.swapchain.m_width =
        clamp width p.surface_capabilities.minImageExtent.width
          p.surface_capabilities.maxImageExtent.width ∧
      (Resize p width height w).world.swapchain.m_height =
        clamp height p.surface_capabilities.minImageExtent.height
          p.surface_capabilities.maxImageExtent.height ∧
      (Resize p width height w).world.swapchain.m_image_index = 0 ∧
      (Resize p width height w).world.swapchain.m_buffer_index = 0 := by
  have hresize := Resize_returns p w width height hvalid hready
  have hev : new_events w (Resize p width height w) =
      destroyed_events w.swapchain ++
        created_events p (Destroy { w with swapchain := { w.swapchain with
          m_width := width, m_height := height } }).world.swapchain ++
        [Event.SP_LOG_INFO] := by
    apply new_events_of_append
    rw [hresize]
    simp only [emit, recreated_trace, List.append_assoc]
    rfl
  have hm := recreated_members p
    { w with swapchain := { w.swapchain with m_width := width, m_height := height } }
  refine ⟨hresize, hev, ?_, ?_, ?_, ?_, ?_, ?_⟩
  · rw [hev, List.countP_append]
    have := recreated_count_destroy p
      { w with swapchain := { w.swapchain with m_width := width, m_height := height } }
    simpa [is_swapchain_destroy] using this
  · rw [hev, List.countP_append]
    have := recreated_count_create p
      { w with swapchain := { w.swapchain with m_width := width, m_height := height } }
    simpa [is_swapchain_create] using this
  · rw [hresize]; exact hm.2.2.1
  · rw [hresize]; exact hm.2.2.2.1
  · rw [hresize]; exact hm.1
  · rw [hresize]; exact hm.2.1

theorem demo_world_ready : Create_ready demo_platform demo_world :=
  { window := by decide
    surface := by decide
    surface_support := by decide
    present_support := by decide
    formats_count := by decide
    formats_nonempty := by decide
    formats := by decide
    format_supported := by decide
    capabilities := by decide
    present_modes_nonempty := by decide
    swapchain := by decide
    hdr_metadata := by decide
    images_count := by decide
    images := by decide
    images_fit := by decide
    rt_capacity := by decide
    layouts_capacity := by decide
    rtv_capacity := by decide
    semaphore_capacity := by decide
    image_views := fun _ _ => rfl }

/-- Witness of `Resize_recreates`: `demo_world` is resized to the size it has. -/
theorem Resize_recreates_witness :
    (new_events demo_world (Resize demo_platform 800 600 demo_world)).countP
        is_swapchain_destroy = 1 ∧
      (new_events demo_world (Resize demo_platform 800 600 demo_world)).countP
        is_swapchain_create = 1 ∧
      (Resize demo_platform 800 600 demo_world).world.swapchain.m_width = 800 ∧
      (Resize demo_platform 800 600 demo_world).world.swapchain.m_height = 600 ∧
      (Resize demo_platform 800 600 demo_world).world.swapchain.m_image_index = 0 ∧
      (Resize demo_platform 800 600 demo_world).world.swapchain.m_buffer_index = 0 :=
  have h := Resize_recreates demo_platform demo_world 800 600 (by decide) demo_world_ready
  ⟨h.2.2.1, h.2.2.2.1, h.2.2.2.2.1, h.2.2.2.2.2.1, h.2.2.2.2.2.2.1, h.2.2.2.2.2.2.2⟩

theorem and_then_of_returned (o : Outcome) (next : World → Outcome) (h : o.fault = none) :
    o.and_then next = next o.world := by
  obtain ⟨w, fault⟩ := o
  subst h
  rfl

theorem set_of_getElem? {α : Type} (l : List α) (i : Nat) (x : α) (h : l[i]? = some x) :
    l.set i x = l := by
  apply List.ext_getElem?
  intro j
  rw [List.getElem?_set]
  split_ifs with h1 h2
  · rw [← h1, h]
  · rw [List.getElem?_eq_none (by omega)] at h
    cases h
  · rfl

/-- Inside the arrays, `SetLayout` returns with the requested layout recorded
for the current image and nothing else of the swapchain changed. -/
theorem SetLayout_returns (layout : RHI_Image_Layout) (cmd_list : Nat) (w : World)
    (h1 : w.swapchain.m_image_index < w.swapchain.m_layouts.length)
    (h2 : w.swapchain.m_image_index < w.swapchain.m_rhi_rt.length) :
    (SetLayout layout cmd_list w).fault = none ∧
      (SetLayout layout cmd_list w).world.swapchain =
        { w.swapchain with
          m_layouts := w.swapchain.m_layouts.set w.swapchain.m_image_index layout } ∧
      (SetLayout layout cmd_list w).world.cmd_list = w.cmd_list := by
  have hl := List.getElem?_eq_getElem h1
  have hr := List.getElem?_eq_getElem h2
  by_cases hsame : w.swapchain.m_layouts[w.swapchain.m_image_index] = layout
  · rw [hsame] at hl
    rw [SetLayout_of_same layout cmd_list w hl, set_of_getElem? _ _ _ hl]
    exact ⟨rfl, rfl, rfl⟩
  · rw [SetLayout_of_change layout _ cmd_list w _ hl hsame hr]
    exact ⟨rfl, rfl, rfl⟩

/-- The call `Present` when the current image is recorded in a layout other
than `Present_Source`. -/
theorem Present_of_other_layout (w : World) (layout : RHI_Image_Layout)
    (h : w.swapchain.m_layouts[w.swapchain.m_image_index]? = some layout)
    (hne : layout ≠ RHI_Image_Layout.Present_Source) :
    Present w = ⟨w, some Fault.assertion_failed⟩ := by
  unfold Present
  simp [h, hne, SP_ASSERT]

/-- The acquire-semaphore slots of the world `recreated`. -/
theorem recreated_semaphore (p : Platform) (w : World) (i : Nat)
    (h : i < w.swapchain.m_buffer_count) :
    (recreated p w).swapchain.m_image_acquired_semaphore[i]? =
      some (some ⟨p.semaphore i, false⟩) := by
  unfold recreated created created_swapchain
  rw [Destroy_returns]
  exact overwrite_getElem?_lt _ _ _ i h

/-- The capacities of the arrays of the world `recreated`. -/
theorem recreated_capacity (p : Platform) (w : World) (hready : Create_ready p w) :
    (recreated p w).swapchain.m_layouts.length = w.swapchain.m_layouts.length ∧
      (recreated p w).swapchain.m_rhi_rt.length = w.swapchain.m_rhi_rt.length := by
  have h1 := hready.images_fit
  have h2 := hready.layouts_capacity
  unfold recreated created created_swapchain created_rt
  rw [Destroy_returns]
  constructor
  · cases hcmd : p.CmdImmediateBegin with
    | none => rfl
    | some cmd_list => exact overwrite_length _ _ _ h2
  · simp only [List.length_append, List.length_map, List.length_drop]
    omega

theorem one_mod_of_two_le (n : Nat) (h : 2 ≤ n) : u32 (0 + 1) % n = 1 := by
  have h1 : u32 (0 + 1) = 1 := by decide
  rw [h1, Nat.mod_eq_of_lt (by omega)]

/-- C14 (as stated) fails: on `demo_world`, after `Resize(1024, 768)` and an
`AcquireNextImage` that the driver answers with success and image 0, `Present`
fails its assertion, the acquired image being recorded as `Attachment`, which
is the layout `Create` leaves every image in. -/
theorem Resize_Acquire_Present_fails :
    (Resize_Acquire_Present demo_platform 1024 768 (fun _ => VkAcquireAnswer.VK_SUCCESS 0)
        demo_world).fault = some Fault.assertion_failed ∧
      GetLayout (Resize_Acquire_Present demo_platform 1024 768
        (fun _ => VkAcquireAnswer.VK_SUCCESS 0) demo_world).world.swapchain =
        some RHI_Image_Layout.Attachment := by
  have hr : (Resize demo_platform 1024 768 demo_world).fault = none := by decide
  have hacq := AcquireNextImage_success_at (fun _ => VkAcquireAnswer.VK_SUCCESS 0)
    (Resize demo_platform 1024 768 demo_world).world ⟨311, false⟩ 0 0
    (by decide) (by decide) (by decide) (fun i hi => absurd hi (Nat.not_lt_zero i)) rfl
  unfold Resize_Acquire_Present
  rw [and_then_of_returned _ _ hr, hacq, and_then_returned,
    Present_of_other_layout _ RHI_Image_Layout.Attachment (by decide) (by decide)]
  exact ⟨rfl, by decide⟩

/-- C14 (amended): for a resolution that passes the validity check, on a
swapchain of `buffer_count >= 2` and a platform ready for `Create`, the
sequence `Resize`, `AcquireNextImage` (the driver answering success with an
image index inside the arrays), `SetLayout(Present_Source)`, `Present` returns
from every call without a failed assertion, and `GetLayout` called after it
reports `Present_Source` for the acquired image. -/
theorem Resize_Acquire_SetLayout_Present_succeeds (p : Platform) (w : World)
    (width height cmd_list k image_index : Nat) (driver : Nat → VkAcquireAnswer)
    (hvalid : p.IsValidResolution width height = true) (hready : Create_ready p w)
    (hcount : 2 ≤ w.swapchain.m_buffer_count)
    (hk : k < 10)
    (hnr : ∀ i, i < k → driver i = VkAcquireAnswer.VK_NOT_READY)
    (hs : driver k = VkAcquireAnswer.VK_SUCCESS image_index)
    (hlayouts : image_index < w.swapchain.m_layouts.length)
    (hrt : image_index < w.swapchain.m_rhi_rt.length) :
    (Resize_Acquire_SetLayout_Present p width height driver cmd_list w).fault = none ∧
      GetLayout (Resize_Acquire_SetLayout_Present p width height driver cmd_list
        w).world.swapchain = some RHI_Image_Layout.Present_Source ∧
      (Resize_Acquire_SetLayout_Present p width height driver cmd_list
        w).world.swapchain.m_image_index = image_index := by
  have hready0 : Create_ready p
      { w with swapchain := { w.swapchain with m_width := width, m_height := height } } :=
    Create_ready_of_same p w _ hready rfl rfl rfl rfl rfl rfl rfl
  have hm := recreated_members p
    { w with swapchain := { w.swapchain with m_width := width, m_height := height } }
  have hcap := recreated_capacity p
    { w with swapchain := { w.swapchain with m_width := width, m_height := height } } hready0
  have hsem := recreated_semaphore p
    { w with swapchain := { w.swapchain with m_width := width, m_height := height } } 1
    (by show 1 < w.swapchain.m_buffer_count; omega)
  have hres := Resize_returns p w width height hvalid hready
  generalize recreated p
    { w with swapchain := { w.swapchain with m_width := width, m_height := height } } = wr
    at hm hcap hsem hres
  obtain ⟨_, hbi, _, _, _, hbc⟩ := hm
  have hbc1 : (emit Event.SP_LOG_INFO wr).swapchain.m_buffer_count ≠ 0 := by
    show wr.swapchain.m_buffer_count ≠ 0
    rw [hbc]; show w.swapchain.m_buffer_count ≠ 0; omega
  have hslot : (emit Event.SP_LOG_INFO wr).swapchain.m_image_acquired_semaphore[
      u32 ((emit Event.SP_LOG_INFO wr).swapchain.m_buffer_index + 1) %
        (emit Event.SP_LOG_INFO wr).swapchain.m_buffer_count]? =
      some (some ⟨p.semaphore 1, false⟩) := by
    show wr.swapchain.m_image_acquired_semaphore[
      u32 (wr.swapchain.m_buffer_index + 1) % wr.swapchain.m_buffer_count]? = _
    rw [hbi, hbc, one_mod_of_two_le _ hcount]
    exact hsem
  have hacq := AcquireNextImage_success_at driver (emit Event.SP_LOG_INFO wr)
    ⟨p.semaphore 1, false⟩ k image_index hbc1 hslot hk hnr hs
  have hset := SetLayout_returns RHI_Image_Layout.Present_Source cmd_list
    (AcquireNextImage driver (emit Event.SP_LOG_INFO wr)).world
    (by rw [hacq]; show image_index < wr.swapchain.m_layouts.length; rw [hcap.1]; exact hlayouts)
    (by rw [hacq]; show image_index < wr.swapchain.m_rhi_rt.length; rw [hcap.2]; exact hrt)
  obtain ⟨hsetf, hsetsc, _⟩ := hset
  have hafault : (AcquireNextImage driver (emit Event.SP_LOG_INFO wr)).fault = none := by
    rw [hacq]
  have hpre : (SetLayout RHI_Image_Layout.Present_Source cmd_list
      (AcquireNextImage driver (emit Event.SP_LOG_INFO wr)).world).world.swapchain.m_layouts[
        (SetLayout RHI_Image_Layout.Present_Source cmd_list
          (AcquireNextImage driver (emit Event.SP_LOG_INFO wr)).world).world.swapchain.m_image_index]? =
      some RHI_Image_Layout.Present_Source := by
    rw [hsetsc, hacq]
    show (wr.swapchain.m_layouts.set image_index RHI_Image_Layout.Present_Source)[image_index]? = _
    exact List.getElem?_set_self (by rw [hcap.1]; exact hlayouts)
  have hslot3 : (SetLayout RHI_Image_Layout.Present_Source cmd_list
      (AcquireNextImage driver (emit Event.SP_LOG_INFO wr)).world).world.swapchain.m_image_acquired_semaphore[
        (SetLayout RHI_Image_Layout.Present_Source cmd_list
          (AcquireNextImage driver (emit Event.SP_LOG_INFO wr)).world).world.swapchain.m_buffer_index]? =
      some (some ⟨p.semaphore 1, false⟩) := by
    rw [hsetsc, hacq]
    exact hslot
  have hpres := Present_of_precondition _ _ hpre hslot3
  have hx : Resize_Acquire_SetLayout_Present p width height driver cmd_list w =
      Present (SetLayout RHI_Image_Layout.Present_Source cmd_list
        (AcquireNextImage driver (emit Event.SP_LOG_INFO wr)).world).world := by
    unfold Resize_Acquire_SetLayout_Present
    rw [hres, and_then_returned, and_then_of_returned _ _ hafault,
      and_then_of_returned _ _ hsetf]
  rw [hx, hpres]
  refine ⟨rfl, ?_, ?_⟩
  · exact hpre
  · show (SetLayout RHI_Image_Layout.Present_Source cmd_list
      (AcquireNextImage driver (emit Event.SP_LOG_INFO wr)).world).world.swapchain.m_image_index
      = image_index
    rw [hsetsc, hacq]

/-- Witness of `Resize_Acquire_SetLayout_Present_succeeds` on `demo_world`:
the driver answers not-ready once, then success with image 1. -/
theorem Resize_Acquire_SetLayout_Present_succeeds_witness :
    (Resize_Acquire_SetLayout_Present demo_platform 1024 768
        (fun n => if n < 1 then VkAcquireAnswer.VK_NOT_READY else VkAcquireAnswer.VK_SUCCESS 1)
        9 demo_world).fault = none ∧
      GetLayout (Resize_Acquire_SetLayout_Present demo_platform 1024 768
        (fun n => if n < 1 then VkAcquireAnswer.VK_NOT_READY else VkAcquireAnswer.VK_SUCCESS 1)
        9 demo_world).world.swapchain = some RHI_Image_Layout.Present_Source ∧
      (Resize_Acquire_SetLayout_Present demo_platform 1024 768
        (fun n => if n < 1 then VkAcquireAnswer.VK_NOT_READY else VkAcquireAnswer.VK_SUCCESS 1)
        9 demo_world).world.swapchain.m_image_index = 1 :=
  Resize_Acquire_SetLayout_Present_succeeds demo_platform demo_world 1024 768 9 1 1
    (fun n => if n < 1 then VkAcquireAnswer.VK_NOT_READY else VkAcquireAnswer.VK_SUCCESS 1)
    (by decide) demo_world_ready (by decide) (by decide) (fun i hi => by simp [hi])
    (by decide) (by decide) (by decide)

/-- C15 (as stated) fails: a swapchain is constructed with `buffer_count = 2`
on a platform whose driver allocates three images for it; the driver then
answers an acquire with success and image index 2, one of its three images.
`AcquireNextImage` returns with `image_index = 2`, which is not below
`buffer_count`, and the lookup of `GetLayout` lands in a slot `Create` did not
initialise: it reports the undefined layout. -/
theorem AcquireNextImage_image_index_beyond_buffer_count :
    (RHI_SwapChain_constructor demo_platform_three_images (some 1) 800 600
        RHI_Present_Mode.Fifo 2 false demo_fresh_world).fault = none ∧
      demo_platform_three_images.swapchain_images.length = 3 ∧
      (AcquireNextImage (fun _ => VkAcquireAnswer.VK_SUCCESS 2)
        (RHI_SwapChain_constructor demo_platform_three_images (some 1) 800 600
          RHI_Present_Mode.Fifo 2 false demo_fresh_world).world).fault = none ∧
      (AcquireNextImage (fun _ => VkAcquireAnswer.VK_SUCCESS 2)
        (RHI_SwapChain_constructor demo_platform_three_images (some 1) 800 600
          RHI_Present_Mode.Fifo 2 false demo_fresh_world).world).world.swapchain.m_image_index
        = 2 ∧
      (AcquireNextImage (fun _ => VkAcquireAnswer.VK_SUCCESS 2)
        (RHI_SwapChain_constructor demo_platform_three_images (some 1) 800 600
          RHI_Present_Mode.Fifo 2 false demo_fresh_world).world).world.swapchain.m_buffer_count
        = 2 ∧
      GetLayout (AcquireNextImage (fun _ => VkAcquireAnswer.VK_SUCCESS 2)
        (RHI_SwapChain_constructor demo_platform_three_images (some 1) 800 600
          RHI_Present_Mode.Fifo 2 false demo_fresh_world).world).world.swapchain =
        some RHI_Image_Layout.Max := by
  have hacq := AcquireNextImage_success_at (fun _ => VkAcquireAnswer.VK_SUCCESS 2)
    (RHI_SwapChain_constructor demo_platform_three_images (some 1) 800 600
      RHI_Present_Mode.Fifo 2 false demo_fresh_world).world ⟨311, false⟩ 0 2
    (by decide) (by decide) (by decide) (fun i hi => absurd hi (Nat.not_lt_zero i)) rfl
  rw [hacq]
  exact ⟨by decide, by decide, rfl, rfl, by decide, by decide⟩

/-- C15 (amended): let `Create` go through on a swapchain of `buffer_count >=
2` for which the driver allocates exactly `buffer_count` images.  After a
successful `AcquireNextImage`, the driver returning the index of one of its
images, `image_index` is that index and lies in `[0, buffer_count)`, and the
per-image lookups at `image_index` address slots that `Create` initialised:
the image, its view and, when the immediate command list was obtained, the
layout `Attachment`. -/
theorem AcquireNextImage_image_index_in_range (p : Platform) (w : World)
    (k image_index : Nat) (driver : Nat → VkAcquireAnswer)
    (hready : Create_ready p w) (hcount : 2 ≤ w.swapchain.m_buffer_count)
    (himages : p.swapchain_images.length = w.swapchain.m_buffer_count)
    (hk : k < 10)
    (hnr : ∀ i, i < k → driver i = VkAcquireAnswer.VK_NOT_READY)
    (hs : driver k = VkAcquireAnswer.VK_SUCCESS image_index)
    (hdriver : image_index < p.swapchain_images.length) :
    (AcquireNextImage driver (Create p w).world).fault = none ∧
      (AcquireNextImage driver (Create p w).world).world.swapchain.m_image_index =
        image_index ∧
      image_index <
        (AcquireNextImage driver (Create p w).world).world.swapchain.m_buffer_count ∧
      (AcquireNextImage driver (Create p w).world).world.swapchain.m_rhi_rt[image_index]? =
        some (some (p.swapchain_images.getD image_index 0)) ∧
      (AcquireNextImage driver (Create p w).world).world.swapchain.m_rhi_rtv[image_index]? =
        some (some (p.image_view image_index)) ∧
      (p.CmdImmediateBegin.isSome = true →
        GetLayout (AcquireNextImage driver (Create p w).world).world.swapchain =
          some RHI_Image_Layout.Attachment) := by
  have hlt : image_index < w.swapchain.m_buffer_count := by omega
  have hidx : u32 (w.swapchain.m_buffer_index + 1) % w.swapchain.m_buffer_count <
      w.swapchain.m_buffer_count := Nat.mod_lt _ (by omega)
  rw [Create_returns p w hready]
  have hslot : (created p w).swapchain.m_image_acquired_semaphore[
      u32 ((created p w).swapchain.m_buffer_index + 1) %
        (created p w).swapchain.m_buffer_count]? =
      some (some ⟨p.semaphore
        (u32 (w.swapchain.m_buffer_index + 1) % w.swapchain.m_buffer_count), false⟩) :=
    overwrite_getElem?_lt _ _ _ _ hidx
  have hacq := AcquireNextImage_success_at driver (created p w) _ k image_index
    (by show w.swapchain.m_buffer_count ≠ 0; omega) hslot hk hnr hs
  rw [hacq]
  refine ⟨rfl, rfl, hlt, created_rt_getElem? p w.swapchain image_index hdriver,
    overwrite_getElem?_lt _ _ _ image_index hlt, fun hcmd => ?_⟩
  obtain ⟨cmd_list, hcmd⟩ := Option.isSome_iff_exists.mp hcmd
  show (created_swapchain p w.swapchain).m_layouts[image_index]? = _
  simp only [created_swapchain, hcmd]
  exact overwrite_getElem?_lt _ _ _ image_index hlt

/-- Witness of `AcquireNextImage_image_index_in_range`: on `demo_platform` the
driver allocates two images for two buffers and returns image 1. -/
theorem AcquireNextImage_image_index_in_range_witness :
    (AcquireNextImage (fun _ => VkAcquireAnswer.VK_SUCCESS 1)
        (Create demo_platform demo_unbuilt_world).world).fault = none ∧
      (AcquireNextImage (fun _ => VkAcquireAnswer.VK_SUCCESS 1)
        (Create demo_platform demo_unbuilt_world).world).world.swapchain.m_image_index = 1 ∧
      GetLayout (AcquireNextImage (fun _ => VkAcquireAnswer.VK_SUCCESS 1)
        (Create demo_platform demo_unbuilt_world).world).world.swapchain =
        some RHI_Image_Layout.Attachment :=
  have h := AcquireNextImage_image_index_in_range demo_platform demo_unbuilt_world 0 1
    (fun _ => VkAcquireAnswer.VK_SUCCESS 1) demo_platform_ready (by decide) (by decide)
    (by decide) (fun i hi => absurd hi (Nat.not_lt_zero i)) rfl (by decide)
  ⟨h.1, h.2.1, h.2.2.2.2.2 (by decide)⟩

/-- The call `SetVsync` when the present mode has to change, on a swapchain
and platform ready for `Create`. -/
theorem SetVsync_returns (p : Platform) (w : World) (enabled : Bool)
    (hdiff : GetVsync w.swapchain ≠ enabled) (hready : Create_ready p w) :
    SetVsync p enabled w =
      ⟨emit Event.SP_LOG_INFO (emit (Event.Timer_OnVsyncToggled enabled)
        (recreated p { w with swapchain := { w.swapchain with
          m_present_mode :=
            if enabled then RHI_Present_Mode.Fifo else RHI_Present_Mode.Immediate } })),
        none⟩ := by
  have hready1 := Create_ready_Destroy p w
    { w with swapchain := { w.swapchain with
      m_present_mode :=
        if enabled then RHI_Present_Mode.Fifo else RHI_Present_Mode.Immediate } }
    hready rfl rfl rfl rfl rfl rfl rfl
  have hcond : (decide (w.swapchain.m_present_mode = RHI_Present_Mode.Fifo) != enabled) = true := by
    unfold GetVsync at hdiff
    cases h1 : decide (w.swapchain.m_present_mode = RHI_Present_Mode.Fifo) <;>
      cases h2 : enabled <;> simp_all
  unfold SetVsync
  rw [if_pos hcond]
  show (Destroy _).and_then (fun w => (Create p w).and_then _) = _
  rw [← and_then_assoc, Destroy_Create_returns p _ hready1, and_then_returned]

/-- The call `SetVsync` when the present mode already matches. -/
theorem SetVsync_same (p : Platform) (w : World) (enabled : Bool)
    (hsame : GetVsync w.swapchain = enabled) : SetVsync p enabled w = ⟨w, none⟩ := by
  have hcond : ¬ (decide (w.swapchain.m_present_mode = RHI_Present_Mode.Fifo) != enabled) = true := by
    unfold GetVsync at hsame
    rw [hsame]
    simp
  unfold SetVsync
  rw [if_neg hcond]

/-- C16: whatever present mode the swapchain holds, `SetVsync(enabled)` with
`GetVsync() = enabled` returns at once: no `Destroy`, no `Create`, no state
changed.  Otherwise, on a swapchain and platform ready for `Create`, it sets
the present mode to Fifo when enabled and to Immediate when not, performs
exactly one `Destroy` followed by exactly one `Create` (its events are those of
the `Destroy`, those of the `Create`, the notification of the timer and a log
entry) and returns.  In both cases `GetVsync()` equals `enabled` afterwards. -/
theorem SetVsync_toggles (p : Platform) (w : World) (enabled : Bool) :
    (GetVsync w.swapchain = enabled →
        SetVsync p enabled w = ⟨w, none⟩ ∧
          GetVsync (SetVsync p enabled w).world.swapchain = enabled) ∧
      (GetVsync w.swapchain ≠ enabled → Create_ready p w →
        (SetVsync p enabled w).fault = none ∧
          new_events w (SetVsync p enabled w) =
            destroyed_events w.swapchain ++
              created_events p (Destroy { w with swapchain := { w.swapchain with
                m_present_mode :=
                  if enabled then RHI_Present_Mode.Fifo
                  else RHI_Present_Mode.Immediate } }).world.swapchain ++
              [Event.Timer_OnVsyncToggled enabled, Event.SP_LOG_INFO] ∧
          (new_events w (SetVsync p enabled w)).countP is_swapchain_destroy = 1 ∧
          (new_events w (SetVsync p enabled w)).countP is_swapchain_create = 1 ∧
          (SetVsync p enabled w).world.swapchain.m_present_mode =
            (if enabled then RHI_Present_Mode.Fifo else RHI_Present_Mode.Immediate) ∧
          GetVsync (SetVsync p enabled w).world.swapchain = enabled) := by
  constructor
  · intro hsame
    rw [SetVsync_same p w enabled hsame]
    exact ⟨rfl, hsame⟩
  · intro hdiff hready
    have hret := SetVsync_returns p w enabled hdiff hready
    have hm := recreated_members p
      { w with swapchain := { w.swapchain with
        m_present_mode :=
          if enabled then RHI_Present_Mode.Fifo else RHI_Present_Mode.Immediate } }
    have hev : new_events w (SetVsync p enabled w) =
        destroyed_events w.swapchain ++
          created_events p (Destroy { w with swapchain := { w.swapchain with
            m_present_mode :=
              if enabled then RHI_Present_Mode.Fifo
              else RHI_Present_Mode.Immediate } }).world.swapchain ++
          [Event.Timer_OnVsyncToggled enabled, Event.SP_LOG_INFO] := by
      apply new_events_of_append
      rw [hret]
      simp only [emit, recreated_trace, List.append_assoc]
      rfl
    have hmode : (SetVsync p enabled w).world.swapchain.m_present_mode =
        (if enabled then RHI_Present_Mode.Fifo else RHI_Present_Mode.Immediate) := by
      rw [hret]; exact hm.2.2.2.2.1
    refine ⟨by rw [hret], hev, ?_, ?_, hmode, ?_⟩
    · rw [hev, List.countP_append]
      have := recreated_count_destroy p
        { w with swapchain := { w.swapchain with
          m_present_mode :=
            if enabled then RHI_Present_Mode.Fifo else RHI_Present_Mode.Immediate } }
      simpa [is_swapchain_destroy] using this
    · rw [hev, List.countP_append]
      have := recreated_count_create p
        { w with swapchain := { w.swapchain with
          m_present_mode :=
            if enabled then RHI_Present_Mode.Fifo else RHI_Present_Mode.Immediate } }
      simpa [is_swapchain_create] using this
    · unfold GetVsync
      rw [hmode]
      cases enabled <;> rfl

/-- Witness of `SetVsync_toggles` on `demo_world`, whose present mode is Fifo:
enabling vsync changes nothing, disabling it recreates the swapchain once. -/
theorem SetVsync_toggles_witness :
    (SetVsync demo_platform true demo_world = ⟨demo_world, none⟩ ∧
        GetVsync (SetVsync demo_platform true demo_world).world.swapchain = true) ∧
      ((new_events demo_world (SetVsync demo_platform false demo_world)).countP
          is_swapchain_destroy = 1 ∧
        (new_events demo_world (SetVsync demo_platform false demo_world)).countP
          is_swapchain_create = 1 ∧
        (SetVsync demo_platform false demo_world).world.swapchain.m_present_mode =
          RHI_Present_Mode.Immediate ∧
        GetVsync (SetVsync demo_platform false demo_world).world.swapchain = false) :=
  have h1 := (SetVsync_toggles demo_platform demo_world true).1 (by decide)
  have h2 := (SetVsync_toggles demo_platform demo_world false).2 (by decide) demo_world_ready
  ⟨h1, h2.2.2.1, h2.2.2.2.1, h2.2.2.2.2.1, h2.2.2.2.2.2⟩

/-- The format `Create` leaves in `m_format` is never `R8G8B8A8_Unorm`. -/
theorem created_format_ne (sc : RHI_SwapChain) :
    created_format sc ≠ RHI_Format.R8G8B8A8_Unorm := by
  unfold created_format
  split_ifs with h
  · decide
  · exact h

/-- The call `SetHdr` when the requested format is the one the swapchain
holds (and, for `enabled`, the display supports HDR). -/
theorem SetHdr_same (p : Platform) (w : World) (enabled : Bool)
    (hdisplay : enabled = true → p.Display_GetHdr = true)
    (hsame : (if enabled then p.format_hdr else p.format_sdr) = w.swapchain.m_format) :
    SetHdr p enabled w = ⟨w, none⟩ := by
  unfold SetHdr
  cases enabled with
  | false =>
    simp only [Bool.false_eq_true, if_false] at hsame ⊢
    rw [and_then_returned]
    simp [hsame]
  | true =>
    simp only [if_true] at hsame ⊢
    rw [hdisplay rfl, assert_that_holds, and_then_returned]
    simp [hsame]

/-- Whenever the SDR format of the class is `R8G8B8A8_Unorm`, `SetHdr(false)`
on a swapchain that a `Create` that went through has left does not return at
once: the format `Create` substituted differs from the SDR format, so the
swapchain is destroyed and created again. -/
theorem SetHdr_false_after_Create (p : Platform) (w : World)
    (hsdr : p.format_sdr = RHI_Format.R8G8B8A8_Unorm) :
    SetHdr p false (created p w) =
      (Destroy { created p w with swapchain := { (created p w).swapchain with
        m_format := RHI_Format.R8G8B8A8_Unorm } }).and_then (Create p) := by
  have hne : RHI_Format.R8G8B8A8_Unorm ≠ (created p w).swapchain.m_format :=
    fun h => created_format_ne w.swapchain h.symm
  unfold SetHdr
  simp only [Bool.false_eq_true, if_false, and_then_returned, hsdr, ne_eq, hne,
    not_false_eq_true, if_true]

/-- C17: evaluation at the failing input.  A swapchain is constructed with HDR
off on `demo_platform`, whose SDR format is `R8G8B8A8_Unorm`; construction
goes through and leaves the substituted format `B8R8G8A8_Unorm` in `m_format`.
`SetHdr(false)` on it then destroys and creates the swapchain, once each,
although HDR was off already.  On a swapchain constructed with HDR on,
`SetHdr(true)` changes nothing. -/
theorem SetHdr_false_recreates_sdr_swapchain :
    (RHI_SwapChain_constructor demo_platform (some 1) 800 600
        RHI_Present_Mode.Fifo 2 false demo_fresh_world).fault = none ∧
      demo_platform.format_sdr = RHI_Format.R8G8B8A8_Unorm ∧
      (RHI_SwapChain_constructor demo_platform (some 1) 800 600
        RHI_Present_Mode.Fifo 2 false demo_fresh_world).world.swapchain.m_format =
        RHI_Format.B8R8G8A8_Unorm ∧
      (SetHdr demo_platform false
        (RHI_SwapChain_constructor demo_platform (some 1) 800 600
          RHI_Present_Mode.Fifo 2 false demo_fresh_world).world).fault = none ∧
      (new_events
          (RHI_SwapChain_constructor demo_platform (some 1) 800 600
            RHI_Present_Mode.Fifo 2 false demo_fresh_world).world
          (SetHdr demo_platform false
            (RHI_SwapChain_constructor demo_platform (some 1) 800 600
              RHI_Present_Mode.Fifo 2 false demo_fresh_world).world)).countP
        is_swapchain_destroy = 1 ∧
      (new_events
          (RHI_SwapChain_constructor demo_platform (some 1) 800 600
            RHI_Present_Mode.Fifo 2 false demo_fresh_world).world
          (SetHdr demo_platform false
            (RHI_SwapChain_constructor demo_platform (some 1) 800 600
              RHI_Present_Mode.Fifo 2 false demo_fresh_world).world)).countP
        is_swapchain_create = 1 ∧
      (RHI_SwapChain_constructor demo_platform (some 1) 800 600
        RHI_Present_Mode.Fifo 2 true demo_fresh_world).fault = none ∧
      new_events
          (RHI_SwapChain_constructor demo_platform (some 1) 800 600
            RHI_Present_Mode.Fifo 2 true demo_fresh_world).world
          (SetHdr demo_platform true
            (RHI_SwapChain_constructor demo_platform (some 1) 800 600
              RHI_Present_Mode.Fifo 2 true demo_fresh_world).world) = [] := by
  decide

/-- C18: when the display does not support HDR, `SetHdr(true)` stops on its
assertion with the world exactly as it was: the format is not swapped and no
event, hence no `Destroy` and no `Create`, has taken place.  `SetHdr(false)`
does not consult the display: it ends as it does on a display that supports
HDR. -/
theorem SetHdr_true_rejected (p : Platform) (w : World) (h : p.Display_GetHdr = false) :
    SetHdr p true w = ⟨w, some Fault.assertion_failed⟩ ∧
      new_events w (SetHdr p true w) = [] ∧
      (SetHdr p true w).world.swapchain.m_format = w.swapchain.m_format ∧
      SetHdr p false w = SetHdr { p with Display_GetHdr := true } false w := by
  have h1 : SetHdr p true w = ⟨w, some Fault.assertion_failed⟩ := by
    unfold SetHdr
    simp only [if_true, h, assert_that_fails, and_then_stopped]
  rw [h1]
  refine ⟨rfl, ?_, rfl, rfl⟩
  simp [new_events]

/-- Witness of `SetHdr_true_rejected` on a display without HDR. -/
theorem SetHdr_true_rejected_witness :
    SetHdr demo_platform_sdr_display true demo_world =
        ⟨demo_world, some Fault.assertion_failed⟩ ∧
      new_events demo_world (SetHdr demo_platform_sdr_display true demo_world) = [] :=
  have h := SetHdr_true_rejected demo_platform_sdr_display demo_world (by decide)
  ⟨h.1, h.2.1⟩

/-- C19: construction is rejected on a failed assertion whenever the
resolution is invalid or `buffer_count < 2`, before `Create` is entered: the
world is left as it was and no event has taken place, so that no surface,
swapchain, image view or semaphore has been created and no GPU work submitted.
For a valid resolution and `buffer_count >= 2` neither assertion fires: the
constructor stores its arguments and runs `Create`, and returns whenever the
platform and the arrays are ready for `Create`. -/
theorem constructor_checks_arguments (p : Platform) (sdl_window : Option Nat)
    (width height buffer_count : Nat) (present_mode : RHI_Present_Mode) (hdr : Bool)
    (w : World) :
    (¬ (p.IsValidResolution width height = true ∧ 2 ≤ buffer_count) →
        RHI_SwapChain_constructor p sdl_window width height present_mode buffer_count hdr w =
            ⟨w, some Fault.assertion_failed⟩ ∧
          new_events w (RHI_SwapChain_constructor p sdl_window width height present_mode
            buffer_count hdr w) = []) ∧
      (p.IsValidResolution width height = true ∧ 2 ≤ buffer_count →
        RHI_SwapChain_constructor p sdl_window width height present_mode buffer_count hdr w =
            (Create p { w with swapchain := { w.swapchain with
              m_format := if hdr then p.format_hdr else p.format_sdr,
              m_buffer_count := buffer_count,
              m_width := width,
              m_height := height,
              m_sdl_window := sdl_window,
              m_present_mode := present_mode } }).and_then
              (fun w => ⟨emit Event.SP_SUBSCRIBE_TO_EVENT w, none⟩) ∧
          (Create_ready p { w with swapchain := { w.swapchain with
              m_format := if hdr then p.format_hdr else p.format_sdr,
              m_buffer_count := buffer_count,
              m_width := width,
              m_height := height,
              m_sdl_window := sdl_window,
              m_present_mode := present_mode } } →
            (RHI_SwapChain_constructor p sdl_window width height present_mode buffer_count
              hdr w).fault = none)) := by
  constructor
  · intro hbad
    have h1 : RHI_SwapChain_constructor p sdl_window width height present_mode buffer_count
        hdr w = ⟨w, some Fault.assertion_failed⟩ := by
      unfold RHI_SwapChain_constructor
      cases hv : p.IsValidResolution width height with
      | false => rfl
      | true =>
        have hb : ¬ 2 ≤ buffer_count := fun h => hbad ⟨hv, h⟩
        rw [assert_that_holds, and_then_returned]
        have hd : decide (buffer_count ≥ 2) = false := decide_eq_false hb
        rw [hd]
        rfl
    rw [h1]
    exact ⟨rfl, by simp [new_events]⟩
  · rintro ⟨hv, hb⟩
    have h1 : RHI_SwapChain_constructor p sdl_window width height present_mode buffer_count
        hdr w =
        (Create p { w with swapchain := { w.swapchain with
          m_format := if hdr then p.format_hdr else p.format_sdr,
          m_buffer_count := buffer_count,
          m_width := width,
          m_height := height,
          m_sdl_window := sdl_window,
          m_present_mode := present_mode } }).and_then
          (fun w => ⟨emit Event.SP_SUBSCRIBE_TO_EVENT w, none⟩) := by
      unfold RHI_SwapChain_constructor
      have hd : decide (buffer_count ≥ 2) = true := decide_eq_true hb
      rw [hv, hd]
      rfl
    refine ⟨h1, fun hready => ?_⟩
    rw [h1, Create_returns p _ hready]
    rfl

/-- Witness of `constructor_checks_arguments`: one buffer is rejected, two
buffers at 800 x 600 are accepted on `demo_platform`. -/
theorem constructor_checks_arguments_witness :
    (RHI_SwapChain_constructor demo_platform (some 1) 800 600 RHI_Present_Mode.Fifo 1 false
          demo_fresh_world = ⟨demo_fresh_world, some Fault.assertion_failed⟩ ∧
        new_events demo_fresh_world (RHI_SwapChain_constructor demo_platform (some 1) 800 600
          RHI_Present_Mode.Fifo 1 false demo_fresh_world) = []) ∧
      (RHI_SwapChain_constructor demo_platform (some 1) 800 600 RHI_Present_Mode.Fifo 2 false
        demo_fresh_world).fault = none :=
  ⟨(constructor_checks_arguments demo_platform (some 1) 800 600 1 RHI_Present_Mode.Fifo false
      demo_fresh_world).1 (by decide),
    ((constructor_checks_arguments demo_platform (some 1) 800 600 2 RHI_Present_Mode.Fifo false
      demo_fresh_world).2 (by decide)).2 demo_platform_ready⟩

/-! ## Theorems: capability negotiation -/

theorem any_beq_iff_mem (modes : List VkPresentModeKHR) (mode : VkPresentModeKHR) :
    modes.any (fun supported_present_mode => mode == supported_present_mode) = true ↔
      mode ∈ modes := by
  rw [List.any_eq_true]
  constructor
  · rintro ⟨x, hx, hb⟩
    rw [beq_iff_eq] at hb
    rw [hb]; exact hx
  · intro h
    exact ⟨mode, h, beq_self_eq_true mode⟩

/-- The outcome of `get_present_mode` on a surface that reports at least one
mode. -/
theorem get_present_mode_eq (p : Platform) (present_mode : RHI_Present_Mode)
    (h : p.surface_present_modes ≠ []) :
    get_present_mode p present_mode =
      if vk_present_mode_of present_mode ∈ p.surface_present_modes then
        Except.ok (vk_present_mode_of present_mode, [])
      else Except.ok (VkPresentModeKHR.VK_PRESENT_MODE_FIFO_KHR, [Event.SP_LOG_WARNING]) := by
  unfold get_present_mode get_supported_present_modes
  simp only [h, if_false]
  cases present_mode <;> simp only [vk_present_mode_of, any_beq_iff_mem] <;> simp

/-- C20: on a surface that reports at least one present mode,
`get_present_mode` returns the requested mode, without a warning, if it occurs
in the list of supported modes, and FIFO, with a warning logged, otherwise.
Hence the result is always the requested mode or FIFO, the warning is logged
exactly when the requested mode is not in the list, and whenever the list
contains FIFO the result is a member of the list. -/
theorem get_present_mode_selects (p : Platform) (present_mode : RHI_Present_Mode)
    (h : p.surface_present_modes ≠ []) :
    (vk_present_mode_of present_mode ∈ p.surface_present_modes →
        get_present_mode p present_mode =
          Except.ok (vk_present_mode_of present_mode, [])) ∧
      (vk_present_mode_of present_mode ∉ p.surface_present_modes →
        get_present_mode p present_mode =
          Except.ok (VkPresentModeKHR.VK_PRESENT_MODE_FIFO_KHR, [Event.SP_LOG_WARNING])) ∧
      ∃ chosen logged, get_present_mode p present_mode = Except.ok (chosen, logged) ∧
        (chosen = vk_present_mode_of present_mode ∨
          chosen = VkPresentModeKHR.VK_PRESENT_MODE_FIFO_KHR) ∧
        (logged = [Event.SP_LOG_WARNING] ↔
          vk_present_mode_of present_mode ∉ p.surface_present_modes) ∧
        (VkPresentModeKHR.VK_PRESENT_MODE_FIFO_KHR ∈ p.surface_present_modes →
          chosen ∈ p.surface_present_modes) := by
  have heq := get_present_mode_eq p present_mode h
  by_cases hmem : vk_present_mode_of present_mode ∈ p.surface_present_modes
  · rw [if_pos hmem] at heq
    refine ⟨fun _ => heq, fun hn => absurd hmem hn, _, _, heq, Or.inl rfl, ?_, fun _ => hmem⟩
    constructor
    · intro hl; cases hl
    · intro hn; exact absurd hmem hn
  · rw [if_neg hmem] at heq
    refine ⟨fun hm => absurd hm hmem, fun _ => heq, _, _, heq, Or.inr rfl, ?_, fun hf => hf⟩
    exact ⟨fun _ => hmem, fun _ => rfl⟩

/-- Witness of `get_present_mode_selects`: `demo_platform` supports FIFO and
IMMEDIATE, so that a request for Mailbox falls back to FIFO with a warning. -/
theorem get_present_mode_selects_witness :
    get_present_mode demo_platform RHI_Present_Mode.Immediate =
        Except.ok (VkPresentModeKHR.VK_PRESENT_MODE_IMMEDIATE_KHR, []) ∧
      get_present_mode demo_platform RHI_Present_Mode.Mailbox =
        Except.ok (VkPresentModeKHR.VK_PRESENT_MODE_FIFO_KHR, [Event.SP_LOG_WARNING]) :=
  ⟨(get_present_mode_selects demo_platform RHI_Present_Mode.Immediate (by decide)).1
      (by decide),
    (get_present_mode_selects demo_platform RHI_Present_Mode.Mailbox (by decide)).2.1
      (by decide)⟩

/-! ## Theorems: the extent handed to the driver -/

/-- With its bounds in order, `clamp` lands between them. -/
theorem clamp_bounds (v lo hi : Nat) (h : lo ≤ hi) :
    lo ≤ clamp v lo hi ∧ clamp v lo hi ≤ hi := by
  unfold clamp
  split_ifs <;> omega

/-- A value between the bounds is left alone by `clamp`. -/
theorem clamp_of_inside (v lo hi : Nat) (h1 : lo ≤ v) (h2 : v ≤ hi) : clamp v lo hi = v := by
  unfold clamp
  split_ifs <;> omega

/-- The one call of `vkCreateSwapchainKHR` among the events of a `Create` that
goes through carries `created_info`. -/
theorem created_events_create (p : Platform) (sc : RHI_SwapChain) :
    ∀ e ∈ created_events p sc, is_swapchain_create e = true →
      e = Event.vkCreateSwapchainKHR (created_info p sc) := by
  intro e he hkind
  simp only [created_events, List.mem_append, List.mem_cons, List.mem_singleton,
    List.not_mem_nil, or_false] at he
  rcases he with ((((he | he) | he) | he) | he) | he
  · subst he; simp [is_swapchain_create] at hkind
  · rw [created_present_mode_logged p _ e he] at hkind
    simp [is_swapchain_create] at hkind
  · rcases he with he | he | he
    · exact he
    · subst he; simp [is_swapchain_create] at hkind
    · subst he; simp [is_swapchain_create] at hkind
  · cases hcmd : p.CmdImmediateBegin with
    | none => rw [hcmd] at he; simp at he
    | some cmd_list =>
      rw [hcmd] at he
      simp only [List.mem_append, List.mem_singleton] at he
      rcases he with he | he
      · have hb := transition_events_kind _ _ _ e he
        cases e <;> simp [is_barrier, is_swapchain_create] at hb hkind
      · subst he; simp [is_swapchain_create] at hkind
  · rcases image_view_events_kind _ _ _ e he with ⟨image, index, h⟩ | ⟨image, h⟩
    · subst h; simp [is_swapchain_create] at hkind
    · subst h; simp [is_swapchain_create] at hkind
  · obtain ⟨index, h⟩ := semaphore_events_kind _ e he
    subst h; simp [is_swapchain_create] at hkind

/-- C21: for every requested width and height and every surface extent whose
minimum is at most its maximum in each dimension, a `Create` that goes through
stores a width and a height inside those bounds, keeps a requested value that
was already inside them, and hands the driver exactly one
`vkCreateSwapchainKHR` whose `imageExtent` is the stored pair. -/
theorem Create_clamps_extent (p : Platform) (w : World) (hready : Create_ready p w)
    (hwidth : p.surface_capabilities.minImageExtent.width ≤
      p.surface_capabilities.maxImageExtent.width)
    (hheight : p.surface_capabilities.minImageExtent.height ≤
      p.surface_capabilities.maxImageExtent.height) :
    (Create p w).fault = none ∧
      p.surface_capabilities.minImageExtent.width ≤ (Create p w).world.swapchain.m_width ∧
      (Create p w).world.swapchain.m_width ≤ p.surface_capabilities.maxImageExtent.width ∧
      p.surface_capabilities.minImageExtent.height ≤ (Create p w).world.swapchain.m_height ∧
      (Create p w).world.swapchain.m_height ≤ p.surface_capabilities.maxImageExtent.height ∧
      (p.surface_capabilities.minImageExtent.width ≤ w.swapchain.m_width →
        w.swapchain.m_width ≤ p.surface_capabilities.maxImageExtent.width →
        (Create p w).world.swapchain.m_width = w.swapchain.m_width) ∧
      (p.surface_capabilities.minImageExtent.height ≤ w.swapchain.m_height →
        w.swapchain.m_height ≤ p.surface_capabilities.maxImageExtent.height →
        (Create p w).world.swapchain.m_height = w.swapchain.m_height) ∧
      (new_events w (Create p w)).countP is_swapchain_create = 1 ∧
      (∃ create_info, Event.vkCreateSwapchainKHR create_info ∈ new_events w (Create p w)) ∧
      ∀ create_info, Event.vkCreateSwapchainKHR create_info ∈ new_events w (Create p w) →
        create_info.imageExtent =
          ⟨(Create p w).world.swapchain.m_width, (Create p w).world.swapchain.m_height⟩ := by
  have hevents : new_events w (Create p w) = created_events p w.swapchain := by
    rw [Create_returns p w hready]
    exact new_events_of_append w _ _ rfl
  rw [hevents, Create_returns p w hready]
  have hw := clamp_bounds w.swapchain.m_width _ _ hwidth
  have hh := clamp_bounds w.swapchain.m_height _ _ hheight
  refine ⟨rfl, hw.1, hw.2, hh.1, hh.2, ?_, ?_, created_events_count_create p w.swapchain,
    ⟨created_info p w.swapchain, ?_⟩, ?_⟩
  · intro h1 h2
    exact clamp_of_inside _ _ _ h1 h2
  · intro h1 h2
    exact clamp_of_inside _ _ _ h1 h2
  · simp [created_events]
  · intro create_info hmem
    have h := created_events_create p w.swapchain _ hmem rfl
    injection h with h
    rw [h]
    rfl

/-- Witness of C21: the construction-time `Create` on the demonstration
platform, whose surface allows extents from 1x1 to 4096x4096. -/
theorem Create_clamps_extent_witness :
    (Create demo_platform demo_unbuilt_world).fault = none ∧
      (Create demo_platform demo_unbuilt_world).world.swapchain.m_width ≤ 4096 :=
  have h := Create_clamps_extent demo_platform demo_unbuilt_world demo_platform_ready
    (by decide) (by decide)
  ⟨h.1, h.2.2.1⟩

/-! ## Theorems: `SetLayout` on a different layout -/

/-- C22: when the layout recorded for the image at `m_image_index` is `current`
and the requested `layout` differs from it, `SetLayout` returns having issued
exactly one barrier, on the given command list, for the image at
`m_image_index`, from `current` to `layout`; afterwards `GetLayout` answers
`layout`, and the layout recorded for every other image is what it was. -/
theorem SetLayout_issues_one_barrier (layout current : RHI_Image_Layout) (cmd_list : Nat)
    (w : World) (image : Option Nat)
    (hcurrent : GetLayout w.swapchain = some current)
    (hdiff : current ≠ layout)
    (himage : w.swapchain.m_rhi_rt[w.swapchain.m_image_index]? = some image) :
    (SetLayout layout cmd_list w).fault = none ∧
      new_events w (SetLayout layout cmd_list w) =
        [Event.InsertBarrierTexture cmd_list image current layout] ∧
      GetLayout (SetLayout layout cmd_list w).world.swapchain = some layout ∧
      (SetLayout layout cmd_list w).world.swapchain.m_image_index =
        w.swapchain.m_image_index ∧
      ∀ j, j ≠ w.swapchain.m_image_index →
        (SetLayout layout cmd_list w).world.swapchain.m_layouts[j]? =
          w.swapchain.m_layouts[j]? := by
  have hcur : w.swapchain.m_layouts[w.swapchain.m_image_index]? = some current := hcurrent
  have hlt : w.swapchain.m_image_index < w.swapchain.m_layouts.length := by
    by_contra hge
    rw [List.getElem?_eq_none (Nat.le_of_not_lt hge)] at hcur
    exact Option.noConfusion hcur
  rw [SetLayout_of_change layout current cmd_list w image hcur hdiff himage]
  refine ⟨rfl, new_events_of_append w _ _ rfl, ?_, rfl, ?_⟩
  · show (w.swapchain.m_layouts.set w.swapchain.m_image_index layout)[
      w.swapchain.m_image_index]? = some layout
    rw [List.getElem?_set_self (by simpa using hlt)]
  · intro j hj
    show (w.swapchain.m_layouts.set w.swapchain.m_image_index layout)[j]? = _
    rw [List.getElem?_set_ne (Ne.symm hj)]

/-- Witness of C22: on the demonstration world, whose image 0 is recorded as
`Attachment`, a request for `Present_Source`. -/
theorem SetLayout_issues_one_barrier_witness :
    new_events demo_world (SetLayout RHI_Image_Layout.Present_Source 9 demo_world) =
      [Event.InsertBarrierTexture 9 (some 100) RHI_Image_Layout.Attachment
        RHI_Image_Layout.Present_Source] :=
  (SetLayout_issues_one_barrier RHI_Image_Layout.Present_Source RHI_Image_Layout.Attachment 9
    demo_world (some 100) (by decide) (by decide) (by decide)).2.1

/-! ## Theorems: composite alpha, the format check and the HDR metadata -/

/-- C26: when the query for the surface capabilities succeeds,
`get_supported_composite_alpha_format` returns a mode; if some mode of the order
opaque, pre-multiplied, post-multiplied, inherit (`composite_alpha_flags`) has
its bit set in the mask the surface reports, the mode returned is one of the
order, its bit is set, and no mode before it in the order has its bit set; if
none of the four bits is set, the mode returned is opaque. -/
theorem get_supported_composite_alpha_format_first (p : Platform)
    (hquery : p.vkGetPhysicalDeviceSurfaceCapabilitiesKHR = VK_SUCCESS) :
    ∃ chosen, get_supported_composite_alpha_format p = Except.ok chosen ∧
      ((∃ flag ∈ composite_alpha_flags,
          p.surface_capabilities.supportedCompositeAlpha &&& flag ≠ 0) →
        ∃ before after, composite_alpha_flags = before ++ chosen :: after ∧
          p.surface_capabilities.supportedCompositeAlpha &&& chosen ≠ 0 ∧
          ∀ flag ∈ before, p.surface_capabilities.supportedCompositeAlpha &&& flag = 0) ∧
      ((∀ flag ∈ composite_alpha_flags,
          p.surface_capabilities.supportedCompositeAlpha &&& flag = 0) → chosen = 1) := by
  unfold get_supported_composite_alpha_format
  rw [hquery]
  simp only [beq_self_eq_true, SP_ASSERT, if_true]
  cases hfind : composite_alpha_flags.find? (fun composite_alpha =>
      p.surface_capabilities.supportedCompositeAlpha &&& composite_alpha != 0) with
  | none =>
    refine ⟨1, rfl, ?_, fun _ => rfl⟩
    rintro ⟨flag, hmem, hset⟩
    have h := List.find?_eq_none.mp hfind flag hmem
    simp at h
    exact absurd h hset
  | some chosen =>
    refine ⟨chosen, rfl, ?_, ?_⟩
    · intro _
      obtain ⟨hset, before, after, hsplit, hbefore⟩ := List.find?_eq_some.mp hfind
      refine ⟨before, after, hsplit, by simpa using hset, ?_⟩
      intro flag hmem
      simpa using hbefore flag hmem
    · intro hnone
      have hmem := List.mem_of_find?_eq_some hfind
      have hset := List.find?_some hfind
      simp at hset
      exact absurd (hnone chosen hmem) hset

/-- Witness of C26: a surface that reports the mask 12 (post-multiplied and
inherit) is given a mode of the order whose bit is set, with no set bit before
it; the mode is post-multiplied, 4. -/
theorem get_supported_composite_alpha_format_first_witness :
    get_supported_composite_alpha_format demo_platform_translucent = Except.ok 4 ∧
      ∃ chosen, get_supported_composite_alpha_format demo_platform_translucent =
          Except.ok chosen ∧
        ((∃ flag ∈ composite_alpha_flags,
            demo_platform_translucent.surface_capabilities.supportedCompositeAlpha &&& flag
              ≠ 0) →
          ∃ before after, composite_alpha_flags = before ++ chosen :: after ∧
            demo_platform_translucent.surface_capabilities.supportedCompositeAlpha &&& chosen
              ≠ 0 ∧
            ∀ flag ∈ before,
              demo_platform_translucent.surface_capabilities.supportedCompositeAlpha &&& flag
                = 0) ∧
        ((∀ flag ∈ composite_alpha_flags,
            demo_platform_translucent.surface_capabilities.supportedCompositeAlpha &&& flag
              = 0) → chosen = 1) :=
  ⟨rfl, get_supported_composite_alpha_format_first demo_platform_translucent rfl⟩

/-- Membership in a list of surface formats, as the loop of
`is_format_and_color_space_supported` tests it. -/
theorem any_surface_format_iff_mem (formats : List VkSurfaceFormatKHR) (format : Nat)
    (color_space : VkColorSpaceKHR) :
    formats.any (fun supported_format =>
        supported_format.format == format && supported_format.colorSpace == color_space) =
      decide ((⟨format, color_space⟩ : VkSurfaceFormatKHR) ∈ formats) := by
  rw [Bool.eq_iff_iff]
  simp only [List.any_eq_true, Bool.and_eq_true, beq_iff_eq, decide_eq_true_eq]
  constructor
  · rintro ⟨⟨f, c⟩, hmem, hf, hc⟩
    simp only at hf hc
    subst hf
    subst hc
    exact hmem
  · intro hmem
    exact ⟨_, hmem, rfl, rfl⟩

/-- Counterexample to C25: the surface offers exactly the requested pair,
`VK_FORMAT_R8G8B8A8_UNORM` (37) with sRGB; asked for `R8G8B8A8_Unorm` with
sRGB, `is_format_and_color_space_supported` answers false and hands back
`B8R8G8A8_Unorm`. -/
theorem is_format_and_color_space_supported_rejects_offered_pair :
    (⟨demo_platform_rgba_surface.vulkan_format RHI_Format.R8G8B8A8_Unorm,
        VkColorSpaceKHR.VK_COLOR_SPACE_SRGB_NONLINEAR_KHR⟩ : VkSurfaceFormatKHR) ∈
        demo_platform_rgba_surface.surface_formats ∧
      is_format_and_color_space_supported demo_platform_rgba_surface
          RHI_Format.R8G8B8A8_Unorm VkColorSpaceKHR.VK_COLOR_SPACE_SRGB_NONLINEAR_KHR =
        Except.ok (false, RHI_Format.B8R8G8A8_Unorm) :=
  ⟨by decide, rfl⟩

/-- C25, amended: when the query for the surface formats goes through,
`is_format_and_color_space_supported` replaces a requested `R8G8B8A8_Unorm` by
`B8R8G8A8_Unorm` before it looks at the list, whatever the list holds, and then
answers whether the replacement with the requested color space is in the list;
every other requested format is left as it is, and the answer is whether that
format with the requested color space is in the list. -/
theorem is_format_and_color_space_supported_substitutes_first (p : Platform)
    (format : RHI_Format) (color_space : VkColorSpaceKHR)
    (hquery : get_supported_surface_formats p = Except.ok p.surface_formats) :
    (format = RHI_Format.R8G8B8A8_Unorm →
        is_format_and_color_space_supported p format color_space =
          Except.ok
            (decide ((⟨p.vulkan_format RHI_Format.B8R8G8A8_Unorm, color_space⟩ :
              VkSurfaceFormatKHR) ∈ p.surface_formats), RHI_Format.B8R8G8A8_Unorm)) ∧
      (format ≠ RHI_Format.R8G8B8A8_Unorm →
        is_format_and_color_space_supported p format color_space =
          Except.ok
            (decide ((⟨p.vulkan_format format, color_space⟩ : VkSurfaceFormatKHR) ∈
              p.surface_formats), format)) := by
  unfold is_format_and_color_space_supported
  rw [hquery]
  constructor
  · intro h
    simp only [h, if_true]
    rw [any_surface_format_iff_mem]
  · intro h
    simp only [h, if_false]
    rw [any_surface_format_iff_mem]

/-- Witness of C25, amended: on the demonstration platform, whose surface
offers `VK_FORMAT_B8G8R8A8_UNORM` (44) with sRGB, a request for
`R8G8B8A8_Unorm` is answered with true and `B8R8G8A8_Unorm`. -/
theorem is_format_and_color_space_supported_substitutes_first_witness :
    is_format_and_color_space_supported demo_platform RHI_Format.R8G8B8A8_Unorm
        VkColorSpaceKHR.VK_COLOR_SPACE_SRGB_NONLINEAR_KHR =
      Except.ok
        (decide ((⟨demo_platform.vulkan_format RHI_Format.B8R8G8A8_Unorm,
          VkColorSpaceKHR.VK_COLOR_SPACE_SRGB_NONLINEAR_KHR⟩ : VkSurfaceFormatKHR) ∈
            demo_platform.surface_formats), RHI_Format.B8R8G8A8_Unorm) :=
  (is_format_and_color_space_supported_substitutes_first demo_platform
    RHI_Format.R8G8B8A8_Unorm VkColorSpaceKHR.VK_COLOR_SPACE_SRGB_NONLINEAR_KHR rfl).1 rfl

/-- Counterexample to C27: a swapchain constructed with HDR off on the
demonstration platform; its format is not the HDR format, and the construction
hands HDR metadata to the driver all the same. -/
theorem Create_sets_hdr_metadata_with_hdr_off :
    (RHI_SwapChain_constructor demo_platform (some 1) 800 600 RHI_Present_Mode.Fifo 2 false
        demo_fresh_world).fault = none ∧
      (RHI_SwapChain_constructor demo_platform (some 1) 800 600 RHI_Present_Mode.Fifo 2 false
        demo_fresh_world).world.swapchain.m_format ≠ demo_platform.format_hdr ∧
      Event.vkSetHdrMetadataEXT 51 ∈
        (RHI_SwapChain_constructor demo_platform (some 1) 800 600 RHI_Present_Mode.Fifo 2 false
          demo_fresh_world).world.trace := by
  decide

/-- C27, amended: a `Create` that goes through hands HDR metadata to the driver
exactly once, for the swapchain just created and right after the call of
`vkCreateSwapchainKHR`, whatever the format of the swapchain: the call does not
depend on HDR having been requested. -/
theorem Create_always_sets_hdr_metadata (p : Platform) (w : World)
    (hready : Create_ready p w) :
    (Create p w).fault = none ∧
      (new_events w (Create p w)).countP is_hdr_metadata = 1 ∧
      ∃ before after, new_events w (Create p w) =
        before ++ [Event.vkCreateSwapchainKHR (created_info p w.swapchain),
          Event.vkSetHdrMetadataEXT p.swap_chain] ++ after := by
  rw [Create_events p w hready, Create_returns p w hready]
  refine ⟨rfl, ?_, ?_⟩
  · rw [created_events_count p w.swapchain is_hdr_metadata (fun _ _ _ _ => rfl)
      (fun _ _ => rfl) (fun _ _ => rfl) (fun _ => rfl) rfl (fun _ => rfl)]
    rfl
  · cases hcmd : p.CmdImmediateBegin with
    | none =>
      refine ⟨[Event.SDL_Vulkan_CreateSurface w.swapchain.m_sdl_window] ++
          (created_present_mode p w.swapchain.m_present_mode).2,
        [Event.CmdImmediateBegin] ++
          image_view_events (p.vulkan_format (created_format w.swapchain))
            (created_rt p w.swapchain) w.swapchain.m_buffer_count ++
          semaphore_events w.swapchain.m_buffer_count, ?_⟩
      simp [created_events, hcmd]
    | some cmd_list =>
      refine ⟨[Event.SDL_Vulkan_CreateSurface w.swapchain.m_sdl_window] ++
          (created_present_mode p w.swapchain.m_present_mode).2,
        [Event.CmdImmediateBegin] ++
          (transition_events cmd_list (created_rt p w.swapchain) w.swapchain.m_buffer_count ++
            [Event.CmdImmediateSubmit cmd_list]) ++
          image_view_events (p.vulkan_format (created_format w.swapchain))
            (created_rt p w.swapchain) w.swapchain.m_buffer_count ++
          semaphore_events w.swapchain.m_buffer_count, ?_⟩
      simp [created_events, hcmd]

/-- Witness of C27, amended: the construction-time `Create` of an SDR swapchain
on the demonstration platform. -/
theorem Create_always_sets_hdr_metadata_witness :
    demo_unbuilt_world.swapchain.m_format = demo_platform.format_sdr ∧
      (new_events demo_unbuilt_world (Create demo_platform demo_unbuilt_world)).countP
        is_hdr_metadata = 1 :=
  ⟨rfl, (Create_always_sets_hdr_metadata demo_platform demo_unbuilt_world
    demo_platform_ready).2.1⟩
/-! ## Theorems: what `Present` leaves alone -/

/-- The outcome of `Present` when `m_image_index` addresses no recorded
layout. -/
theorem Present_of_no_layout (w : World)
    (h : w.swapchain.m_layouts[w.swapchain.m_image_index]? = none) :
    Present w = ⟨w, some Fault.out_of_bounds⟩ := by
  simp [Present, h]

/-- The outcome of `Present` when its precondition holds and `m_buffer_index`
addresses no semaphore slot. -/
theorem Present_of_no_slot (w : World)
    (hpre : w.swapchain.m_layouts[w.swapchain.m_image_index]? =
      some RHI_Image_Layout.Present_Source)
    (hslot : w.swapchain.m_image_acquired_semaphore[w.swapchain.m_buffer_index]? = none) :
    Present w =
      ⟨{ w with
          swapchain := { w.swapchain with
            m_wait_semaphores :=
              if w.cmd_list.m_swapchain_id = w.swapchain.m_object_id then
                [some w.cmd_list.m_rendering_complete_semaphore.m_rhi_resource]
              else [] },
          cmd_list :=
            if w.cmd_list.m_swapchain_id = w.swapchain.m_object_id then
              { w.cmd_list with m_rendering_complete_semaphore :=
                  { w.cmd_list.m_rendering_complete_semaphore with has_been_waited_for := true } }
            else w.cmd_list },
        some Fault.out_of_bounds⟩ := by
  unfold Present
  simp only [hpre, hslot, SP_ASSERT, beq_self_eq_true, if_true]
  by_cases hid : w.cmd_list.m_swapchain_id = w.swapchain.m_object_id <;> simp [hid]

/-- The command list `Present` leaves behind differs from the one it found in
the flag of the rendering-complete semaphore at most. -/
theorem Present_cmd_list (cmd : RHI_CommandList) (c : Prop) [Decidable c] :
    ∃ flag, (if c then
        ({ cmd with m_rendering_complete_semaphore :=
            { cmd.m_rendering_complete_semaphore with has_been_waited_for := true } } :
          RHI_CommandList)
      else cmd) =
      { cmd with m_rendering_complete_semaphore :=
          { cmd.m_rendering_complete_semaphore with has_been_waited_for := flag } } := by
  by_cases h : c
  · exact ⟨true, by simp [h]⟩
  · exact ⟨cmd.m_rendering_complete_semaphore.has_been_waited_for, by simp [h]⟩

/-- C29: whatever the world and however the call ends, the swapchain `Present`
leaves behind is the one it found but for `m_wait_semaphores` (so
`m_image_index`, `m_buffer_index`, every recorded layout, width, height, format,
present mode and every acquire-semaphore slot are unchanged), and the command
list is the one it found but for the flag `has_been_waited_for` of its
rendering-complete semaphore; `GetLayout` answers after the call what it
answered before, which is `Present_Source` whenever `Present` returned. -/
theorem Present_frame (w : World) :
    (∃ wait_semaphores, (Present w).world.swapchain =
        { w.swapchain with m_wait_semaphores := wait_semaphores }) ∧
      (∃ flag, (Present w).world.cmd_list =
        { w.cmd_list with m_rendering_complete_semaphore :=
            { w.cmd_list.m_rendering_complete_semaphore with has_been_waited_for := flag } }) ∧
      GetLayout (Present w).world.swapchain = GetLayout w.swapchain ∧
      ((Present w).fault = none →
        GetLayout (Present w).world.swapchain = some RHI_Image_Layout.Present_Source) := by
  cases hlayout : w.swapchain.m_layouts[w.swapchain.m_image_index]? with
  | none =>
    rw [Present_of_no_layout w hlayout]
    exact ⟨⟨w.swapchain.m_wait_semaphores, rfl⟩,
      ⟨w.cmd_list.m_rendering_complete_semaphore.has_been_waited_for, rfl⟩, rfl,
      fun h => Option.noConfusion h⟩
  | some layout =>
    by_cases hsrc : layout = RHI_Image_Layout.Present_Source
    · subst hsrc
      cases hslot : w.swapchain.m_image_acquired_semaphore[w.swapchain.m_buffer_index]? with
      | none =>
        rw [Present_of_no_slot w hlayout hslot]
        exact ⟨⟨_, rfl⟩, Present_cmd_list _ _, rfl, fun h => Option.noConfusion h⟩
      | some slot =>
        rw [Present_of_precondition w slot hlayout hslot]
        exact ⟨⟨_, rfl⟩, Present_cmd_list _ _, rfl, fun _ => hlayout⟩
    · rw [Present_of_other_layout w layout hlayout hsrc]
      exact ⟨⟨w.swapchain.m_wait_semaphores, rfl⟩,
        ⟨w.cmd_list.m_rendering_complete_semaphore.has_been_waited_for, rfl⟩, rfl,
        fun h => Option.noConfusion h⟩

/-! ## Lemmas: what `Create` keeps, however it ends -/

theorem Create_untouched_refl (w : World) : Create_untouched w w :=
  ⟨⟨[], (List.append_nil _).symm⟩, rfl, rfl, rfl⟩

/-- One more step that adds events and keeps the three members. -/
theorem Create_untouched_step {w0 w1 : World} (h : Create_untouched w0 w1) (w2 : World)
    (events : List Event) (htrace : w2.trace = w1.trace ++ events)
    (hcount : w2.swapchain.m_buffer_count = w1.swapchain.m_buffer_count)
    (hindex : w2.swapchain.m_buffer_index = w1.swapchain.m_buffer_index)
    (hsem : w2.swapchain.m_image_acquired_semaphore = w1.swapchain.m_image_acquired_semaphore) :
    Create_untouched w0 w2 := by
  obtain ⟨before, hbefore⟩ := h.trace
  exact ⟨⟨before ++ events, by rw [htrace, hbefore, List.append_assoc]⟩,
    hcount.trans h.buffer_count, hindex.trans h.buffer_index, hsem.trans h.semaphores⟩

/-- One more step that adds no event and keeps the three members. -/
theorem Create_untouched_same {w0 w1 : World} (h : Create_untouched w0 w1) (w2 : World)
    (htrace : w2.trace = w1.trace)
    (hcount : w2.swapchain.m_buffer_count = w1.swapchain.m_buffer_count)
    (hindex : w2.swapchain.m_buffer_index = w1.swapchain.m_buffer_index)
    (hsem : w2.swapchain.m_image_acquired_semaphore = w1.swapchain.m_image_acquired_semaphore) :
    Create_untouched w0 w2 :=
  Create_untouched_step h w2 [] (by rw [htrace, List.append_nil]) hcount hindex hsem

theorem Create_untouched_emit {w0 w1 : World} (h : Create_untouched w0 w1) (e : Event) :
    Create_untouched w0 (emit e w1) :=
  Create_untouched_step h _ [e] rfl rfl rfl rfl

theorem Create_untouched_append {w0 w1 : World} (h : Create_untouched w0 w1)
    (events : List Event) : Create_untouched w0 { w1 with trace := w1.trace ++ events } :=
  Create_untouched_step h _ events rfl rfl rfl rfl

theorem Create_post_of_stopped (p : Platform) {w0 w : World} (f : Fault)
    (h : Create_untouched w0 w) : Create_post p w0 ⟨w, some f⟩ :=
  ⟨h.trace, h.buffer_count, h.buffer_index, fun hf => Option.noConfusion hf⟩

theorem Create_post_and_then (p : Platform) {w0 : World} (o : Outcome)
    (next : World → Outcome) (h : Create_untouched w0 o.world)
    (hnext : ∀ w1, Create_untouched w0 w1 → Create_post p w0 (next w1)) :
    Create_post p w0 (o.and_then next) := by
  obtain ⟨w, f⟩ := o
  cases f with
  | none => exact hnext w h
  | some f => exact Create_post_of_stopped p f h

/-- A loop whose body keeps a property of the world keeps it, however the loop
ends. -/
theorem for_each_index_keeps (body : Nat → World → Outcome) (keeps : World → Prop)
    (hbody : ∀ i w, keeps w → keeps (body i w).world) :
    ∀ (l : List Nat) (w : World), keeps w → keeps (for_each_index body l w).world := by
  intro l
  induction l with
  | nil => intro w h; exact h
  | cons i rest ih =>
    intro w h
    have hb := hbody i w h
    simp only [for_each_index]
    generalize body i w = o at hb
    obtain ⟨w1, f1⟩ := o
    cases f1 with
    | none => exact ih w1 hb
    | some f => exact hb

theorem Create_transition_untouched (cmd_list : Nat) (w0 : World) (i : Nat) (w : World)
    (h : Create_untouched w0 w) : Create_untouched w0 (Create_transition cmd_list i w).world := by
  unfold Create_transition
  split
  · exact h
  · dsimp only
    split
    · exact Create_untouched_same (Create_untouched_emit h _) _ rfl rfl rfl rfl
    · exact Create_untouched_emit h _

theorem Create_image_view_untouched (p : Platform) (w0 : World) (i : Nat) (w : World)
    (h : Create_untouched w0 w) : Create_untouched w0 (Create_image_view p i w).world := by
  unfold Create_image_view
  split
  · exact h
  · dsimp only
    split
    · cases hview : (p.vkCreateImageView i == VK_SUCCESS)
      · exact Create_untouched_emit (Create_untouched_emit h _) _
      · exact Create_untouched_same (Create_untouched_emit (Create_untouched_emit h _) _) _
          rfl rfl rfl rfl
    · exact Create_untouched_emit h _

/-- A sequence that returned had its first part return. -/
theorem and_then_returned_left (o : Outcome) (next : World → Outcome)
    (h : (o.and_then next).fault = none) : o.fault = none := by
  obtain ⟨w, f⟩ := o
  cases f with
  | none => rfl
  | some f => exact h

/-- A semaphore loop of `Create` that returned had room for its semaphores. -/
theorem Create_semaphore_loop_returned (p : Platform) (w : World) (n : Nat)
    (h : (for_each_index (Create_semaphore p) (List.range n) w).fault = none) :
    n ≤ w.swapchain.m_image_acquired_semaphore.length := by
  induction n with
  | zero => exact Nat.zero_le _
  | succ n ih =>
    rw [List.range_succ, for_each_index_append] at h
    have hn := ih (and_then_returned_left _ _ h)
    rw [Create_semaphore_loop p w n hn, and_then_returned] at h
    have hlen := overwrite_length w.swapchain.m_image_acquired_semaphore n
      (fun i => some (⟨p.semaphore i, false⟩ : RHI_SyncPrimitive)) hn
    by_contra hlt
    simp only [for_each_index, Create_semaphore, emit, hlen] at h
    rw [if_neg (by omega)] at h
    exact Option.noConfusion h

theorem Create_semaphore_loop_post (p : Platform) (w0 w : World) (n : Nat)
    (h : Create_untouched w0 w) (hn : n = w.swapchain.m_buffer_count) :
    Create_post p w0 (for_each_index (Create_semaphore p) (List.range n) w) := by
  subst hn
  have hkeeps := for_each_index_keeps (Create_semaphore p)
    (fun w1 => (∃ events, w1.trace = w0.trace ++ events) ∧
      w1.swapchain.m_buffer_count = w0.swapchain.m_buffer_count ∧
      w1.swapchain.m_buffer_index = w0.swapchain.m_buffer_index)
    (fun i w1 h1 => by
      obtain ⟨⟨events, he⟩, hc, hi⟩ := h1
      unfold Create_semaphore
      dsimp only
      split
      · exact ⟨⟨events ++ [Event.make_shared_RHI_SyncPrimitive i], by
          simp [emit, he]⟩, hc, hi⟩
      · exact ⟨⟨events ++ [Event.make_shared_RHI_SyncPrimitive i], by
          simp [emit, he]⟩, hc, hi⟩)
    (List.range w.swapchain.m_buffer_count) w ⟨h.trace, h.buffer_count, h.buffer_index⟩
  refine ⟨hkeeps.1, hkeeps.2.1, hkeeps.2.2, ?_⟩
  intro hf
  have hroom := Create_semaphore_loop_returned p w _ hf
  rw [Create_semaphore_loop p w _ hroom]
  rw [h.semaphores, h.buffer_count] at hroom
  refine ⟨hroom, ?_⟩
  show overwrite w.swapchain.m_image_acquired_semaphore w.swapchain.m_buffer_count _ = _
  rw [h.semaphores, h.buffer_count]

/-- However `Create` ends, it has only added to the trace and has kept the
buffer count and the buffer index; when it returned, the first
`m_buffer_count` semaphore slots hold new semaphores. -/
theorem Create_post_holds (p : Platform) (w : World) : Create_post p w (Create p w) := by
  unfold Create
  refine Create_post_and_then p _ _ (Create_untouched_refl w) (fun w1 h1 => ?_)
  have h1 := Create_untouched_emit h1 (Event.SDL_Vulkan_CreateSurface w1.swapchain.m_sdl_window)
  dsimp only
  split
  · exact Create_post_of_stopped p Fault.assertion_failed h1
  refine Create_post_and_then p _ _ h1 (fun w2 h2 => ?_)
  refine Create_post_and_then p _ _ h2 (fun w3 h3 => ?_)
  split
  · exact Create_post_of_stopped p _ h3
  refine Create_post_and_then p _ _ (Create_untouched_same h3 _ rfl rfl rfl rfl)
    (fun w4 h4 => ?_)
  have h4 := Create_untouched_same h4
    { w4 with swapchain := { w4.swapchain with
      m_width := clamp w4.swapchain.m_width (get_surface_capabilities p).minImageExtent.width
        (get_surface_capabilities p).maxImageExtent.width,
      m_height := clamp w4.swapchain.m_height (get_surface_capabilities p).minImageExtent.height
        (get_surface_capabilities p).maxImageExtent.height } } rfl rfl rfl rfl
  split
  · exact Create_post_of_stopped p _ h4
  split
  · exact Create_post_of_stopped p _ h4
  rename_i presentMode logged hmode
  refine Create_post_and_then p _ _
    (Create_untouched_emit (Create_untouched_append h4 logged) _)
    (fun w5 h5 => ?_)
  refine Create_post_and_then p _ _ ?_ (fun w6 h6 => ?_)
  · unfold set_hdr_metadata
    cases p.pfnVkSetHdrMetadataEXT
    · exact h5
    · exact Create_untouched_emit h5 _
  refine Create_post_and_then p _ _ h6 (fun w7 h7 => ?_)
  split
  · exact Create_post_of_stopped p _ h7
  refine Create_post_and_then p _ _ (Create_untouched_same h7 _ rfl rfl rfl rfl)
    (fun w8 h8 => ?_)
  have h8 := Create_untouched_emit h8 Event.CmdImmediateBegin
  refine Create_post_and_then p _ _ ?_ (fun w9 h9 => ?_)
  · split
    · exact h8
    · rename_i cmd_list hcmd
      have hloop := for_each_index_keeps (Create_transition cmd_list) (Create_untouched w)
        (Create_transition_untouched cmd_list w)
        (List.range (emit Event.CmdImmediateBegin w8).swapchain.m_buffer_count) _ h8
      generalize for_each_index (Create_transition cmd_list)
        (List.range (emit Event.CmdImmediateBegin w8).swapchain.m_buffer_count)
        (emit Event.CmdImmediateBegin w8) = o at hloop
      obtain ⟨wl, fl⟩ := o
      cases fl with
      | none => exact Create_untouched_emit hloop _
      | some f => exact hloop
  refine Create_post_and_then p _ _
    (for_each_index_keeps (Create_image_view p) (Create_untouched w)
      (Create_image_view_untouched p w) _ _ h9) (fun w10 h10 => ?_)
  exact Create_semaphore_loop_post p w _ _ (Create_untouched_same h10 _ rfl rfl rfl rfl) rfl

/-! ## Lemmas: the calls that destroy and create again -/

/-- The call `Resize` with a valid resolution: a `Destroy`, a `Create`, a log
entry. -/
theorem Resize_valid (p : Platform) (w : World) (width height : Nat)
    (hvalid : p.IsValidResolution width height = true) :
    Resize p width height w =
      ((Destroy { w with swapchain := { w.swapchain with
          m_width := width, m_height := height } }).and_then (Create p)).and_then
        fun w => ⟨emit Event.SP_LOG_INFO w, none⟩ := by
  unfold Resize
  rw [hvalid, assert_that_holds, and_then_returned, and_then_assoc]

/-- The call `Resize` with a resolution that is not valid. -/
theorem Resize_invalid (p : Platform) (w : World) (width height : Nat)
    (hvalid : p.IsValidResolution width height = false) :
    Resize p width height w = ⟨w, some Fault.assertion_failed⟩ := by
  unfold Resize
  rw [hvalid, assert_that_fails, and_then_stopped]

/-- The call `SetVsync` when the present mode does not match. -/
theorem SetVsync_differs (p : Platform) (w : World) (enabled : Bool)
    (hdiff : GetVsync w.swapchain ≠ enabled) :
    SetVsync p enabled w =
      ((Destroy { w with swapchain := { w.swapchain with
          m_present_mode :=
            if enabled then RHI_Present_Mode.Fifo else RHI_Present_Mode.Immediate } }).and_then
        (Create p)).and_then
        fun w => ⟨emit Event.SP_LOG_INFO (emit (Event.Timer_OnVsyncToggled enabled) w), none⟩ := by
  have hcond : (decide (w.swapchain.m_present_mode = RHI_Present_Mode.Fifo) != enabled) = true := by
    unfold GetVsync at hdiff
    cases h1 : decide (w.swapchain.m_present_mode = RHI_Present_Mode.Fifo) <;>
      cases h2 : enabled <;> simp_all
  unfold SetVsync
  rw [if_pos hcond, and_then_assoc]

/-- The call `SetHdr` when the format asked for is not the one held, and the
display is capable of HDR if HDR is asked for. -/
theorem SetHdr_differs (p : Platform) (w : World) (enabled : Bool)
    (hdisplay : enabled = true → p.Display_GetHdr = true)
    (hdiff : (if enabled then p.format_hdr else p.format_sdr) ≠ w.swapchain.m_format) :
    SetHdr p enabled w =
      (Destroy { w with swapchain := { w.swapchain with
          m_format := if enabled then p.format_hdr else p.format_sdr } }).and_then
        (Create p) := by
  unfold SetHdr
  cases enabled with
  | false =>
    simp only [Bool.false_eq_true, if_false] at hdiff ⊢
    rw [and_then_returned]
    simp only [ne_eq, hdiff, not_false_eq_true, if_true]
  | true =>
    simp only [if_true] at hdiff ⊢
    rw [hdisplay rfl, assert_that_holds, and_then_returned]
    simp only [ne_eq, hdiff, not_false_eq_true, if_true]

/-- The call `SetHdr(true)` on a display that is not capable of HDR. -/
theorem SetHdr_no_display (p : Platform) (w : World) (hdisplay : p.Display_GetHdr = false) :
    SetHdr p true w = ⟨w, some Fault.assertion_failed⟩ := by
  unfold SetHdr
  simp only [if_true]
  rw [hdisplay, assert_that_fails, and_then_stopped]

/-- Whatever the world, `Destroy` followed by `Create` leaves a trace that
starts with the trace so far and goes on with the events of `Destroy`. -/
theorem Destroy_Create_trace (p : Platform) (w : World) :
    ∃ rest, ((Destroy w).and_then (Create p)).world.trace =
      w.trace ++ destroyed_events w.swapchain ++ rest := by
  rw [Destroy_returns, and_then_returned]
  obtain ⟨rest, h⟩ := (Create_post_holds p _).trace
  exact ⟨rest, h⟩

/-- A last step that only adds to the trace, after a sequence whose trace is
known to start in a given way. -/
theorem and_then_trace (o : Outcome) (next : World → Outcome) (start : List Event)
    (ho : ∃ rest, o.world.trace = start ++ rest)
    (hnext : ∀ w, ∃ rest, (next w).world.trace = w.trace ++ rest) :
    ∃ rest, (o.and_then next).world.trace = start ++ rest := by
  obtain ⟨w, f⟩ := o
  cases f with
  | some f => exact ho
  | none =>
    obtain ⟨rest, h⟩ := ho
    obtain ⟨more, hm⟩ := hnext w
    refine ⟨rest ++ more, ?_⟩
    show (next w).world.trace = _
    rw [hm]
    simp only at h
    rw [h, List.append_assoc]

/-- When `Destroy` followed by `Create` returns on a swapchain of at least two
buffers, the buffer index is 0 and the first `m_buffer_count` semaphore slots
hold semaphores. -/
theorem Destroy_Create_slots (p : Platform) (w : World)
    (hcount : 2 ≤ w.swapchain.m_buffer_count)
    (h : ((Destroy w).and_then (Create p)).fault = none) :
    Slots_ready ((Destroy w).and_then (Create p)).world.swapchain := by
  rw [Destroy_returns, and_then_returned] at h ⊢
  have hpost := Create_post_holds p
    { swapchain := { w.swapchain with
        m_rhi_rtv := List.replicate w.swapchain.m_rhi_rtv.length none,
        m_image_acquired_semaphore :=
          List.replicate w.swapchain.m_image_acquired_semaphore.length none,
        m_rhi_swapchain := none, m_rhi_surface := none,
        m_image_index := 0, m_buffer_index := 0 },
      cmd_list := w.cmd_list,
      trace := w.trace ++ destroyed_events w.swapchain }
  have hsem := (hpost.semaphores h).2
  have hc := hpost.buffer_count
  have hi := hpost.buffer_index
  simp only at hsem hc hi
  refine ⟨by rw [hc]; exact hcount, by rw [hc, hi]; omega, ?_⟩
  intro i hlt
  rw [hc] at hlt
  rw [hsem, overwrite_getElem?_lt _ _ _ _ hlt]
  exact ⟨_, rfl⟩

/-! ## Theorems: the order of effects in `Destroy` -/

/-- Among the events of `Destroy`, whatever takes the swapchain apart comes
after the wait, which is the first of them. -/
theorem destroyed_events_wait_first (sc : RHI_SwapChain) (before after : List Event)
    (e : Event) (h : destroyed_events sc = before ++ e :: after)
    (hkind : is_teardown e = true) : before.head? = some Event.QueueWaitAll := by
  cases before with
  | nil =>
    simp only [destroyed_events, List.singleton_append, List.cons_append, List.nil_append,
      List.cons.injEq] at h
    rw [← h.1] at hkind
    exact absurd hkind (by decide)
  | cons b rest =>
    simp only [destroyed_events, List.singleton_append, List.cons_append,
      List.cons.injEq] at h
    rw [← h.1]
    rfl

/-- C24: the events of `Destroy`, in order, are `destroyed_events`; the first of
them is the wait for all queues, and every image view queued for deletion, the
release of the acquire semaphores, the destruction of the swapchain and that of
the surface stand after it.  The destructor makes exactly these calls, and
`Resize` (with a valid resolution), `SetHdr` and `SetVsync` (when they do not
return at once) start with exactly these calls, whatever happens in the
`Create` that follows. -/
theorem Destroy_waits_first (w : World) :
    new_events w (Destroy w) = destroyed_events w.swapchain ∧
      (destroyed_events w.swapchain).head? = some Event.QueueWaitAll ∧
      (∀ before e after, destroyed_events w.swapchain = before ++ e :: after →
        is_teardown e = true → before.head? = some Event.QueueWaitAll) ∧
      (∃ views : List Nat, destroyed_events w.swapchain =
        [Event.QueueWaitAll] ++ views.map Event.DeletionQueueAdd ++
          [Event.m_image_acquired_semaphore_fill
              (released_semaphores w.swapchain.m_image_acquired_semaphore),
            Event.vkDestroySwapchainKHR w.swapchain.m_rhi_swapchain,
            Event.vkDestroySurfaceKHR w.swapchain.m_rhi_surface]) ∧
      new_events w (RHI_SwapChain_destructor w) = destroyed_events w.swapchain ∧
      (∀ p width height, p.IsValidResolution width height = true →
        ∃ rest, new_events w (Resize p width height w) =
          destroyed_events w.swapchain ++ rest) ∧
      (∀ p enabled, (enabled = true → p.Display_GetHdr = true) →
        (if enabled then p.format_hdr else p.format_sdr) ≠ w.swapchain.m_format →
        ∃ rest, new_events w (SetHdr p enabled w) = destroyed_events w.swapchain ++ rest) ∧
      (∀ p enabled, GetVsync w.swapchain ≠ enabled →
        ∃ rest, new_events w (SetVsync p enabled w) = destroyed_events w.swapchain ++ rest) := by
  have hdestroy : new_events w (Destroy w) = destroyed_events w.swapchain := by
    rw [Destroy_returns]
    exact new_events_of_append w _ _ rfl
  refine ⟨hdestroy, rfl, fun before e after => destroyed_events_wait_first _ before after e,
    ⟨w.swapchain.m_rhi_rtv.filterMap id, ?_⟩, hdestroy, ?_, ?_, ?_⟩
  · rw [destroyed_events, Destroy_image_views_events]
  · intro p width height hvalid
    rw [Resize_valid p w width height hvalid]
    obtain ⟨rest, h⟩ := and_then_trace _ (fun w => ⟨emit Event.SP_LOG_INFO w, none⟩)
      (w.trace ++ destroyed_events w.swapchain)
      (Destroy_Create_trace p { w with swapchain := { w.swapchain with
        m_width := width, m_height := height } })
      (fun w1 => ⟨[Event.SP_LOG_INFO], rfl⟩)
    exact ⟨rest, new_events_of_append w _ _ (by rw [h, List.append_assoc])⟩
  · intro p enabled hdisplay hdiff
    rw [SetHdr_differs p w enabled hdisplay hdiff]
    obtain ⟨rest, h⟩ := Destroy_Create_trace p { w with swapchain := { w.swapchain with
      m_format := if enabled then p.format_hdr else p.format_sdr } }
    exact ⟨rest, new_events_of_append w _ _ (by rw [h, List.append_assoc]; rfl)⟩
  · intro p enabled hdiff
    rw [SetVsync_differs p w enabled hdiff]
    obtain ⟨rest, h⟩ := and_then_trace _
      (fun w => ⟨emit Event.SP_LOG_INFO (emit (Event.Timer_OnVsyncToggled enabled) w), none⟩)
      (w.trace ++ destroyed_events w.swapchain)
      (Destroy_Create_trace p { w with swapchain := { w.swapchain with
        m_present_mode :=
          if enabled then RHI_Present_Mode.Fifo else RHI_Present_Mode.Immediate } })
      (fun w1 => ⟨[Event.Timer_OnVsyncToggled enabled, Event.SP_LOG_INFO], by
        simp [emit]⟩)
    exact ⟨rest, new_events_of_append w _ _ (by rw [h, List.append_assoc])⟩

/-! ## Lemmas: what the calls keep of the swapchain -/

/-- The call `AcquireNextImage` on a swapchain without buffers. -/
theorem AcquireNextImage_of_no_buffer (driver : Nat → VkAcquireAnswer) (w : World)
    (hcount : w.swapchain.m_buffer_count = 0) :
    AcquireNextImage driver w = ⟨w, some Fault.division_by_zero⟩ := by
  simp [AcquireNextImage, hcount]

/-- The call `AcquireNextImage` when the advanced buffer index addresses no
semaphore slot. -/
theorem AcquireNextImage_of_no_slot (driver : Nat → VkAcquireAnswer) (w : World)
    (hcount : w.swapchain.m_buffer_count ≠ 0)
    (hslot : w.swapchain.m_image_acquired_semaphore[
      u32 (w.swapchain.m_buffer_index + 1) % w.swapchain.m_buffer_count]? = none) :
    AcquireNextImage driver w =
      ⟨{ w with swapchain := { w.swapchain with
          m_buffer_index := u32 (w.swapchain.m_buffer_index + 1) % w.swapchain.m_buffer_count } },
        some Fault.out_of_bounds⟩ := by
  simp [AcquireNextImage, hcount, hslot]

/-- Whatever the driver answers and however the call ends, `AcquireNextImage`
on a swapchain with buffers advances the buffer index and, the image index
apart, leaves the swapchain as it was. -/
theorem AcquireNextImage_swapchain (driver : Nat → VkAcquireAnswer) (w : World)
    (hcount : w.swapchain.m_buffer_count ≠ 0) :
    ∃ image_index, (AcquireNextImage driver w).world.swapchain =
      { w.swapchain with
        m_buffer_index := u32 (w.swapchain.m_buffer_index + 1) % w.swapchain.m_buffer_count,
        m_image_index := image_index } := by
  cases hslot : w.swapchain.m_image_acquired_semaphore[
      u32 (w.swapchain.m_buffer_index + 1) % w.swapchain.m_buffer_count]? with
  | none =>
    rw [AcquireNextImage_of_no_slot driver w hcount hslot]
    exact ⟨w.swapchain.m_image_index, rfl⟩
  | some slot =>
    cases slot with
    | none =>
      rw [AcquireNextImage_enter driver w none hcount hslot, acquire_loop_null]
      exact ⟨w.swapchain.m_image_index, rfl⟩
    | some sem =>
      rcases driver_shape driver retry_max with
        ⟨k, image_index, hk, hnr, hs⟩ | ⟨k, code, hk, hnr, hs⟩ | hnr
      · rw [AcquireNextImage_success_at driver w sem k image_index hcount hslot hk hnr hs]
        exact ⟨image_index, rfl⟩
      · rw [AcquireNextImage_other_at driver w sem k code hcount hslot hk hnr hs]
        exact ⟨w.swapchain.m_image_index, rfl⟩
      · rw [AcquireNextImage_exhausted driver w sem hcount hslot hnr]
        exact ⟨w.swapchain.m_image_index, rfl⟩

/-- Whatever the world and however the call ends, `Present` changes
`m_wait_semaphores` alone in the swapchain. -/
theorem Present_swapchain (w : World) :
    ∃ wait_semaphores, (Present w).world.swapchain =
      { w.swapchain with m_wait_semaphores := wait_semaphores } := by
  cases hlayout : w.swapchain.m_layouts[w.swapchain.m_image_index]? with
  | none =>
    rw [Present_of_no_layout w hlayout]
    exact ⟨w.swapchain.m_wait_semaphores, rfl⟩
  | some layout =>
    by_cases hsrc : layout = RHI_Image_Layout.Present_Source
    · subst hsrc
      cases hslot : w.swapchain.m_image_acquired_semaphore[w.swapchain.m_buffer_index]? with
      | none =>
        rw [Present_of_no_slot w hlayout hslot]
        exact ⟨_, rfl⟩
      | some slot =>
        rw [Present_of_precondition w slot hlayout hslot]
        exact ⟨_, rfl⟩
    · rw [Present_of_other_layout w layout hlayout hsrc]
      exact ⟨w.swapchain.m_wait_semaphores, rfl⟩

/-- The layouts of the world `recreated`. -/
theorem recreated_layouts (p : Platform) (w : World) :
    (recreated p w).swapchain.m_layouts = created_layouts p w.swapchain := by
  unfold recreated created created_layouts created_swapchain
  rw [Destroy_returns]

/-- The entries of `created_layouts`: `Attachment` below the buffer count when
there is a command list to record the transitions, the former entry from the
buffer count on. -/
theorem created_layouts_entries (p : Platform) (sc : RHI_SwapChain) :
    (∀ i, i < sc.m_buffer_count → p.CmdImmediateBegin.isSome = true →
        (created_layouts p sc)[i]? = some RHI_Image_Layout.Attachment) ∧
      (∀ i, sc.m_buffer_count ≤ i → (created_layouts p sc)[i]? = sc.m_layouts[i]?) ∧
      (p.CmdImmediateBegin = none → created_layouts p sc = sc.m_layouts) := by
  unfold created_layouts created_swapchain
  cases hcmd : p.CmdImmediateBegin with
  | none =>
    refine ⟨fun i _ h => ?_, fun i _ => rfl, fun _ => rfl⟩
    simp at h
  | some cmd_list =>
    refine ⟨fun i hi _ => ?_, fun i hi => ?_, fun h => ?_⟩
    · exact overwrite_getElem?_lt _ _ _ _ hi
    · exact overwrite_getElem?_ge _ _ _ _ hi
    · exact Option.noConfusion h

/-! ## Theorems: which calls change the recorded layouts -/

/-- Counterexample to C23: on the demonstration world image 1 is recorded as
`Present_Source`; after a `Resize` that returns it is recorded as
`Attachment`, and `SetLayout` was not called. -/
theorem Resize_changes_recorded_layout :
    (Resize demo_platform 800 600 demo_world).fault = none ∧
      demo_world.swapchain.m_layouts[1]? = some RHI_Image_Layout.Present_Source ∧
      (Resize demo_platform 800 600 demo_world).world.swapchain.m_layouts[1]? =
        some RHI_Image_Layout.Attachment := by
  decide

/-- C23, amended: `AcquireNextImage`, `Present` and `Destroy` leave the layout
recorded for every image as it was, however they end, and so do `SetHdr` and
`SetVsync` when the format or the mode asked for is the one held.  `Resize`
with a valid resolution, and `SetHdr` and `SetVsync` when they do not return at
once, go through `Create`: on a swapchain and platform ready for `Create` they
leave `created_layouts`, that is `Attachment` for every image below
`m_buffer_count` when the platform hands out a command list for the
transitions, and the former layout for the other images. -/
theorem layouts_change_in_SetLayout_and_Create (w : World) :
    (∀ driver, (AcquireNextImage driver w).world.swapchain.m_layouts = w.swapchain.m_layouts) ∧
      (Present w).world.swapchain.m_layouts = w.swapchain.m_layouts ∧
      (Destroy w).world.swapchain.m_layouts = w.swapchain.m_layouts ∧
      (∀ p enabled, (if enabled then p.format_hdr else p.format_sdr) = w.swapchain.m_format →
        (SetHdr p enabled w).world.swapchain.m_layouts = w.swapchain.m_layouts) ∧
      (∀ p enabled, GetVsync w.swapchain = enabled →
        (SetVsync p enabled w).world.swapchain.m_layouts = w.swapchain.m_layouts) ∧
      (∀ p width height, p.IsValidResolution width height = true → Create_ready p w →
        (Resize p width height w).world.swapchain.m_layouts =
          created_layouts p w.swapchain) ∧
      (∀ p enabled, (enabled = true → p.Display_GetHdr = true) →
        (if enabled then p.format_hdr else p.format_sdr) ≠ w.swapchain.m_format →
        Create_ready p { w with swapchain := { w.swapchain with
          m_format := if enabled then p.format_hdr else p.format_sdr } } →
        (SetHdr p enabled w).world.swapchain.m_layouts = created_layouts p w.swapchain) ∧
      (∀ p enabled, GetVsync w.swapchain ≠ enabled → Create_ready p w →
        (SetVsync p enabled w).world.swapchain.m_layouts = created_layouts p w.swapchain) ∧
      ∀ p : Platform,
        (∀ i, i < w.swapchain.m_buffer_count → p.CmdImmediateBegin.isSome = true →
          (created_layouts p w.swapchain)[i]? = some RHI_Image_Layout.Attachment) ∧
        (∀ i, w.swapchain.m_buffer_count ≤ i →
          (created_layouts p w.swapchain)[i]? = w.swapchain.m_layouts[i]?) ∧
        (p.CmdImmediateBegin = none → created_layouts p w.swapchain = w.swapchain.m_layouts) := by
  refine ⟨?_, ?_, ?_, ?_, ?_, ?_, ?_, ?_, fun p => created_layouts_entries p w.swapchain⟩
  · intro driver
    by_cases hcount : w.swapchain.m_buffer_count = 0
    · rw [AcquireNextImage_of_no_buffer driver w hcount]
    · obtain ⟨image_index, h⟩ := AcquireNextImage_swapchain driver w hcount
      rw [h]
  · obtain ⟨wait_semaphores, h⟩ := Present_swapchain w
    rw [h]
  · rw [Destroy_returns]
  · intro p enabled hsame
    cases enabled with
    | false => rw [SetHdr_same p w false (fun h => Bool.noConfusion h) hsame]
    | true =>
      cases hdisplay : p.Display_GetHdr with
      | false => rw [SetHdr_no_display p w hdisplay]
      | true => rw [SetHdr_same p w true (fun _ => hdisplay) hsame]
  · intro p enabled hsame
    rw [SetVsync_same p w enabled hsame]
  · intro p width height hvalid hready
    rw [Resize_returns p w width height hvalid hready]
    exact recreated_layouts p _
  · intro p enabled hdisplay hdiff hready
    rw [SetHdr_differs p w enabled hdisplay hdiff,
      Destroy_Create_returns p _ (Create_ready_Destroy p _ _ hready rfl rfl rfl rfl rfl rfl rfl)]
    exact recreated_layouts p _
  · intro p enabled hdiff hready
    rw [SetVsync_returns p w enabled hdiff hready]
    exact recreated_layouts p _

/-- Witness of C23, amended: on the demonstration world, `Resize` leaves the
layouts of `Create`, image 1 among them. -/
theorem layouts_change_in_SetLayout_and_Create_witness :
    (Resize demo_platform 800 600 demo_world).world.swapchain.m_layouts =
        created_layouts demo_platform demo_world.swapchain ∧
      (created_layouts demo_platform demo_world.swapchain)[1]? =
        some RHI_Image_Layout.Attachment :=
  ⟨(layouts_change_in_SetLayout_and_Create demo_world).2.2.2.2.2.1 demo_platform 800 600
      (by decide) demo_world_ready,
    ((layouts_change_in_SetLayout_and_Create demo_world).2.2.2.2.2.2.2.2 demo_platform).1 1
      (by decide) (by decide)⟩

/-! ## Theorems: the buffer index and the acquire semaphores -/

/-- A construction that returns leaves the buffer index of the new object,
taken to be 0, below the buffer count, and a semaphore in each of the first
`m_buffer_count` slots. -/
theorem RHI_SwapChain_constructor_slots (p : Platform) (sdl_window : Option Nat)
    (width height : Nat) (present_mode : RHI_Present_Mode) (buffer_count : Nat) (hdr : Bool)
    (w0 : World) (hfresh : w0.swapchain.m_buffer_index = 0)
    (h : (RHI_SwapChain_constructor p sdl_window width height present_mode buffer_count hdr
      w0).fault = none) :
    Slots_ready (RHI_SwapChain_constructor p sdl_window width height present_mode buffer_count
      hdr w0).world.swapchain := by
  unfold RHI_SwapChain_constructor at h ⊢
  cases hvalid : p.IsValidResolution width height with
  | false =>
    rw [hvalid, assert_that_fails, and_then_stopped] at h
    exact Option.noConfusion h
  | true =>
    rw [hvalid, assert_that_holds, and_then_returned] at h
    rw [assert_that_holds, and_then_returned]
    cases hcount : decide (buffer_count ≥ 2) with
    | false =>
      rw [hcount, assert_that_fails, and_then_stopped] at h
      exact Option.noConfusion h
    | true =>
      rw [hcount, assert_that_holds, and_then_returned] at h
      rw [assert_that_holds, and_then_returned]
      have hcreate := and_then_returned_left _ _ h
      rw [and_then_of_returned _ _ hcreate]
      have hpost := Create_post_holds p
        { w0 with swapchain := { w0.swapchain with
          m_format := if hdr then p.format_hdr else p.format_sdr,
          m_buffer_count := buffer_count,
          m_width := width,
          m_height := height,
          m_sdl_window := sdl_window,
          m_present_mode := present_mode } }
      have hsem := (hpost.semaphores hcreate).2
      have hc := hpost.buffer_count
      have hi := hpost.buffer_index
      simp only at hsem hc hi
      have hge : 2 ≤ buffer_count := of_decide_eq_true hcount
      refine ⟨?_, ?_, ?_⟩
      · show 2 ≤ (Create p _).world.swapchain.m_buffer_count
        rw [hc]
        exact hge
      · show (Create p _).world.swapchain.m_buffer_index <
          (Create p _).world.swapchain.m_buffer_count
        rw [hc, hi, hfresh]
        omega
      · intro i hlt
        have hlt : i < (Create p _).world.swapchain.m_buffer_count := hlt
        rw [hc] at hlt
        show ∃ semaphore,
          (Create p _).world.swapchain.m_image_acquired_semaphore[i]? = some (some semaphore)
        rw [hsem, overwrite_getElem?_lt _ _ _ _ hlt]
        exact ⟨_, rfl⟩

/-- A swapchain that differs from one with ready slots in other members only
has ready slots. -/
theorem Slots_ready_of_same (sc sc1 : RHI_SwapChain) (h : Slots_ready sc)
    (hcount : sc1.m_buffer_count = sc.m_buffer_count)
    (hindex : sc1.m_buffer_index = sc.m_buffer_index)
    (hsem : sc1.m_image_acquired_semaphore = sc.m_image_acquired_semaphore) :
    Slots_ready sc1 :=
  ⟨by rw [hcount]; exact h.buffer_count, by rw [hcount, hindex]; exact h.buffer_index,
    by rw [hcount, hsem]; exact h.semaphores⟩

/-- A call that returns keeps the slots ready. -/
theorem run_call_slots (call : Call) (w : World) (hinv : Slots_ready w.swapchain)
    (hret : (run_call call w).fault = none) :
    Slots_ready (run_call call w).world.swapchain := by
  have hbc := hinv.buffer_count
  cases call with
  | AcquireNextImage driver =>
    obtain ⟨image_index, h⟩ := AcquireNextImage_swapchain driver w (by omega)
    show Slots_ready (AcquireNextImage driver w).world.swapchain
    rw [h]
    exact ⟨hinv.buffer_count, Nat.mod_lt _ (by omega), hinv.semaphores⟩
  | Present =>
    obtain ⟨wait_semaphores, h⟩ := Present_swapchain w
    show Slots_ready (Present w).world.swapchain
    rw [h]
    exact Slots_ready_of_same _ _ hinv rfl rfl rfl
  | SetLayout layout cmd_list =>
    obtain ⟨layouts, h, _⟩ := SetLayout_frame layout cmd_list w
    show Slots_ready (SetLayout layout cmd_list w).world.swapchain
    rw [h]
    exact Slots_ready_of_same _ _ hinv rfl rfl rfl
  | Resize p width height =>
    have hret : (Resize p width height w).fault = none := hret
    show Slots_ready (Resize p width height w).world.swapchain
    cases hvalid : p.IsValidResolution width height with
    | false =>
      rw [Resize_invalid p w width height hvalid] at hret
      exact Option.noConfusion hret
    | true =>
      rw [Resize_valid p w width height hvalid] at hret ⊢
      have hinner := and_then_returned_left _ _ hret
      rw [and_then_of_returned _ _ hinner]
      exact Destroy_Create_slots p _ hbc hinner
  | SetHdr p enabled =>
    have hret : (SetHdr p enabled w).fault = none := hret
    show Slots_ready (SetHdr p enabled w).world.swapchain
    have hdisplay : enabled = true → p.Display_GetHdr = true := by
      intro he
      subst he
      cases hd : p.Display_GetHdr with
      | true => rfl
      | false =>
        rw [SetHdr_no_display p w hd] at hret
        exact Option.noConfusion hret
    by_cases hsame : (if enabled then p.format_hdr else p.format_sdr) = w.swapchain.m_format
    · rw [SetHdr_same p w enabled hdisplay hsame]
      exact hinv
    · rw [SetHdr_differs p w enabled hdisplay hsame] at hret ⊢
      exact Destroy_Create_slots p _ hbc hret
  | SetVsync p enabled =>
    have hret : (SetVsync p enabled w).fault = none := hret
    show Slots_ready (SetVsync p enabled w).world.swapchain
    by_cases hsame : GetVsync w.swapchain = enabled
    · rw [SetVsync_same p w enabled hsame]
      exact hinv
    · rw [SetVsync_differs p w enabled hsame] at hret ⊢
      have hinner := and_then_returned_left _ _ hret
      rw [and_then_of_returned _ _ hinner]
      exact Destroy_Create_slots p _ hbc hinner

/-- A sequence of calls that returns keeps the slots ready. -/
theorem run_calls_slots (calls : List Call) :
    ∀ w : World, Slots_ready w.swapchain → (run_calls calls w).fault = none →
      Slots_ready (run_calls calls w).world.swapchain := by
  induction calls with
  | nil => intro w hinv _; exact hinv
  | cons call rest ih =>
    intro w hinv hret
    have hret : ((run_call call w).and_then (run_calls rest)).fault = none := hret
    show Slots_ready ((run_call call w).and_then (run_calls rest)).world.swapchain
    have hfirst := and_then_returned_left _ _ hret
    rw [and_then_of_returned _ _ hfirst] at hret ⊢
    exact ih _ (run_call_slots call w hinv hfirst) hret

/-- C28: a swapchain is constructed, the construction returns (so its buffer
count is at least 2), and the members of the new object start with the buffer
index 0; then any sequence of calls of `AcquireNextImage`, `Present`,
`SetLayout`, `Resize`, `SetHdr` and `SetVsync` is made, each with its own
arguments and its own answers of platform and driver, and all of them return.
In the state reached, the buffer index is below the buffer count and each of
the first `m_buffer_count` acquire-semaphore slots holds a semaphore that is
not null (`Slots_ready`): so do the slot at the buffer index, which `Present`
reads, and the slot at the advanced index, which `AcquireNextImage` reads. -/
theorem buffer_index_addresses_semaphore (p : Platform) (sdl_window : Option Nat)
    (width height : Nat) (present_mode : RHI_Present_Mode) (buffer_count : Nat) (hdr : Bool)
    (w0 : World) (calls : List Call)
    (hfresh : w0.swapchain.m_buffer_index = 0)
    (hconstructed : (RHI_SwapChain_constructor p sdl_window width height present_mode
      buffer_count hdr w0).fault = none)
    (hcalls : (run_calls calls (RHI_SwapChain_constructor p sdl_window width height
      present_mode buffer_count hdr w0).world).fault = none) :
    Slots_ready (run_calls calls (RHI_SwapChain_constructor p sdl_window width height
        present_mode buffer_count hdr w0).world).world.swapchain ∧
      (∃ semaphore,
        (run_calls calls (RHI_SwapChain_constructor p sdl_window width height present_mode
          buffer_count hdr w0).world).world.swapchain.m_image_acquired_semaphore[
            (run_calls calls (RHI_SwapChain_constructor p sdl_window width height present_mode
              buffer_count hdr w0).world).world.swapchain.m_buffer_index]? =
          some (some semaphore)) ∧
      ∃ semaphore,
        (run_calls calls (RHI_SwapChain_constructor p sdl_window width height present_mode
          buffer_count hdr w0).world).world.swapchain.m_image_acquired_semaphore[
            u32 ((run_calls calls (RHI_SwapChain_constructor p sdl_window width height
              present_mode buffer_count hdr w0).world).world.swapchain.m_buffer_index + 1) %
            (run_calls calls (RHI_SwapChain_constructor p sdl_window width height
              present_mode buffer_count hdr w0).world).world.swapchain.m_buffer_count]? =
          some (some semaphore) := by
  have hstart := RHI_SwapChain_constructor_slots p sdl_window width height present_mode
    buffer_count hdr w0 hfresh hconstructed
  have hend := run_calls_slots calls _ hstart hcalls
  have hbc := hend.buffer_count
  exact ⟨hend, hend.semaphores _ hend.buffer_index,
    hend.semaphores _ (Nat.mod_lt _ (by omega))⟩

/-- Witness of C28: a swapchain of two buffers is constructed on the
demonstration platform, then image 0 is moved to `Present_Source`, presented,
and the swapchain is resized. -/
theorem buffer_index_addresses_semaphore_witness :
    Slots_ready (run_calls
      [Call.SetLayout RHI_Image_Layout.Present_Source 9, Call.Present,
        Call.Resize demo_platform 1024 768]
      (RHI_SwapChain_constructor demo_platform (some 1) 800 600 RHI_Present_Mode.Fifo 2 false
        demo_fresh_world).world).world.swapchain :=
  (buffer_index_addresses_semaphore demo_platform (some 1) 800 600 RHI_Present_Mode.Fifo 2
    false demo_fresh_world
    [Call.SetLayout RHI_Image_Layout.Present_Source 9, Call.Present,
      Call.Resize demo_platform 1024 768] rfl (by decide) (by decide)).1

/-! ## Theorems: `Mesh::AddLod` and `Mesh::GetGeometry` -/

theorem u32_le (n : Nat) : u32 n ≤ n :=
  Nat.mod_le _ _

theorem u32_of_lt (n : Nat) (h : n < 2 ^ 32) : u32 n = n :=
  Nat.mod_eq_of_lt h

/-- The call `AddLod` on a sub-mesh that exists. -/
theorem AddLod_returns (vertices : List RHI_Vertex_PosTexNorTan) (indices : List Nat)
    (sub_mesh_index : Nat) (mesh : Mesh) (sub_mesh : SubMesh)
    (h : mesh.m_sub_meshes[sub_mesh_index]? = some sub_mesh) :
    AddLod vertices indices sub_mesh_index mesh =
      Except.ok
        { m_vertices := mesh.m_vertices ++ vertices
          m_indices := mesh.m_indices ++ indices
          m_sub_meshes := mesh.m_sub_meshes.set sub_mesh_index
            { lods := sub_mesh.lods ++
                [{ vertex_offset := u32 mesh.m_vertices.length
                   vertex_count := u32 vertices.length
                   index_offset := u32 mesh.m_indices.length
                   index_count := u32 indices.length
                   aabb := vertices.take (u32 vertices.length) }] } } := by
  have hlt : sub_mesh_index < mesh.m_sub_meshes.length := by
    by_contra hge
    rw [List.getElem?_eq_none (Nat.le_of_not_lt hge)] at h
    exact Option.noConfusion h
  simp [AddLod, SP_ASSERT, hlt, h]

/-- The call `AddLod` on a sub-mesh that does not exist. -/
theorem AddLod_of_no_sub_mesh (vertices : List RHI_Vertex_PosTexNorTan) (indices : List Nat)
    (sub_mesh_index : Nat) (mesh : Mesh)
    (h : mesh.m_sub_meshes[sub_mesh_index]? = none) :
    AddLod vertices indices sub_mesh_index mesh = Except.error Fault.assertion_failed := by
  have hge : ¬ sub_mesh_index < mesh.m_sub_meshes.length := by
    intro hlt
    rw [List.getElem?_eq_getElem hlt] at h
    exact Option.noConfusion h
  simp [AddLod, SP_ASSERT, hge]

/-- The call `GetGeometry` on a sub-mesh whose first LOD holds `v` and `i`. -/
theorem GetGeometry_of_recorded (mesh : Mesh) (s : Nat) (lod : MeshLod)
    (v : List RHI_Vertex_PosTexNorTan) (i : List Nat)
    (h : Geometry_recorded mesh s lod v i) (indices vertices : Bool)
    (hpointer : (indices || vertices) = true) :
    GetGeometry s indices vertices mesh =
      Except.ok (if indices then some i else none, if vertices then some v else none) := by
  obtain ⟨sub_mesh, hsub, hlod⟩ := h.first_lod
  have hic : (lod.index_count != 0) = true := by simpa using h.index_count
  have hvc : (lod.vertex_count != 0) = true := by simpa using h.vertex_count
  unfold GetGeometry GetSubMesh vector_of_range
  simp only [hpointer, SP_ASSERT, if_true, hsub, hlod, hic, hvc, h.vertices_within,
    h.indices_within, h.vertices, h.indices]
  cases indices <;> cases vertices <;> simp at hpointer ⊢

/-- What `AddLod` records on a sub-mesh without a LOD, when the buffers stay
below `2 ^ 32` entries. -/
theorem AddLod_records (mesh : Mesh) (s : Nat) (v : List RHI_Vertex_PosTexNorTan)
    (i : List Nat) (mesh1 : Mesh)
    (hs : ∃ sub_mesh, mesh.m_sub_meshes[s]? = some sub_mesh ∧ sub_mesh.lods = [])
    (hv : v ≠ []) (hi : i ≠ [])
    (hvsize : mesh.m_vertices.length + v.length < 2 ^ 32)
    (hisize : mesh.m_indices.length + i.length < 2 ^ 32)
    (h : AddLod v i s mesh = Except.ok mesh1) :
    Geometry_recorded mesh1 s
      { vertex_offset := mesh.m_vertices.length, vertex_count := v.length,
        index_offset := mesh.m_indices.length, index_count := i.length, aabb := v } v i := by
  obtain ⟨sub_mesh, hsub, hlods⟩ := hs
  have hlt : s < mesh.m_sub_meshes.length := by
    by_contra hge
    rw [List.getElem?_eq_none (Nat.le_of_not_lt hge)] at hsub
    exact Option.noConfusion hsub
  rw [AddLod_returns v i s mesh sub_mesh hsub] at h
  injection h with h
  subst h
  have hvl : v.length ≠ 0 := fun h0 => hv (List.length_eq_zero.mp h0)
  have hil : i.length ≠ 0 := fun h0 => hi (List.length_eq_zero.mp h0)
  rw [u32_of_lt _ (by omega), u32_of_lt v.length (by omega), u32_of_lt _ (by omega),
    u32_of_lt i.length (by omega), hlods, List.take_length]
  refine ⟨⟨_, List.getElem?_set_self (by simpa using hlt), rfl⟩, hvl, hil, ?_, ?_, ?_, ?_⟩
  · simp
  · simp
  · simp
  · simp

/-- One more `AddLod`, on whatever sub-mesh, leaves the recorded geometry in
place. -/
theorem AddLod_keeps_recorded (mesh mesh1 : Mesh) (s : Nat) (lod : MeshLod)
    (v : List RHI_Vertex_PosTexNorTan) (i : List Nat)
    (h : Geometry_recorded mesh s lod v i)
    (vertices : List RHI_Vertex_PosTexNorTan) (indices : List Nat) (sub_mesh_index : Nat)
    (hadd : AddLod vertices indices sub_mesh_index mesh = Except.ok mesh1) :
    Geometry_recorded mesh1 s lod v i := by
  cases hsub : mesh.m_sub_meshes[sub_mesh_index]? with
  | none =>
    rw [AddLod_of_no_sub_mesh vertices indices sub_mesh_index mesh hsub] at hadd
    exact Except.noConfusion hadd
  | some sub_mesh =>
    rw [AddLod_returns vertices indices sub_mesh_index mesh sub_mesh hsub] at hadd
    injection hadd with hadd
    subst hadd
    obtain ⟨first, hfirst, hlod⟩ := h.first_lod
    have hvw := h.vertices_within
    have hiw := h.indices_within
    refine ⟨?_, h.vertex_count, h.index_count, ?_, ?_, ?_, ?_⟩
    · by_cases heq : sub_mesh_index = s
      · subst heq
        have hlt : sub_mesh_index < mesh.m_sub_meshes.length := by
          by_contra hge
          rw [List.getElem?_eq_none (Nat.le_of_not_lt hge)] at hsub
          exact Option.noConfusion hsub
        rw [hsub] at hfirst
        injection hfirst with hfirst
        subst hfirst
        refine ⟨_, List.getElem?_set_self (by simpa using hlt), ?_⟩
        have hne : 0 < sub_mesh.lods.length := by
          by_contra hzero
          rw [List.getElem?_eq_none (Nat.le_of_not_lt hzero)] at hlod
          exact Option.noConfusion hlod
        show (sub_mesh.lods ++ _)[0]? = some lod
        rw [List.getElem?_append_left hne]
        exact hlod
      · refine ⟨first, ?_, hlod⟩
        show (mesh.m_sub_meshes.set sub_mesh_index _)[s]? = some first
        rw [List.getElem?_set_ne heq]
        exact hfirst
    · show lod.vertex_offset + lod.vertex_count ≤ (mesh.m_vertices ++ vertices).length
      rw [List.length_append]
      omega
    · show lod.index_offset + lod.index_count ≤ (mesh.m_indices ++ indices).length
      rw [List.length_append]
      omega
    · show ((mesh.m_vertices ++ vertices).drop lod.vertex_offset).take lod.vertex_count = v
      rw [List.drop_append_of_le_length (by omega), List.take_append_of_le_length (by
        rw [List.length_drop]; omega)]
      exact h.vertices
    · show ((mesh.m_indices ++ indices).drop lod.index_offset).take lod.index_count = i
      rw [List.drop_append_of_le_length (by omega), List.take_append_of_le_length (by
        rw [List.length_drop]; omega)]
      exact h.indices

/-- Any number of further calls of `AddLod` leave the recorded geometry in
place. -/
theorem AddLod_each_keeps_recorded (s : Nat) (lod : MeshLod)
    (v : List RHI_Vertex_PosTexNorTan) (i : List Nat)
    (later : List (List RHI_Vertex_PosTexNorTan × List Nat × Nat)) :
    ∀ mesh mesh1 : Mesh, Geometry_recorded mesh s lod v i →
      AddLod_each later mesh = Except.ok mesh1 → Geometry_recorded mesh1 s lod v i := by
  induction later with
  | nil =>
    intro mesh mesh1 h hrun
    injection hrun with hrun
    subst hrun
    exact h
  | cons call rest ih =>
    intro mesh mesh1 h hrun
    obtain ⟨vertices, indices, sub_mesh_index⟩ := call
    simp only [AddLod_each] at hrun
    cases hadd : AddLod vertices indices sub_mesh_index mesh with
    | error f =>
      rw [hadd] at hrun
      exact Except.noConfusion hrun
    | ok mesh2 =>
      rw [hadd] at hrun
      exact ih mesh2 mesh1 (AddLod_keeps_recorded mesh mesh2 s lod v i h vertices indices
        sub_mesh_index hadd) hrun

/-- Every call of `AddLod` that returns keeps the recorded ranges within the
buffers. -/
theorem AddLod_within (mesh mesh1 : Mesh) (vertices : List RHI_Vertex_PosTexNorTan)
    (indices : List Nat) (sub_mesh_index : Nat) (h : Lods_within mesh)
    (hadd : AddLod vertices indices sub_mesh_index mesh = Except.ok mesh1) :
    Lods_within mesh1 := by
  cases hsub : mesh.m_sub_meshes[sub_mesh_index]? with
  | none =>
    rw [AddLod_of_no_sub_mesh vertices indices sub_mesh_index mesh hsub] at hadd
    exact Except.noConfusion hadd
  | some sub_mesh =>
    rw [AddLod_returns vertices indices sub_mesh_index mesh sub_mesh hsub] at hadd
    injection hadd with hadd
    subst hadd
    intro sm hsm lod hlod
    simp only [List.length_append]
    have hold : ∀ sm ∈ mesh.m_sub_meshes, ∀ lod ∈ sm.lods,
        lod.vertex_offset + lod.vertex_count ≤ mesh.m_vertices.length + vertices.length ∧
          lod.index_offset + lod.index_count ≤ mesh.m_indices.length + indices.length := by
      intro sm hsm lod hlod
      have := h sm hsm lod hlod
      omega
    rcases List.mem_or_eq_of_mem_set hsm with hmem | heq
    · exact hold sm hmem lod hlod
    · subst heq
      simp only [List.mem_append, List.mem_singleton] at hlod
      rcases hlod with hlod | hlod
      · exact hold sub_mesh (List.getElem?_mem hsub) lod hlod
      · subst hlod
        have h1 := u32_le mesh.m_vertices.length
        have h2 := u32_le vertices.length
        have h3 := u32_le mesh.m_indices.length
        have h4 := u32_le indices.length
        simp only
        omega

/-- Any number of calls of `AddLod` that return keep the recorded ranges within
the buffers. -/
theorem AddLod_each_within (later : List (List RHI_Vertex_PosTexNorTan × List Nat × Nat)) :
    ∀ mesh mesh1 : Mesh, Lods_within mesh → AddLod_each later mesh = Except.ok mesh1 →
      Lods_within mesh1 := by
  induction later with
  | nil =>
    intro mesh mesh1 h hrun
    injection hrun with hrun
    subst hrun
    exact h
  | cons call rest ih =>
    intro mesh mesh1 h hrun
    obtain ⟨vertices, indices, sub_mesh_index⟩ := call
    simp only [AddLod_each] at hrun
    cases hadd : AddLod vertices indices sub_mesh_index mesh with
    | error f =>
      rw [hadd] at hrun
      exact Except.noConfusion hrun
    | ok mesh2 =>
      rw [hadd] at hrun
      exact ih mesh2 mesh1 (AddLod_within mesh mesh2 vertices indices sub_mesh_index h hadd) hrun

/-- C30: a mesh, a sub-mesh index `s` that exists and has no LOD yet, vertices
`v` and indices `i`, neither list empty, and buffers that stay below `2 ^ 32`
entries.  Then `AddLod(v, i, s)` returns; `GetGeometry(s, ...)` on the mesh it
leaves writes exactly `i` through the index pointer and exactly `v` through the
vertex pointer, whichever of the two pointers are given; and after any sequence
of further calls of `AddLod` that return, on any sub-meshes and with any
geometry, it still does.  The LOD recorded (`Geometry_recorded`) is the first
of sub-mesh `s` and its ranges lie within the vertex and index buffers, after
the call and after the further calls; and if every recorded range of the mesh
lay within the buffers before, every one does afterwards (`Lods_within`). -/
theorem AddLod_then_GetGeometry (mesh : Mesh) (s : Nat) (v : List RHI_Vertex_PosTexNorTan)
    (i : List Nat)
    (hs : ∃ sub_mesh, mesh.m_sub_meshes[s]? = some sub_mesh ∧ sub_mesh.lods = [])
    (hv : v ≠ []) (hi : i ≠ [])
    (hvsize : mesh.m_vertices.length + v.length < 2 ^ 32)
    (hisize : mesh.m_indices.length + i.length < 2 ^ 32) :
    ∃ mesh1, AddLod v i s mesh = Except.ok mesh1 ∧
      GetGeometry s true true mesh1 = Except.ok (some i, some v) ∧
      ∀ later mesh2, AddLod_each later mesh1 = Except.ok mesh2 →
        GetGeometry s true true mesh2 = Except.ok (some i, some v) ∧
          GetGeometry s true false mesh2 = Except.ok (some i, none) ∧
          GetGeometry s false true mesh2 = Except.ok (none, some v) ∧
          Geometry_recorded mesh2 s
            { vertex_offset := mesh.m_vertices.length, vertex_count := v.length,
              index_offset := mesh.m_indices.length, index_count := i.length, aabb := v } v i ∧
          (Lods_within mesh → Lods_within mesh2) := by
  obtain ⟨sub_mesh, hsub, hlods⟩ := hs
  have hadd := AddLod_returns v i s mesh sub_mesh hsub
  refine ⟨_, hadd, ?_, ?_⟩
  · exact GetGeometry_of_recorded _ s _ v i
      (AddLod_records mesh s v i _ ⟨sub_mesh, hsub, hlods⟩ hv hi hvsize hisize hadd) true true rfl
  · intro later mesh2 hlater
    have hrec := AddLod_each_keeps_recorded s _ v i later _ mesh2
      (AddLod_records mesh s v i _ ⟨sub_mesh, hsub, hlods⟩ hv hi hvsize hisize hadd) hlater
    refine ⟨GetGeometry_of_recorded mesh2 s _ v i hrec true true rfl,
      GetGeometry_of_recorded mesh2 s _ v i hrec true false rfl,
      GetGeometry_of_recorded mesh2 s _ v i hrec false true rfl, hrec, ?_⟩
    intro hwithin
    exact AddLod_each_within later _ mesh2 (AddLod_within mesh _ v i s hwithin hadd) hlater

/-- Witness of C30: on the demonstration mesh, two vertices and three indices
are added as the first LOD of sub-mesh 1; they come back from `GetGeometry`,
also after further LODs have been added to sub-mesh 0 and to sub-mesh 1. -/
theorem AddLod_then_GetGeometry_witness :
    ∃ mesh1, AddLod [⟨20⟩, ⟨21⟩] [0, 1, 1] 1 demo_mesh = Except.ok mesh1 ∧
      GetGeometry 1 true true mesh1 = Except.ok (some [0, 1, 1], some [⟨20⟩, ⟨21⟩]) ∧
      ∀ later mesh2, AddLod_each later mesh1 = Except.ok mesh2 →
        GetGeometry 1 true true mesh2 = Except.ok (some [0, 1, 1], some [⟨20⟩, ⟨21⟩]) ∧
          GetGeometry 1 true false mesh2 = Except.ok (some [0, 1, 1], none) ∧
          GetGeometry 1 false true mesh2 = Except.ok (none, some [⟨20⟩, ⟨21⟩]) ∧
          Geometry_recorded mesh2 1
            { vertex_offset := demo_mesh.m_vertices.length,
              vertex_count := ([⟨20⟩, ⟨21⟩] : List RHI_Vertex_PosTexNorTan).length,
              index_offset := demo_mesh.m_indices.length,
              index_count := ([0, 1, 1] : List Nat).length, aabb := [⟨20⟩, ⟨21⟩] }
            [⟨20⟩, ⟨21⟩] [0, 1, 1] ∧
          (Lods_within demo_mesh → Lods_within mesh2) :=
  AddLod_then_GetGeometry demo_mesh 1 [⟨20⟩, ⟨21⟩] [0, 1, 1] ⟨⟨[]⟩, rfl, rfl⟩
    (by decide) (by decide) (by decide) (by decide)

/-- The demonstration of C30 evaluated: the geometry added to sub-mesh 1 comes
back after a LOD has been added to sub-mesh 0 and a second one to sub-mesh 1. -/
theorem GetGeometry_on_demo_mesh :
    (match AddLod [⟨20⟩, ⟨21⟩] [0, 1, 1] 1 demo_mesh with
      | Except.error f => Except.error f
      | Except.ok mesh1 =>
        match AddLod_each [([⟨30⟩], [0], 0), ([⟨40⟩], [0, 0], 1)] mesh1 with
        | Except.error f => Except.error f
        | Except.ok mesh2 => GetGeometry 1 true true mesh2) =
      Except.ok (some [0, 1, 1], some [⟨20⟩, ⟨21⟩]) := by
  rfl

end spartan
